import Mathlib

set_option maxHeartbeats 1600000

/-!
Verification of the crontab-backed cron scheduler core of the openclaw
repository.  The TypeScript sources `src/cron/crontab-store.ts`,
`src/cron/crontab-exec.ts` and `src/gateway/server-methods/cron.ts` are
shallowly embedded below: strings are lists of characters, JavaScript
numbers that only ever hold integral values are `Int`, `undefined` on an
optional field is `Option.none`, and subprocess / network effects are
passed in as explicit inputs.  External helpers that live outside the
embedded files (`computeJobNextRunAtMs`, `isJobDue`, the SSRF-guarded
fetch, the URL normalizer, config lookups) are modelled as oracles
supplied by the environment records.
-/

namespace Openclaw

/-- Character-list model of JavaScript strings. -/
abbrev Str := List Char

/-- Converts a Lean string literal to the character-list model. -/
def str (s : String) : Str := s.toList

/-- The newline character. -/
def nlChar : Char := Char.ofNat 10

/-- Whitespace characters recognised by JavaScript `trim` and `\s`
(restricted to the ASCII range; the embedded crontab text is ASCII-framed
and encoded values never contain whitespace). -/
def isWsChar (c : Char) : Bool :=
  c == ' ' || c == Char.ofNat 9 || c == Char.ofNat 10 || c == Char.ofNat 13 ||
    c == Char.ofNat 11 || c == Char.ofNat 12

/-- Model of `String.prototype.trimStart`. -/
def jsTrimStart (l : Str) : Str := l.dropWhile isWsChar

/-- Model of `String.prototype.trimEnd`. -/
def jsTrimEnd (l : Str) : Str := (l.reverse.dropWhile isWsChar).reverse

/-- Model of `String.prototype.trim`. -/
def jsTrim (l : Str) : Str := jsTrimEnd (jsTrimStart l)

/-- Model of `text.trim().split(/\s+/).filter(Boolean)`: the maximal
whitespace-free nonempty runs of the string, in order. -/
def splitWsF : Str → List Str
  | [] => []
  | c :: t =>
    if isWsChar c then splitWsF t
    else
      match t with
      | [] => [[c]]
      | d :: _ =>
        if isWsChar d then [c] :: splitWsF t
        else
          match splitWsF t with
          | h :: r => (c :: h) :: r
          | [] => [[c]]

/-- Model of `Array.prototype.join(sep)` on a list of strings. -/
def joinSep (sep : Str) : List Str → Str
  | [] => []
  | [x] => x
  | x :: y :: rest => x ++ sep ++ joinSep sep (y :: rest)

/-- Model of `String.prototype.indexOf` (first occurrence of a substring). -/
def idxOfSub (l pat : Str) : Option Nat :=
  if pat.isPrefixOf l then some 0
  else
    match l with
    | [] => none
    | _ :: t => (idxOfSub t pat).map (· + 1)

/-- Model of `String.prototype.includes`. -/
def jsIncludes (l pat : Str) : Bool := (idxOfSub l pat).isSome

/-- Model of `String.prototype.startsWith`. -/
def jsStartsWith (l pat : Str) : Bool := pat.isPrefixOf l

/-- Model of `String.prototype.split` at a single-character separator
(JavaScript `s.split("\n")`): an empty string yields one empty piece. -/
def splitChar (sep : Char) : Str → List Str
  | [] => [[]]
  | c :: t =>
    if c = sep then [] :: splitChar sep t
    else
      match splitChar sep t with
      | [] => [[c]]
      | h :: r => (c :: h) :: r

/-- Decimal digits of a natural number (JavaScript `String(n)` for
nonnegative integral numbers). -/
def natToStr (n : Nat) : Str := Nat.toDigits 10 n

/-- Model of JavaScript `String(n)` for an integral number. -/
def intToStr (n : Int) : Str :=
  if n < 0 then '-' :: natToStr (-n).toNat else natToStr n.toNat

/-- Numeric value of a decimal digit character, if any. -/
def digitVal (c : Char) : Option Nat :=
  if 48 ≤ c.toNat ∧ c.toNat ≤ 57 then some (c.toNat - 48) else none

/-- Accumulates the leading run of decimal digits; `none` when the string
does not start with a digit. -/
def leadDigits : Str → Option Nat
  | [] => none
  | c :: t =>
    match digitVal c with
    | none => none
    | some d =>
      some (leadDigitsAux d t)
where
  leadDigitsAux (acc : Nat) : Str → Nat
    | [] => acc
    | c :: t =>
      match digitVal c with
      | none => acc
      | some d => leadDigitsAux (acc * 10 + d) t

/-- Model of `Number.parseInt(s, 10)`: skip leading whitespace, optional
sign, then the maximal run of decimal digits; `none` models `NaN`. -/
def jsParseInt (s : Str) : Option Int :=
  match jsTrimStart s with
  | '-' :: r => (leadDigits r).map (fun v => -(v : Int))
  | '+' :: r => (leadDigits r).map (fun v => (v : Int))
  | r => (leadDigits r).map (fun v => (v : Int))

/-- Characters left unescaped by `encodeURIComponent`
(`A-Z a-z 0-9 - _ . ! ~ * aposd ( )` per ECMA-262). -/
def isUriUnescaped (c : Char) : Bool :=
  let n := c.toNat
  (decide (65 ≤ n) && decide (n ≤ 90)) ||
  (decide (97 ≤ n) && decide (n ≤ 122)) ||
  (decide (48 ≤ n) && decide (n ≤ 57)) ||
  n == 45 || n == 95 || n == 46 || n == 33 || n == 126 || n == 42 ||
  n == 39 || n == 40 || n == 41

/-- The UTF-8 bytes of a code point. -/
def utf8Bytes (n : Nat) : List Nat :=
  if n < 128 then [n]
  else if n < 2048 then [192 + n / 64, 128 + n % 64]
  else if n < 65536 then [224 + n / 4096, 128 + n / 64 % 64, 128 + n % 64]
  else [240 + n / 262144, 128 + n / 4096 % 64, 128 + n / 64 % 64, 128 + n % 64]

/-- Uppercase hexadecimal digit character. -/
def hexDigitChar (n : Nat) : Char :=
  if n < 10 then Char.ofNat (48 + n) else Char.ofNat (55 + n)

/-- Percent-escape of one byte as used by `encodeURIComponent`. -/
def pctByte (b : Nat) : Str := ['%', hexDigitChar (b / 16), hexDigitChar (b % 16)]

/-- Model of `encodeURIComponent` (the source's `encodeValue`). -/
def encodeValue (s : Str) : Str :=
  s.flatMap fun c =>
    if isUriUnescaped c then [c] else (utf8Bytes c.toNat).flatMap pctByte

/-- Value of a hexadecimal digit character (either case), if any. -/
def hexVal (c : Char) : Option Nat :=
  let n := c.toNat
  if 48 ≤ n ∧ n ≤ 57 then some (n - 48)
  else if 65 ≤ n ∧ n ≤ 70 then some (n - 55)
  else if 97 ≤ n ∧ n ≤ 102 then some (n - 87)
  else none

/-- First phase of `decodeURIComponent`: every `%XX` escape becomes a
byte (`Sum.inr`), every other character passes through (`Sum.inl`); a `%`
not followed by two hexadecimal digits raises, modelled as `none`. -/
def pctTokens : Str → Option (List (Char ⊕ Nat))
  | [] => some []
  | '%' :: h1 :: h2 :: rest =>
    match hexVal h1, hexVal h2 with
    | some v1, some v2 => (pctTokens rest).map (.inr (16 * v1 + v2) :: ·)
    | _, _ => none
  | c :: rest => if c = '%' then none else (pctTokens rest).map (.inl c :: ·)

/-- Tests a UTF-8 continuation byte (`10xxxxxx`). -/
def isContByte (b : Nat) : Bool := decide (128 ≤ b) && decide (b < 192)

/-- Reads exactly `k` UTF-8 continuation bytes (`10xxxxxx`) off the front
of the unit list, returning their combined payload value (base-64 digits,
most significant first) and the remaining units. -/
def contBytes : Nat → List (Char ⊕ Nat) → Option (Nat × List (Char ⊕ Nat))
  | 0, rest => some (0, rest)
  | k + 1, .inr b :: rest =>
    if isContByte b then
      (contBytes k rest).map (fun p => (b % 64 * 64 ^ k + p.1, p.2))
    else none
  | _ + 1, _ => none

/-- Worker of the second phase of `decodeURIComponent`, with fuel (any
amount at least the list length): byte runs are decoded as strict UTF-8
(overlong encodings, stray or missing continuations, surrogates and
out-of-range code points raise, modelled as `none`). -/
def utf8Go : Nat → List (Char ⊕ Nat) → Option Str
  | _, [] => some []
  | 0, _ :: _ => none
  | fuel + 1, .inl c :: rest => (utf8Go fuel rest).map (c :: ·)
  | fuel + 1, .inr b :: rest =>
    if b < 128 then (utf8Go fuel rest).map (Char.ofNat b :: ·)
    else if b < 194 then none
    else if b < 224 then
      match contBytes 1 rest with
      | some (v, rest2) => (utf8Go fuel rest2).map (Char.ofNat (b % 32 * 64 + v) :: ·)
      | none => none
    else if b < 240 then
      match contBytes 2 rest with
      | some (v, rest3) =>
        let w := b % 16 * 4096 + v
        if 2048 ≤ w ∧ ¬ (55296 ≤ w ∧ w ≤ 57343) then
          (utf8Go fuel rest3).map (Char.ofNat w :: ·)
        else none
      | none => none
    else if b < 245 then
      match contBytes 3 rest with
      | some (v, rest4) =>
        let w := b % 8 * 262144 + v
        if 65536 ≤ w ∧ w ≤ 1114111 then
          (utf8Go fuel rest4).map (Char.ofNat w :: ·)
        else none
      | none => none
    else none

/-- Second phase of `decodeURIComponent` (see `utf8Go`). -/
def utf8FromUnits (us : List (Char ⊕ Nat)) : Option Str := utf8Go us.length us

/-- Model of `decodeURIComponent`. -/
def decodePct (s : Str) : Option Str := (pctTokens s).bind utf8FromUnits

/-- Model of the source's `decodeValue`: `decodeURIComponent` with the
original text returned when decoding raises. -/
def decodeValue (s : Str) : Str := (decodePct s).getD s

/-! Calendar arithmetic used to model the JavaScript `Date` object.
Days are counted from the Unix epoch (1970-01-01); the conversions are the
standard civil-calendar algorithms, written with Euclidean division so that
they are correct on dates before 1970 as well. -/

/-- Civil (year, month, day) of a day count from 1970-01-01. -/
def civilFromDays (z : Int) : Int × Int × Int :=
  let z2 := z + 719468
  let era := z2 / 146097
  let doe := z2 % 146097
  let yoe := (doe - doe / 1460 + doe / 36524 - doe / 146096) / 365
  let y := yoe + era * 400
  let doy := doe - (365 * yoe + yoe / 4 - yoe / 100)
  let mp := (5 * doy + 2) / 153
  let d := doy - (153 * mp + 2) / 5 + 1
  let m := mp + (if mp < 10 then 3 else -9)
  (if m ≤ 2 then y + 1 else y, m, d)

/-- Day count from 1970-01-01 of a civil (year, month, day). -/
def daysFromCivil (y m d : Int) : Int :=
  let y2 := if m ≤ 2 then y - 1 else y
  let era := y2 / 400
  let yoe := y2 - era * 400
  let doy := (153 * (m + (if m > 2 then -3 else 9)) + 2) / 5 + d - 1
  let doe := yoe * 365 + yoe / 4 - yoe / 100 + doy
  era * 146097 + doe - 719468

/-- Leap-year test of the Gregorian calendar. -/
def isLeapYear (y : Int) : Bool :=
  (y % 4 == 0 && y % 100 != 0) || y % 400 == 0

/-- Number of days in a month. -/
def daysInMonth (y m : Int) : Int :=
  if m = 2 then (if isLeapYear y then 29 else 28)
  else if m = 4 ∨ m = 6 ∨ m = 9 ∨ m = 11 then 30
  else 31

/-- Exactly `n` decimal digits read off the front of the input. -/
def digitsN (n : Nat) (s : Str) : Option (Nat × Str) :=
  go n 0 s
where
  go : Nat → Nat → Str → Option (Nat × Str)
    | 0, acc, s => some (acc, s)
    | _ + 1, _, [] => none
    | n + 1, acc, c :: t =>
      match digitVal c with
      | some d => go n (acc * 10 + d) t
      | none => none

/-- Milliseconds since the epoch of a wall-clock date-time (before any
timezone adjustment). -/
def msOfDateTime (y m d h mi sec ms : Int) : Int :=
  (daysFromCivil y m d * 86400 + h * 3600 + mi * 60 + sec) * 1000 + ms

/-- Parses the trailing timezone designator of an ISO date-time and
requires it to end the string: `some none` means no designator (a local
time), `some (some o)` an explicit offset of `o` minutes. -/
def parseTzEnd : Str → Option (Option Int)
  | [] => some none
  | ['Z'] => some (some 0)
  | c :: r =>
    if c = '+' ∨ c = '-' then
      match digitsN 2 r with
      | some (hh, ':' :: r2) =>
        match digitsN 2 r2 with
        | some (mm, []) =>
          if hh ≤ 23 ∧ mm ≤ 59 then
            some (some ((if c = '-' then -1 else 1) * ((hh : Int) * 60 + mm)))
          else none
        | _ => none
      | _ => none
    else none

/-- Parses `HH:mm[:ss[.sss]]`, returning hour, minute, second,
millisecond and the rest of the input. -/
def parseTimePart (s : Str) : Option (Nat × Nat × Nat × Nat × Str) :=
  match digitsN 2 s with
  | some (h, ':' :: r1) =>
    match digitsN 2 r1 with
    | some (mi, r2) =>
      match r2 with
      | ':' :: r3 =>
        match digitsN 2 r3 with
        | some (sec, '.' :: r4) =>
          match digitsN 3 r4 with
          | some (ms, r5) => some (h, mi, sec, ms, r5)
          | none => none
        | some (sec, r4) => some (h, mi, sec, 0, r4)
        | none => none
      | _ => some (h, mi, 0, 0, r2)
    | none => none
  | _ => none

/-- Model of `new Date(s)` on the ISO date-time string format
(`YYYY[-MM[-DD]][THH:mm[:ss[.sss]]][Z|±HH:mm]`, the ECMA-262 Date Time
String Format): returns the epoch milliseconds, or `none` for an invalid
date.  Date-only forms are UTC; date-time forms without a designator are
interpreted in the host timezone, passed in as `localOffsetMin` (minutes
to add to UTC to obtain local wall-clock time). -/
def jsDateParse (localOffsetMin : Int) (s : Str) : Option Int :=
  match digitsN 4 s with
  | none => none
  | some (y, r1) =>
    let datePart : Option (Nat × Nat × Str) :=
      match r1 with
      | '-' :: r2 =>
        match digitsN 2 r2 with
        | some (m, '-' :: r3) =>
          match digitsN 2 r3 with
          | some (d, r4) => some (m, d, r4)
          | none => none
        | some (m, r3) => some (m, 1, r3)
        | none => none
      | _ => some (1, 1, r1)
    match datePart with
    | none => none
    | some (m, d, r5) =>
      if 1 ≤ m ∧ m ≤ 12 ∧ 1 ≤ d ∧ (d : Int) ≤ daysInMonth (y : Int) (m : Int) then
        match r5 with
        | [] => checkRange (msOfDateTime y m d 0 0 0 0)
        | 'T' :: r6 =>
          match parseTimePart r6 with
          | none => none
          | some (h, mi, sec, ms, r7) =>
            if (h ≤ 23 ∨ (h = 24 ∧ mi = 0 ∧ sec = 0 ∧ ms = 0)) ∧ mi ≤ 59 ∧ sec ≤ 59 then
              match parseTzEnd r7 with
              | none => none
              | some tzo =>
                let wall := msOfDateTime y m d h mi sec ms
                let off := match tzo with
                  | some o => o
                  | none => localOffsetMin
                checkRange (wall - off * 60000)
            else none
        | _ => none
      else none
where
  checkRange (t : Int) : Option Int :=
    if t ≤ 8640000000000000 ∧ -8640000000000000 ≤ t then some t else none

/-- Local wall-clock milliseconds of an instant under a host timezone
offset in minutes. -/
def localMs (off t : Int) : Int := t + off * 60000

/-- Model of `Date.prototype.getSeconds` (local time). -/
def getSecondsL (off t : Int) : Int := (localMs off t) % 60000 / 1000

/-- Model of `Date.prototype.getMilliseconds` (local time). -/
def getMillisecondsL (off t : Int) : Int := (localMs off t) % 1000

/-- Model of `d.setMinutes(d.getMinutes() + 1, 0, 0)`: keeps the local
hour, bumps the minute (normalising overflow) and zeroes seconds and
milliseconds; returns the new epoch instant. -/
def jsSetMinutesBump (off t : Int) : Int :=
  let lm := localMs off t
  let hourStart := lm - lm % 3600000
  let minute := (lm % 3600000) / 60000
  hourStart + (minute + 1) * 60000 - off * 60000

/-- Five-field cron expression `minute hour day month *` of an instant in
local time, as the source's `at` branch emits it. -/
def atExprOf (off t : Int) : Str :=
  let lm := localMs off t
  let minute := (lm / 60000) % 60
  let hour := (lm / 3600000) % 24
  let cd := civilFromDays (lm / 86400000)
  intToStr minute ++ str " " ++ intToStr hour ++ str " " ++ intToStr cd.2.2 ++
    str " " ++ intToStr cd.2.1 ++ str " *"

/-! The data model of `src/cron/types.ts` is not part of the sources
provided; the shapes below are modelled from the spec (section 3, DATA
MODEL) and from how the embedded files use them.  JavaScript `undefined`
on an optional field is `none`; unvalidated string-typed fields
(`sessionTarget`, `wakeMode`, `delivery.mode`) stay plain strings because
the decoder casts without checking. -/

/-- Modelled from the spec: the `CronSchedule` tagged union of
`src/cron/types.ts` (`cron` | `every` | `at`). -/
inductive CronSchedule where
  | cron (expr : Str) (tz : Option Str) (staggerMs : Option Int)
  | every (everyMs : Int) (anchorMs : Option Int)
  | atTime (a : Str)
deriving DecidableEq, Repr

/-- Result of `resolveCrontabSchedule`:
`{ok:true, expr}` or `{ok:false, error}`. -/
inductive ScheduleResult where
  | ok (expr : Str)
  | err (error : Str)
deriving DecidableEq, Repr

/-- JavaScript truthiness of an optional string. -/
def optStrTruthy : Option Str → Bool
  | some s => s ≠ []
  | none => false

/-- Model of `resolveCrontabSchedule` from `src/cron/crontab-store.ts`.
The extra `off` argument is the host-local timezone offset in minutes
(the ambient locale of the JavaScript `Date` methods used by the `at`
branch); the other branches ignore it. -/
def resolveCrontabSchedule (off : Int) (schedule : CronSchedule) : ScheduleResult :=
  match schedule with
  | .cron expr tz staggerMs =>
    let e := jsTrim expr
    if e = [] then .err (str "cron expression is required")
    else
      let parts := splitWsF e
      if parts.length = 6 then
        .err (str "crontab does not support 6-field cron (seconds)")
      else if parts.length ≠ 5 then
        .err (str "crontab requires a 5-field cron expression")
      else if optStrTruthy tz then
        .err (str "crontab scheduler does not support per-job timezones")
      else if (staggerMs.map (fun v => decide (0 < v))).getD false then
        .err (str "crontab scheduler does not support stagger")
      else .ok e
  | .every everyMs anchorMs =>
    if everyMs ≤ 0 then .err (str "every schedule requires a positive interval")
    else if anchorMs.isSome then
      .err (str "crontab scheduler does not support anchored intervals")
    else if everyMs % 60000 ≠ 0 then
      .err (str "crontab scheduler supports 1-minute granularity")
    else
      let minutes := everyMs / 60000
      if minutes ≤ 0 then .err (str "every schedule must be at least 1 minute")
      else if minutes < 60 ∧ (60 : Int) % minutes = 0 then
        .ok (str "*/" ++ intToStr minutes ++ str " * * * *")
      else if everyMs % 3600000 = 0 ∧ 0 < everyMs / 3600000 ∧
          (24 : Int) % (everyMs / 3600000) = 0 then
        .ok (str "0 */" ++ intToStr (everyMs / 3600000) ++ str " * * *")
      else if everyMs % 86400000 = 0 ∧ 0 < everyMs / 86400000 ∧
          everyMs / 86400000 ≤ 31 then
        .ok (str "0 0 */" ++ intToStr (everyMs / 86400000) ++ str " * *")
      else .err (str "every schedule interval is not representable in crontab")
  | .atTime a =>
    let raw := jsTrim a
    match (if raw = [] then none else jsDateParse off raw) with
    | none => .err (str "invalid schedule.at timestamp")
    | some t =>
      let adjusted :=
        if 0 < getSecondsL off t ∨ 0 < getMillisecondsL off t then
          jsSetMinutesBump off t
        else t
      .ok (atExprOf off adjusted)

/-- Modelled from the spec: the `agentTurn` payload fields of
`src/cron/types.ts`. -/
structure AgentTurnPayload where
  message : Str
  model : Option Str := none
  thinking : Option Str := none
  timeoutSeconds : Option Int := none
  allowUnsafeExternalContent : Option Bool := none
  deliver : Option Bool := none
  channel : Option Str := none
  toAddr : Option Str := none
  bestEffortDeliver : Option Bool := none
deriving DecidableEq, Repr

/-- Modelled from the spec: the payload tagged union of
`src/cron/types.ts` (`systemEvent` | `agentTurn`). -/
inductive CronPayload where
  | systemEvent (text : Str)
  | agentTurn (p : AgentTurnPayload)
deriving DecidableEq, Repr

/-- Kind discriminator string of a payload (`payload.kind`). -/
def CronPayload.kind : CronPayload → Str
  | .systemEvent _ => str "systemEvent"
  | .agentTurn _ => str "agentTurn"

/-- Modelled from the spec: the `delivery` record of `src/cron/types.ts`.
The decoder casts `delivery_mode` without validating it, so `mode` is a
plain string. -/
structure CronDelivery where
  mode : Str
  channel : Option Str := none
  toAddr : Option Str := none
  bestEffort : Option Bool := none
deriving DecidableEq, Repr

/-- Modelled from the spec: per-job derived state (`state.nextRunAtMs`). -/
structure CronState where
  nextRunAtMs : Option Int := none
deriving DecidableEq, Repr

/-- Modelled from the spec: the `CronJob` entity of `src/cron/types.ts`.
`sessionTarget` and `wakeMode` are plain strings because the decoder
casts them without validation. -/
structure CronJob where
  id : Str
  agentId : Option Str := none
  sessionKey : Option Str := none
  name : Str
  description : Option Str := none
  enabled : Bool
  deleteAfterRun : Option Bool := none
  createdAtMs : Int
  updatedAtMs : Int
  schedule : CronSchedule
  sessionTarget : Str
  wakeMode : Str
  payload : CronPayload
  delivery : Option CronDelivery := none
  state : CronState := {}
deriving DecidableEq, Repr

/-- The `openclaw:cron` tag. -/
def TAG : Str := str "openclaw:cron"

/-- The tagged-line marker `# openclaw:cron`. -/
def TAGP : Str := str "# openclaw:cron"

/-- The run-command marker `openclaw cron run`. -/
def CRON_COMMAND : Str := str "openclaw cron run"

/-- Conditional key-value for a truthy optional string
(`if (x) rec.k = x`). -/
def optTruthyKV (k : Str) : Option Str → List (Str × Str)
  | some v => if v ≠ [] then [(k, v)] else []
  | none => []

/-- Conditional key-value for a present optional boolean
(`if (x !== undefined) rec.k = x ? "true" : "false"`). -/
def optBoolKV (k : Str) : Option Bool → List (Str × Str)
  | some b => [(k, if b then str "true" else str "false")]
  | none => []

/-- Conditional key-value for a present optional number
(`if (x !== undefined) rec.k = String(x)`). -/
def optNumKV (k : Str) : Option Int → List (Str × Str)
  | some n => [(k, intToStr n)]
  | none => []

/-- Model of the source's `buildTaggedLine`: drops empty values, joins
`key=encodeURIComponent(value)` tokens after the tag marker. -/
def buildTaggedLine (values : List (Str × Str)) : Str :=
  let parts := (values.filter (fun kv => kv.2 ≠ [])).map
    (fun kv => kv.1 ++ '=' :: encodeValue kv.2)
  jsTrim (TAGP ++ ' ' :: joinSep (str " ") parts)

/-- Kind discriminator string of a schedule (`schedule.kind`). -/
def CronSchedule.kind : CronSchedule → Str
  | .cron .. => str "cron"
  | .every .. => str "every"
  | .atTime _ => str "at"

/-- The base metadata key-values of a job, in the insertion order of the
source's object literal. -/
def baseKVs (job : CronJob) : List (Str × Str) :=
  [(str "id", job.id), (str "name", job.name),
   (str "enabled", if job.enabled then str "true" else str "false"),
   (str "session_target", job.sessionTarget),
   (str "wake_mode", job.wakeMode),
   (str "created_at_ms", intToStr job.createdAtMs),
   (str "updated_at_ms", intToStr job.updatedAtMs)]
  ++ optTruthyKV (str "description") job.description
  ++ optTruthyKV (str "agent_id") job.agentId
  ++ optTruthyKV (str "session_key") job.sessionKey
  ++ optBoolKV (str "delete_after_run") job.deleteAfterRun

/-- The payload metadata key-values of a job. -/
def payloadKVs (job : CronJob) : List (Str × Str) :=
  match job.payload with
  | .agentTurn p =>
    [(str "id", job.id), (str "payload_kind", str "agentTurn"),
     (str "payload_message", p.message)]
    ++ optTruthyKV (str "payload_model") p.model
    ++ optTruthyKV (str "payload_thinking") p.thinking
    ++ optNumKV (str "payload_timeout_seconds") p.timeoutSeconds
    ++ optBoolKV (str "payload_allow_unsafe_external_content") p.allowUnsafeExternalContent
    ++ optBoolKV (str "payload_deliver") p.deliver
    ++ optTruthyKV (str "payload_channel") p.channel
    ++ optTruthyKV (str "payload_to") p.toAddr
    ++ optBoolKV (str "payload_best_effort_deliver") p.bestEffortDeliver
  | .systemEvent text =>
    [(str "id", job.id), (str "payload_kind", str "systemEvent"),
     (str "payload_text", text)]

/-- The delivery metadata lines of a job (absent for `mode:"none"` or no
delivery). -/
def deliveryLinesOf (job : CronJob) : List Str :=
  match job.delivery with
  | some dv =>
    if dv.mode ≠ str "none" then
      [buildTaggedLine ([(str "id", job.id), (str "delivery_mode", dv.mode)]
        ++ optTruthyKV (str "delivery_channel") dv.channel
        ++ optTruthyKV (str "delivery_to") dv.toAddr
        ++ optBoolKV (str "delivery_best_effort") dv.bestEffort)]
    else []
  | none => []

/-- The schedule metadata key-values of a job. -/
def scheduleKVs (job : CronJob) : List (Str × Str) :=
  (str "id", job.id) :: (str "schedule_kind", job.schedule.kind) ::
  (match job.schedule with
   | .atTime a => [(str "schedule_at", a)]
   | .every everyMs anchorMs =>
     (str "schedule_every_ms", intToStr everyMs) ::
       optNumKV (str "schedule_anchor_ms") anchorMs
   | .cron expr tz staggerMs =>
     (str "schedule_expr", expr) ::
       (optTruthyKV (str "schedule_tz") tz
        ++ optNumKV (str "schedule_stagger_ms") staggerMs))

/-- The `CRON_TZ=<tz>` prefix lines of the schedule line (`cron` kind
with a truthy tz only). -/
def tzPrefixLines (job : CronJob) : List Str :=
  match job.schedule with
  | .cron _ tz _ =>
    match tz with
    | some t => if t ≠ [] then [str "CRON_TZ=" ++ t] else []
    | none => []
  | _ => []

/-- The `CRON_TZ=` reset lines after the schedule line. -/
def tzResetLines (job : CronJob) : List Str :=
  match job.schedule with
  | .cron _ tz _ =>
    match tz with
    | some t => if t ≠ [] then [str "CRON_TZ="] else []
    | none => []
  | _ => []

/-- The execution line before the enable/disable prefix is applied. -/
def execLineOf (job : CronJob) (cronExpr : Str) : Str :=
  cronExpr ++ ' ' :: CRON_COMMAND ++ ' ' :: job.id ++ ' ' :: TAGP ++
    str " id=" ++ encodeValue job.id

/-- Model of `buildTaggedEntryLines` from `src/cron/crontab-store.ts`:
the tagged crontab lines of one job; an infeasible schedule throws,
modelled as `Except.error`. -/
def buildTaggedEntryLines (off : Int) (job : CronJob) : Except Str (List Str) :=
  match resolveCrontabSchedule off job.schedule with
  | .err e => .error (str "job " ++ job.id ++ str ": " ++ e)
  | .ok cronExpr =>
    .ok ([buildTaggedLine (baseKVs job), buildTaggedLine (payloadKVs job)]
      ++ deliveryLinesOf job
      ++ [buildTaggedLine (scheduleKVs job)]
      ++ tzPrefixLines job
      ++ [if job.enabled then execLineOf job cronExpr
          else str "# " ++ execLineOf job cronExpr]
      ++ tzResetLines job)

/-- Parse state of one tagged entry (the source's `ParsedTaggedEntry`).
The metadata dictionary is an ordered association list; later pairs
override earlier ones on lookup, matching object spread. -/
structure ParsedTaggedEntry where
  id : Str
  meta : List (Str × Str) := []
  scheduleLine : Option Str := none
  scheduleDisabled : Option Bool := none
  scheduleExpr : Option Str := none
  scheduleTz : Option Str := none
  scheduleIndex : Option Nat := none
deriving DecidableEq, Repr

/-- Last-wins lookup in an ordered metadata association list. -/
def metaGet (m : List (Str × Str)) (k : Str) : Option Str :=
  (m.reverse.find? (fun kv => kv.1 == k)).map (·.2)

/-- Model of `parseKeyValueTokens`: whitespace-separated `key=value`
tokens, keys nonempty, values percent-decoded. -/
def parseKeyValueTokens (text : Str) : List (Str × Str) :=
  (splitWsF text).filterMap fun token =>
    match idxOfSub token (str "=") with
    | none => none
    | some eq =>
      if eq = 0 then none
      else
        let key := jsTrim (token.take eq)
        let rawValue := jsTrim (token.drop (eq + 1))
        if key = [] then none else some (key, decodeValue rawValue)

/-- Model of `parseTaggedLine`: metadata of a line containing the tag
marker, `none` when the marker is absent. -/
def parseTaggedLine (line : Str) : Option (List (Str × Str)) :=
  match idxOfSub line TAGP with
  | none => none
  | some markerIndex =>
    some (parseKeyValueTokens (jsTrim (line.drop (markerIndex + TAGP.length))))

/-- Result of `parseScheduleLine`. -/
structure ScheduleLineInfo where
  expr : Str
  disabled : Bool
deriving DecidableEq, Repr

/-- Model of `rawLine.replace(/^#\s*/, "")`. -/
def stripHashWs : Str → Str
  | '#' :: t => jsTrimStart t
  | l => l

/-- Model of `parseScheduleLine`: recognises an execution line (tag and
run-command markers, at least 7 fields), extracting the five-field
expression and the disabled flag. -/
def parseScheduleLine (rawLine : Str) : Option ScheduleLineInfo :=
  let trimmed := jsTrimStart rawLine
  let disabled := jsStartsWith trimmed (str "#")
  let line := if disabled then stripHashWs trimmed else trimmed
  if ¬ jsIncludes line TAG then none
  else if ¬ jsIncludes line CRON_COMMAND then none
  else
    let parts := splitWsF line
    if parts.length < 7 then none
    else some ⟨joinSep (str " ") (parts.take 5), disabled⟩

/-- Finds an entry by id (`entries.get(id)`). -/
def entriesFind (es : List ParsedTaggedEntry) (id : Str) : Option ParsedTaggedEntry :=
  es.find? (fun e => e.id == id)

/-- Inserts or replaces an entry by id, preserving first-insertion order
(`entries.set(id, entry)` on a `Map`). -/
def entriesSet (es : List ParsedTaggedEntry) (e : ParsedTaggedEntry) :
    List ParsedTaggedEntry :=
  if es.any (fun x => x.id == e.id) then
    es.map (fun x => if x.id == e.id then e else x)
  else es ++ [e]

/-- One step of the main loop of `findTaggedEntries` (the body of its
`for` loop over the enumerated lines). -/
def findTaggedStep (acc : List ParsedTaggedEntry × List Str) (p : Nat × Str) :
    List ParsedTaggedEntry × List Str :=
  let entries := acc.1
  let errors := acc.2
  let i := p.1
  let rawLine := p.2
  let line := jsTrim rawLine
  if ¬ jsIncludes line TAGP then acc
  else
    let metaOpt := parseTaggedLine rawLine
    let idOpt := metaOpt.bind (fun meta => metaGet meta (str "id"))
    match metaOpt, idOpt with
    | some meta, some idv =>
      if idv = [] then
        (entries, errors ++ [str "Tagged cron line missing id: " ++ rawLine])
      else
        let entry := (entriesFind entries idv).getD { id := idv }
        let entry := { entry with meta := entry.meta ++ meta }
        let entry :=
          match parseScheduleLine rawLine with
          | some si =>
            { entry with
                scheduleLine := some rawLine
                scheduleIndex := some i
                scheduleDisabled := some si.disabled
                scheduleExpr := some si.expr }
          | none => entry
        (entriesSet entries entry, errors)
    | _, _ =>
      (entries, errors ++ [str "Tagged cron line missing id: " ++ rawLine])

/-- Main loop of `findTaggedEntries`, before the `CRON_TZ` back-scan. -/
def findTaggedEntriesCore (lines : List Str) : List ParsedTaggedEntry × List Str :=
  lines.enum.foldl findTaggedStep ([], [])

/-- Model of `findTaggedEntries`: groups tagged lines by id and adopts a
`CRON_TZ=` line immediately preceding each schedule line. -/
def findTaggedEntries (lines : List Str) : List ParsedTaggedEntry × List Str :=
  let core := findTaggedEntriesCore lines
  let entries := core.1.map fun e =>
    match e.scheduleIndex with
    | some idx =>
      if 0 < idx then
        match lines[idx - 1]? with
        | some prev =>
          let prevLine := jsTrim prev
          if jsStartsWith prevLine (str "CRON_TZ=") then
            let tzv := jsTrim (prevLine.drop (str "CRON_TZ=").length)
            { e with scheduleTz := if tzv = [] then none else some tzv }
          else e
        | none => e
      else e
    | none => e
  (entries, core.2)

/-- Model of `meta.x || undefined`: a present nonempty string. -/
def jsOptStrOrUndef : Option Str → Option Str
  | some s => if s ≠ [] then some s else none
  | none => none

/-- Model of `meta.x === "true" ? true : undefined`. -/
def trueFlag (v : Option Str) : Option Bool :=
  if v = some (str "true") then some true else none

/-- Model of `meta.x ? Number.parseInt(meta.x, 10) : undefined`.  An
unparseable stored value yields `NaN` in JavaScript; `NaN` has no `Int`
representative and is collapsed to `none` (the encoder only ever stores
decimal numerals, for which this case is unreachable). -/
def jsOptNum : Option Str → Option Int
  | some s => if s ≠ [] then jsParseInt s else none
  | none => none

/-- Model of `Number.parseInt(meta.x ?? "0", 10) || Date.now()`. -/
def numOrNow (v : Option Str) (now : Int) : Int :=
  match jsParseInt (v.getD (str "0")) with
  | none => now
  | some 0 => now
  | some n => n

/-- Model of `resolveSchedule` from `src/cron/crontab-store.ts`. -/
def resolveSchedule (meta : List (Str × Str)) (entry : ParsedTaggedEntry) :
    Option CronSchedule :=
  let kind := (metaGet meta (str "schedule_kind")).getD (str "cron")
  if kind = str "at" then
    let a := (metaGet meta (str "schedule_at")).getD []
    if a = [] then none else some (.atTime a)
  else if kind = str "every" then
    let raw := (metaGet meta (str "schedule_every_ms")).getD []
    match jsParseInt raw with
    | none => none
    | some everyMs =>
      if everyMs ≤ 0 then none
      else some (.every everyMs (jsOptNum (metaGet meta (str "schedule_anchor_ms"))))
  else
    let expr := (metaGet meta (str "schedule_expr")).getD (entry.scheduleExpr.getD [])
    if expr = [] then none
    else
      let mtz := (metaGet meta (str "schedule_tz")).getD []
      let tz :=
        if mtz ≠ [] then some mtz
        else
          match entry.scheduleTz with
          | some v => if v ≠ [] then some v else none
          | none => none
      some (.cron expr tz (jsOptNum (metaGet meta (str "schedule_stagger_ms"))))

/-- Model of `buildJobFromEntry` from `src/cron/crontab-store.ts`.
`computeNext` is the external `computeJobNextRunAtMs` helper and `now`
is `Date.now()`. -/
def buildJobFromEntry (computeNext : CronJob → Int → Option Int) (now : Int)
    (entry : ParsedTaggedEntry) : Option CronJob :=
  let meta := entry.meta
  let id := jsTrim ((metaGet meta (str "id")).getD [])
  if id = [] then none
  else
    match resolveSchedule meta entry with
    | none => none
    | some schedule =>
      let payloadKind := (metaGet meta (str "payload_kind")).getD (str "systemEvent")
      let payload :=
        if payloadKind = str "agentTurn" then
          CronPayload.agentTurn {
            message := (metaGet meta (str "payload_message")).getD []
            model := jsOptStrOrUndef (metaGet meta (str "payload_model"))
            thinking := jsOptStrOrUndef (metaGet meta (str "payload_thinking"))
            timeoutSeconds := jsOptNum (metaGet meta (str "payload_timeout_seconds"))
            allowUnsafeExternalContent :=
              trueFlag (metaGet meta (str "payload_allow_unsafe_external_content"))
            deliver := trueFlag (metaGet meta (str "payload_deliver"))
            channel := jsOptStrOrUndef (metaGet meta (str "payload_channel"))
            toAddr := jsOptStrOrUndef (metaGet meta (str "payload_to"))
            bestEffortDeliver := trueFlag (metaGet meta (str "payload_best_effort_deliver")) }
        else
          CronPayload.systemEvent
            ((metaGet meta (str "payload_text")).getD
              ((metaGet meta (str "payload_message")).getD []))
      let deliveryMode := (metaGet meta (str "delivery_mode")).getD (str "none")
      let delivery :=
        if deliveryMode = str "none" then none
        else some ({ mode := deliveryMode
                     channel := jsOptStrOrUndef (metaGet meta (str "delivery_channel"))
                     toAddr := jsOptStrOrUndef (metaGet meta (str "delivery_to"))
                     bestEffort := trueFlag (metaGet meta (str "delivery_best_effort")) }
                   : CronDelivery)
      let enabled :=
        if entry.scheduleDisabled = some true then false
        else metaGet meta (str "enabled") ≠ some (str "false")
      let job : CronJob := {
        id
        agentId := jsOptStrOrUndef (metaGet meta (str "agent_id"))
        sessionKey := jsOptStrOrUndef (metaGet meta (str "session_key"))
        name := (metaGet meta (str "name")).getD id
        description := jsOptStrOrUndef (metaGet meta (str "description"))
        enabled
        deleteAfterRun := trueFlag (metaGet meta (str "delete_after_run"))
        createdAtMs := numOrNow (metaGet meta (str "created_at_ms")) now
        updatedAtMs := numOrNow (metaGet meta (str "updated_at_ms")) now
        schedule
        sessionTarget := (metaGet meta (str "session_target")).getD (str "main")
        wakeMode := (metaGet meta (str "wake_mode")).getD (str "now")
        payload
        delivery
        state := {} }
      some (if job.enabled then
              { job with state := { nextRunAtMs := computeNext job now } }
            else job)

/-- Resolved outcome of a spawned `crontab` subprocess (after the
`runCommand` wrapper trimmed trailing whitespace from both streams). -/
structure ExecResult where
  ok : Bool
  stdout : Str
  stderr : Str
deriving DecidableEq, Repr

/-- Model of the `runCommand` resolution: trailing whitespace of both
captured streams is trimmed (`stdout.trimEnd()`, `stderr.trimEnd()`). -/
def runCommandResolve (exitOk : Bool) (rawStdout rawStderr : Str) : ExecResult :=
  ⟨exitOk, jsTrimEnd rawStdout, jsTrimEnd rawStderr⟩

/-- ASCII lowercase map (model of `toLowerCase` on the ASCII range; the
probed substring `no crontab` is ASCII). -/
def jsToLower (s : Str) : Str :=
  s.map fun c =>
    if 65 ≤ c.toNat ∧ c.toNat ≤ 90 then Char.ofNat (c.toNat + 32) else c

/-- Line-list and error-list of `readCrontabSnapshot` before tagged-entry
parsing: success splits stdout on newlines, a `no crontab` failure is
empty, any other failure records an error message and yields no lines. -/
def readCrontabLines (res : ExecResult) : List Str × List Str :=
  if res.ok then
    ((if res.stdout ≠ [] then splitChar nlChar res.stdout else []), [])
  else if jsIncludes (jsToLower res.stderr) (str "no crontab") then
    ([], [])
  else
    ([], [str "crontab: " ++ (if res.stderr ≠ [] then res.stderr else str "failed to read")])

/-- The crontab snapshot record. -/
structure CrontabSnapshot where
  lines : List Str
  jobs : List CronJob
  errors : List Str
deriving DecidableEq, Repr

/-- Decoding of a line list into jobs, as `readCrontabSnapshot` does:
`findTaggedEntries` then `buildJobFromEntry` with null jobs dropped. -/
def decodeJobs (computeNext : CronJob → Int → Option Int) (now : Int)
    (lines : List Str) : List CronJob × List Str :=
  let found := findTaggedEntries lines
  (found.1.filterMap (buildJobFromEntry computeNext now), found.2)

/-- Model of `readCrontabSnapshot`, with the `crontab -l` outcome passed
in as `res`. -/
def readCrontabSnapshot (computeNext : CronJob → Int → Option Int) (now : Int)
    (res : ExecResult) : CrontabSnapshot :=
  let read := readCrontabLines res
  let decoded := decodeJobs computeNext now read.1
  ⟨read.1, decoded.1, read.2 ++ decoded.2⟩

/-- Worker of `collapseNl`: with the flag set the head of the input is
still part of an already-collapsed newline run and further newlines are
swallowed. -/
def collapseNlGo : Bool → Str → Str
  | _, [] => []
  | true, c :: t => if c = nlChar then collapseNlGo true t else c :: collapseNlGo false t
  | false, c :: t =>
    match t with
    | d :: e :: t2 =>
      if c = nlChar ∧ d = nlChar ∧ e = nlChar then
        nlChar :: nlChar :: collapseNlGo true t2
      else c :: collapseNlGo false (d :: e :: t2)
    | [d] => [c, d]
    | [] => [c]

/-- Model of `content.replace(/\n{3,}/g, "\n\n")`: every maximal run of
three or more newlines becomes two. -/
def collapseNl (l : Str) : Str := collapseNlGo false l

/-- Model of `jobs.flatMap((job) => buildTaggedEntryLines(job))`: the
concatenated entry lines, with the first throw propagated. -/
def entryLinesAll (off : Int) : List CronJob → Except Str (List Str)
  | [] => .ok []
  | j :: js =>
    match buildTaggedEntryLines off j, entryLinesAll off js with
    | .ok l, .ok rest => .ok (l ++ rest)
    | .error e, _ => .error e
    | .ok _, .error e => .error e

/-- Model of the content construction of `writeCrontabJobs`: unmanaged
lines kept, a blank separator when any remain, the encoded entries, a
trailing blank, joined with newlines and newline runs collapsed.  An
infeasible schedule in `jobs` throws, modelled as `Except.error`. -/
def writeCrontabContent (off : Int) (jobs : List CronJob) (existingLines : List Str) :
    Except Str Str :=
  let filtered := existingLines.filter
    (fun line => ¬ jsIncludes line TAGP ∧ ¬ jsIncludes line TAG)
  match entryLinesAll off jobs with
  | .error e => .error e
  | .ok entries =>
    let nextLines := filtered ++ (if filtered.length ≠ 0 then [([] : Str)] else [])
      ++ entries ++ [([] : Str)]
    .ok (collapseNl (joinSep (str "\n") nextLines))

/-- Run outcome record (`CronRunOutcome` of `src/cron/types.ts`,
modelled from the spec). -/
structure CronRunOutcome where
  status : Str
  error : Option Str := none
  errorKind : Option Str := none
  summary : Option Str := none
  sessionId : Option Str := none
  sessionKey : Option Str := none
deriving DecidableEq, Repr

/-- The `CrontabRunResult` union of `src/cron/crontab-exec.ts`:
`{ok:true, ran:false, reason}`, `{ok:true, ran:true, outcome,
nextRunAtMs?}` or `{ok:false, error}`. -/
inductive CrontabRunResult where
  | skipped (reason : Str)
  | ran (outcome : CronRunOutcome) (nextRunAtMs : Option Int)
  | failed (error : Str)
deriving DecidableEq, Repr

/-- Observable side effects dispatched by `runCrontabJob`. -/
inductive RunEffect where
  | enqueueSystemEvent (text : Str) (sessionKey : Str)
  | heartbeatWake (agentId : Str) (sessionKey : Str)
  | isolatedTurn (message : Str)
deriving DecidableEq, Repr

/-- Result delivered by the external `runCronIsolatedAgentTurn`. -/
structure TurnResult where
  status : Option Str := none
  error : Option Str := none
  summary : Option Str := none
  sessionId : Option Str := none
  sessionKey : Option Str := none
deriving DecidableEq, Repr

/-- Return record of `deliverWebhook`. -/
structure WebhookResult where
  delivered : Bool
  error : Option Str := none
deriving DecidableEq, Repr

/-- Oracles for everything `runCrontabJob` consumes outside the embedded
files: `isJobDue`, agent/session resolution from the config, the isolated
turn runner, the webhook URL normalizer and the guarded fetch, and
`computeJobNextRunAtMs`. -/
structure RunEnv where
  isDue : Bool
  defaultAgentId : Str
  mainSessionKeyOf : Str → Str
  turn : TurnResult
  urlOk : Bool
  fetchOutcome : Except Str Bool
  fetchStatus : Int
  computeNext : Option Int
  writeFails : Option Str

/-- Model of `shouldRunJob` from `src/cron/crontab-exec.ts`:
`force` runs unconditionally, `due` consults `isJobDue` (the `isDue`
oracle). -/
inductive RunMode where
  | due
  | force
deriving DecidableEq, Repr

/-- Model of `shouldRunJob`. -/
def shouldRunJob (env : RunEnv) (_job : CronJob) (mode : RunMode) : Bool :=
  if mode = .force then true else env.isDue

/-- Model of `resolveJobNextRun`: `undefined` for disabled jobs, else
`computeJobNextRunAtMs(job, nowMs)` (the `computeNext` oracle). -/
def resolveJobNextRun (env : RunEnv) (job : CronJob) : Option Int :=
  if ¬ job.enabled then none else env.computeNext

/-- Model of `deliverWebhook` from `src/cron/crontab-exec.ts`: only for
`delivery.mode === "webhook"`; an unnormalizable URL yields
`invalid webhook url`, a non-2xx response `webhook failed: <status>`, a
thrown fetch error its string form. -/
def deliverWebhook (env : RunEnv) (job : CronJob) : WebhookResult :=
  if (job.delivery.map (·.mode)) ≠ some (str "webhook") then ⟨false, none⟩
  else if ¬ env.urlOk then ⟨false, some (str "invalid webhook url")⟩
  else
    match env.fetchOutcome with
    | .ok resOk =>
      ⟨resOk, if resOk then none else some (str "webhook failed: " ++ intToStr env.fetchStatus)⟩
    | .error e => ⟨false, some e⟩

/-- JavaScript truthiness of the webhook `error` field. -/
def webhookErrTruthy : Option Str → Bool
  | some e => e ≠ []
  | none => false

/-- The outcome mutation `runCrontabJob` applies when delivery failed and
the job is not best-effort (`if (webhook.error && bestEffort !== true)`). -/
def foldWebhookError (job : CronJob) (outcome : CronRunOutcome) (w : WebhookResult) :
    CronRunOutcome :=
  if webhookErrTruthy w.error ∧ job.delivery.bind (·.bestEffort) ≠ some true then
    { outcome with
        status := str "error"
        error := w.error
        errorKind := some (str "delivery-target") }
  else outcome

/-- The session key the main branch resolves
(`job.sessionKey ?? resolveAgentMainSessionKey(cfg, agentId)`). -/
def mainSessionKeyFor (env : RunEnv) (job : CronJob) : Str :=
  job.sessionKey.getD (env.mainSessionKeyOf (job.agentId.getD env.defaultAgentId))

/-- The outcome each dispatch branch constructs before webhook delivery:
`{status:"ok", sessionKey}` on the main branch, the isolated turn result
(missing status defaulted to `"ok"`) otherwise. -/
def preOutcome (env : RunEnv) (job : CronJob) : CronRunOutcome :=
  if job.sessionTarget = str "main" then
    { status := str "ok", sessionKey := some (mainSessionKeyFor env job) }
  else
    { status := env.turn.status.getD (str "ok")
      error := env.turn.error
      summary := env.turn.summary
      sessionId := env.turn.sessionId
      sessionKey := env.turn.sessionKey }

/-- Model of `runCrontabJob` from `src/cron/crontab-exec.ts`, returning
the result together with the dispatched effects. -/
def runCrontabJob (env : RunEnv) (job : CronJob) (mode : RunMode) :
    CrontabRunResult × List RunEffect :=
  if ¬ shouldRunJob env job mode then (.skipped (str "not-due"), [])
  else if job.sessionTarget = str "main" then
    match job.payload with
    | .agentTurn _ => (.failed (str "main session jobs require systemEvent payload"), [])
    | .systemEvent text =>
      let agentId := job.agentId.getD env.defaultAgentId
      let sessionKey := mainSessionKeyFor env job
      let effects := RunEffect.enqueueSystemEvent text sessionKey ::
        (if job.wakeMode = str "now" ∨ job.wakeMode = str "next-heartbeat" then
          [RunEffect.heartbeatWake agentId sessionKey] else [])
      let outcome := foldWebhookError job (preOutcome env job) (deliverWebhook env job)
      (.ran outcome (resolveJobNextRun env job), effects)
  else
    match job.payload with
    | .systemEvent _ => (.failed (str "isolated jobs require agentTurn payload"), [])
    | .agentTurn p =>
      let effects := [RunEffect.isolatedTurn p.message]
      let outcome := foldWebhookError job (preOutcome env job) (deliverWebhook env job)
      (.ran outcome (resolveJobNextRun env job), effects)

/-- Error shape of the RPC protocol. -/
structure RpcError where
  code : Str
  message : Str
deriving DecidableEq, Repr

/-- The `invalid_request` error code. -/
def INVALID_REQUEST : Str := str "invalid_request"

/-- The `internal_error` error code. -/
def INTERNAL_ERROR : Str := str "internal_error"

/-- Model of JavaScript `String(err)` for a thrown `new Error(msg)`
(`Error.prototype.toString` is `name + ": " + message`). -/
def jsErrorToString (msg : Str) : Str := str "Error: " ++ msg

/-- Modelled from the spec: `CronJobCreate` (every `CronJob` field minus
`id`, `createdAtMs`, `updatedAtMs` and `state`, with `enabled` optional). -/
structure CronJobCreate where
  agentId : Option Str := none
  sessionKey : Option Str := none
  name : Str
  description : Option Str := none
  enabled : Option Bool := none
  deleteAfterRun : Option Bool := none
  schedule : CronSchedule
  sessionTarget : Str
  wakeMode : Str
  payload : CronPayload
  delivery : Option CronDelivery := none
deriving DecidableEq, Repr

/-- Model of `createCronJobFromInput`: fresh `uuid` (from `randomUUID`)
and `now` (from `Date.now()`) are inputs. -/
def createCronJobFromInput (uuid : Str) (now : Int) (input : CronJobCreate) : CronJob :=
  { id := uuid
    agentId := input.agentId
    sessionKey := input.sessionKey
    name := input.name
    description := input.description
    enabled := input.enabled.getD true
    deleteAfterRun := input.deleteAfterRun
    createdAtMs := now
    updatedAtMs := now
    schedule := input.schedule
    sessionTarget := input.sessionTarget
    wakeMode := input.wakeMode
    payload := input.payload
    delivery := input.delivery
    state := {} }

/-- Response of a cron RPC handler. -/
inductive RpcResp (α : Type) where
  | ok (value : α)
  | err (e : RpcError)
deriving DecidableEq, Repr

/-- Model of the crontab branch of the `cron.add` handler
(`src/gateway/server-methods/cron.ts`), for a request that already passed
schema and timestamp validation.  Inside the single `try` block the
handler validates crontab feasibility, reads the snapshot, creates the
job and writes; any throw is answered as `internal_error` with
`String(err)`.  The second component lists the job sets written to the
crontab (empty when no write was attempted).  `writeFails` is the
`crontab -` subprocess oracle carrying the final text of a failed write
error. -/
def cronAddCrontab (off : Int) (snapshot : CrontabSnapshot) (uuid : Str) (now : Int)
    (writeFails : Option Str) (input : CronJobCreate) :
    RpcResp CronJob × List (List CronJob) :=
  match resolveCrontabSchedule off input.schedule with
  | .err e => (.err ⟨INTERNAL_ERROR, jsErrorToString e⟩, [])
  | .ok _ =>
    let job := createCronJobFromInput uuid now input
    let nextJobs := snapshot.jobs ++ [job]
    match writeCrontabContent off nextJobs snapshot.lines with
    | .error e => (.err ⟨INTERNAL_ERROR, jsErrorToString e⟩, [])
    | .ok _content =>
      match writeFails with
      | some emsg =>
        (.err ⟨INTERNAL_ERROR, jsErrorToString (str "crontab - failed: " ++ emsg)⟩,
         [nextJobs])
      | none => (.ok job, [nextJobs])

/-- Model of `removeJobFromList`. -/
def removeJobFromList (jobs : List CronJob) (id : Str) : List CronJob :=
  jobs.filter (fun entry => ¬ entry.id == id)

/-- Output of the `cron.run` handler model: the response, the dispatch
effects and the job sets written back (the post-run `deleteAfterRun`
cleanup). -/
structure CronRunHandlerOut where
  resp : RpcResp CrontabRunResult
  effects : List RunEffect
  writes : List (List CronJob)
deriving Repr

/-- Model of the crontab branch of the `cron.run` handler: the mode
defaults to `force`, the job is resolved by id (a miss throws and is
answered as `internal_error`), the gate is consulted, the job dispatched,
and a ran `at`-kind job with `deleteAfterRun` is removed and written
back. -/
def cronRunCrontab (env : RunEnv) (off : Int) (snapshot : CrontabSnapshot)
    (jobId : Str) (modeParam : Option RunMode) : CronRunHandlerOut :=
  let mode := modeParam.getD .force
  match snapshot.jobs.find? (fun entry => entry.id == jobId) with
  | none =>
    ⟨.err ⟨INTERNAL_ERROR, jsErrorToString (str "cron job not found: " ++ jobId)⟩, [], []⟩
  | some job =>
    if ¬ shouldRunJob env job mode then ⟨.ok (.skipped (str "not-due")), [], []⟩
    else
      let run := runCrontabJob env job mode
      match run.1 with
      | .failed e => ⟨.err ⟨INTERNAL_ERROR, e⟩, run.2, []⟩
      | result =>
        let didRun := match result with
          | .ran _ _ => true
          | _ => false
        if job.schedule.kind = str "at" ∧ job.deleteAfterRun = some true ∧ didRun = true then
          let nextJobs := removeJobFromList snapshot.jobs jobId
          match writeCrontabContent off nextJobs snapshot.lines with
          | .error e => ⟨.err ⟨INTERNAL_ERROR, jsErrorToString e⟩, run.2, []⟩
          | .ok _ =>
            match env.writeFails with
            | some emsg =>
              ⟨.err ⟨INTERNAL_ERROR,
                jsErrorToString (str "crontab - failed: " ++ emsg)⟩, run.2, [nextJobs]⟩
            | none => ⟨.ok result, run.2, [nextJobs]⟩
        else ⟨.ok result, run.2, []⟩

/-- Rounding an instant up to the next whole minute, the behaviour the
spec ascribes to subminute `at` timestamps. -/
def roundUpMinute (t : Int) : Int :=
  if t % 60000 = 0 then t else t - t % 60000 + 60000

/-- Toggles the `enabled` flag of a job. -/
def setEnabled (job : CronJob) (b : Bool) : CronJob := { job with enabled := b }

/-- Alignment of session target and payload kind required for dispatch. -/
def dispatchAligned (job : CronJob) : Prop :=
  (job.sessionTarget = str "main" ∧ job.payload.kind = str "systemEvent") ∨
  (job.sessionTarget ≠ str "main" ∧ job.payload.kind = str "agentTurn")

/-- Concrete sample: an enabled main-session job on a cron schedule. -/
def sampleMainJob : CronJob :=
  { id := str "job-1"
    name := str "ping"
    enabled := true
    createdAtMs := 100
    updatedAtMs := 100
    schedule := .cron (str "*/5 * * * *") none none
    sessionTarget := str "main"
    wakeMode := str "now"
    payload := .systemEvent (str "wake") }

/-- Concrete sample: a main-session job with an `agentTurn` payload
(violating the pairing invariant). -/
def sampleMismatchMain : CronJob :=
  { sampleMainJob with payload := .agentTurn { message := str "hi" } }

/-- Concrete sample: an isolated job with a `systemEvent` payload
(violating the pairing invariant). -/
def sampleMismatchIso : CronJob :=
  { sampleMainJob with sessionTarget := str "isolated" }

/-- Concrete sample: a disabled job (for the forced-run claims). -/
def sampleDisabledJob : CronJob := setEnabled sampleMainJob false

/-- Concrete sample: a main-session job with webhook delivery and no
best-effort flag. -/
def sampleWebhookJob : CronJob :=
  { sampleMainJob with
      delivery := some { mode := str "webhook", toAddr := some (str "http://h/") } }

/-- Concrete sample environment: not due, successful fetch. -/
def sampleEnv : RunEnv :=
  { isDue := false
    defaultAgentId := str "agent"
    mainSessionKeyOf := fun a => str "main:" ++ a
    turn := {}
    urlOk := true
    fetchOutcome := .ok true
    fetchStatus := 200
    computeNext := some 42
    writeFails := none }

/-- Concrete sample environment whose webhook fetch returns HTTP 500. -/
def sampleEnvFail : RunEnv := { sampleEnv with fetchOutcome := .ok false, fetchStatus := 500 }

/-- The empty crontab snapshot. -/
def emptySnapshot : CrontabSnapshot := ⟨[], [], []⟩

/-- Concrete sample `cron.add` input with the infeasible 45-second
interval. -/
def sampleCreate45 : CronJobCreate :=
  { name := str "bad"
    schedule := .every 45000 none
    sessionTarget := str "main"
    wakeMode := str "now"
    payload := .systemEvent (str "x") }

/-- Concrete snapshot holding the disabled sample job. -/
def sampleSnapshotDisabled : CrontabSnapshot := ⟨[], [sampleDisabledJob], []⟩

/-- Newline-free line predicate: the hypothesis under which a "line" of
crontab text is truly one line. -/
def nlFree (l : Str) : Bool := l.all (fun c => !(c = nlChar))

def noTriple : Str → Bool
  | c :: d :: e :: t => !(c = nlChar ∧ d = nlChar ∧ e = nlChar) && noTriple (d :: e :: t)
  | _ => true

def noTwoBlank : List Str → Bool
  | a :: b :: t => !(a = [] ∧ b = []) && noTwoBlank (b :: t)
  | _ => true

/-! ## C1 supporting definitions -/

def encTok (c : Char) : List (Char ⊕ Nat) :=
  if isUriUnescaped c then [Sum.inl c] else (utf8Bytes c.toNat).map Sum.inr

def goodKey (k : Str) : Prop := k ≠ [] ∧ ∀ c ∈ k, isWsChar c = false ∧ ¬ c = '='

def tokenParts (kvs : List (Str × Str)) : List Str :=
  (kvs.filter (fun kv => kv.2 ≠ [])).map (fun kv => kv.1 ++ '=' :: encodeValue kv.2)

def base7 (job : CronJob) : List (Str × Str) :=
  [(str "id", job.id), (str "name", job.name), (str "enabled", (if job.enabled then str "true" else str "false")), (str "session_target", job.sessionTarget), (str "wake_mode", job.wakeMode), (str "created_at_ms", intToStr job.createdAtMs), (str "updated_at_ms", intToStr job.updatedAtMs)]

def deliveryKVs (job : CronJob) (dv : CronDelivery) : List (Str × Str) :=
  [(str "id", job.id), (str "delivery_mode", dv.mode)]
    ++ optTruthyKV (str "delivery_channel") dv.channel
    ++ optTruthyKV (str "delivery_to") dv.toAddr
    ++ optBoolKV (str "delivery_best_effort") dv.bestEffort

def entryMetaOf (job : CronJob) (mdel : List (Str × Str)) : List (Str × Str) :=
  [] ++ (baseKVs job).filter (fun kv => kv.2 ≠ [])
     ++ (payloadKVs job).filter (fun kv => kv.2 ≠ [])
     ++ mdel
     ++ (scheduleKVs job).filter (fun kv => kv.2 ≠ [])
     ++ [(str "id", job.id)]

def delKeysOk (mdel : List (Str × Str)) : Prop :=
  ∀ kv ∈ mdel, kv.1 = str "id" ∨ kv.1 = str "delivery_mode" ∨
    kv.1 = str "delivery_channel" ∨ kv.1 = str "delivery_to" ∨
    kv.1 = str "delivery_best_effort"

def ExprFacts (e : Str) : Prop :=
  e ≠ [] ∧ jsIncludes e TAGP = false ∧ jsStartsWith e TAG = false ∧
  ∀ c, e.head? = some c → isWsChar c = false ∧ ¬ c = '#'

def IsCanonical (J : CronJob) : Prop :=
  jsTrim J.id = J.id ∧ J.id ≠ [] ∧ jsIncludes J.id TAGP = false ∧
  J.name ≠ [] ∧ J.sessionTarget ≠ [] ∧ J.wakeMode ≠ [] ∧
  J.description ≠ some [] ∧ J.agentId ≠ some [] ∧ J.sessionKey ≠ some [] ∧
  J.deleteAfterRun ≠ some false ∧ ¬ J.createdAtMs = 0 ∧ ¬ J.updatedAtMs = 0 ∧
  (match J.payload with
      | .systemEvent _ => True
      | .agentTurn p =>
        p.model ≠ some [] ∧ p.thinking ≠ some [] ∧ p.channel ≠ some [] ∧
        p.toAddr ≠ some [] ∧ p.allowUnsafeExternalContent ≠ some false ∧
        p.deliver ≠ some false ∧ p.bestEffortDeliver ≠ some false) ∧
  (match J.delivery with
      | none => True
      | some dv =>
        dv.mode ≠ [] ∧ ¬ dv.mode = str "none" ∧ dv.channel ≠ some [] ∧
        dv.toAddr ≠ some [] ∧ dv.bestEffort ≠ some false) ∧
  (match J.schedule with
   | .cron expr tz _ =>
     tz = none ∧ (jsTrim expr).head? ≠ some '#' ∧
     jsIncludes (jsTrim expr) TAGP = false ∧ jsStartsWith (jsTrim expr) TAG = false
   | .every _ _ => True
   | .atTime _ => True)

def c1WitnessJob : CronJob :=
  { id := str "a", name := str "n", enabled := true, createdAtMs := 1, updatedAtMs := 1,
    schedule := .every 60000 none, sessionTarget := str "main", wakeMode := str "now",
    payload := .systemEvent (str "hi") }

def c1CexJob : CronJob :=
  { id := str "a", name := str "n", enabled := true, deleteAfterRun := some false,
    createdAtMs := 1, updatedAtMs := 1, schedule := .every 60000 none,
    sessionTarget := str "main", wakeMode := str "now",
    payload := .systemEvent (str "hi") }

/-! ## Claim theorems -/

theorem noTriple_tail {c : Char} {t : Str} (h : noTriple (c :: t) = true) :
    noTriple t = true := by
  match t with
  | [] => rfl
  | [d] => rfl
  | d :: e :: t2 =>
    unfold noTriple at h
    exact (Bool.and_eq_true_iff.mp h).2

theorem noTriple_append_left {x rest : Str} (hx : nlFree x = true)
    (hr : noTriple rest = true) : noTriple (x ++ rest) = true := by
  induction x with
  | nil => simpa using hr
  | cons c x2 ih =>
    have hc : ¬ c = nlChar := by
      have := (List.all_eq_true.mp hx) c (by simp)
      simpa using this
    have hx2 : nlFree x2 = true := by
      refine List.all_eq_true.mpr fun a ha => (List.all_eq_true.mp hx) a (by simp [ha])
    have ih2 := ih hx2
    rcases hsh : x2 ++ rest with - | ⟨d, - | ⟨e, w2⟩⟩
    · rw [List.cons_append, hsh]; rfl
    · rw [List.cons_append, hsh]; rfl
    · rw [List.cons_append, hsh]
      unfold noTriple
      rw [hsh] at ih2
      simp [ih2, hc]

theorem collapseGo_true_eq_false {y : Str}
    (hy : ∀ c, y.head? = some c → ¬ c = nlChar) :
    collapseNlGo true y = collapseNlGo false y := by
  match y with
  | [] => rfl
  | c :: t =>
    have hc : ¬ c = nlChar := hy c rfl
    rcases t with - | ⟨d, - | ⟨e, t2⟩⟩
    · simp [collapseNlGo, hc]
    · simp [collapseNlGo, hc]
    · simp [collapseNlGo, hc]

theorem collapseGo_false_append {x y : Str} (hx : noTriple x = true)
    (hy : ∀ c, y.head? = some c → ¬ c = nlChar) :
    collapseNlGo false (x ++ y) = x ++ collapseNlGo false y := by
  induction x with
  | nil => rfl
  | cons c x2 ih =>
    have ih2 := ih (noTriple_tail hx)
    rcases hsh : x2 ++ y with - | ⟨d, - | ⟨e, w2⟩⟩
    · have hx2 : x2 = [] := by cases x2 <;> simp_all
      have hy2 : y = [] := by cases x2 <;> simp_all
      subst hx2; subst hy2
      rfl
    · rcases x2 with - | ⟨a, b⟩
      · obtain rfl : y = [d] := by simpa using hsh
        rfl
      · obtain ⟨rfl, h2⟩ : a = d ∧ b ++ y = [] := by simpa using hsh
        obtain hb : b = [] := by cases b <;> simp_all
        obtain hy0 : y = [] := by simp_all
        subst hb; subst hy0
        rfl
    · have hnofire : ¬ (c = nlChar ∧ d = nlChar ∧ e = nlChar) := by
        rintro ⟨hc, hd, he⟩
        match x2, hsh with
        | [], hsh =>
          obtain rfl : y = d :: e :: w2 := by simpa using hsh
          exact (hy d rfl) hd
        | [a], hsh =>
          obtain ⟨rfl, hy1⟩ : a = d ∧ y = e :: w2 := by simpa using hsh
          exact (hy e (by rw [hy1]; rfl)) he
        | a :: b :: tx, hsh =>
          obtain ⟨rfl, rfl, -⟩ : a = d ∧ b = e ∧ tx ++ y = w2 := by simpa using hsh
          unfold noTriple at hx
          rw [hc, hd, he] at hx
          simp at hx
      rw [List.cons_append, hsh]
      simp only [collapseNlGo]
      rw [if_neg hnofire]
      rw [← hsh, ih2]
      rfl

theorem collapseGo_false_fire {x y : Str} (hx : noTriple (x ++ [nlChar, nlChar]) = true)
    (hy : ∀ c, y.head? = some c → ¬ c = nlChar) :
    collapseNlGo false (x ++ nlChar :: nlChar :: nlChar :: y) =
      x ++ nlChar :: nlChar :: collapseNlGo false y := by
  induction x with
  | nil =>
    have h1 : collapseNlGo false (nlChar :: nlChar :: nlChar :: y) =
        nlChar :: nlChar :: collapseNlGo true y := by
      simp [collapseNlGo]
    show collapseNlGo false (nlChar :: nlChar :: nlChar :: y) = _
    rw [h1, collapseGo_true_eq_false hy]
    rfl
  | cons c x2 ih =>
    have hx2 : noTriple (x2 ++ [nlChar, nlChar]) = true := by
      have : (c :: x2) ++ [nlChar, nlChar] = c :: (x2 ++ [nlChar, nlChar]) := rfl
      rw [this] at hx
      exact noTriple_tail hx
    have ih2 := ih hx2
    rcases hsh : x2 ++ nlChar :: nlChar :: nlChar :: y with - | ⟨d, - | ⟨e, w2⟩⟩
    · exact absurd hsh (by cases x2 <;> simp)
    · exact absurd hsh (by cases x2 with
        | nil => simp
        | cons a b => cases b <;> simp)
    · have hnofire : ¬ (c = nlChar ∧ d = nlChar ∧ e = nlChar) := by
        rintro ⟨hc, hd, he⟩
        match x2, hsh with
        | [], hsh => -- then d,e are nl,nl and c = nl: triple in c::x2 ++ [nl,nl] = [nl,nl,nl]
          unfold noTriple at hx
          rw [hc] at hx
          simp at hx
        | [a], hsh =>
          obtain ⟨rfl, -⟩ : a = d ∧ nlChar :: nlChar :: nlChar :: y = e :: w2 := by
            simpa using hsh
          unfold noTriple at hx
          rw [hc, hd] at hx
          simp at hx
        | a :: b :: tx, hsh =>
          obtain ⟨ha, hb, -⟩ : a = d ∧ b = e ∧ tx ++ nlChar :: nlChar :: nlChar :: y = w2 := by
            simpa using hsh
          have hsplit : (c :: a :: b :: tx) ++ [nlChar, nlChar] =
              c :: a :: b :: (tx ++ [nlChar, nlChar]) := rfl
          rw [hsplit] at hx
          unfold noTriple at hx
          rw [hc, ha, hd, hb, he] at hx
          simp at hx
      rw [List.cons_append, hsh]
      simp only [collapseNlGo]
      rw [if_neg hnofire]
      rw [← hsh, ih2]
      rfl

theorem splitChar_append_nlfree {x w : Str} (hx : nlFree x = true) :
    splitChar nlChar (x ++ nlChar :: w) = x :: splitChar nlChar w := by
  induction x with
  | nil => simp [splitChar]
  | cons c x2 ih =>
    have hc : ¬ c = nlChar := by
      have := (List.all_eq_true.mp hx) c (by simp)
      simpa using this
    have hx2 : nlFree x2 = true := by
      refine List.all_eq_true.mpr fun a ha => (List.all_eq_true.mp hx) a (by simp [ha])
    rw [List.cons_append]
    simp only [splitChar]
    rw [if_neg hc, ih hx2]

theorem splitChar_joinSep {L : List Str} {w : Str} (hL : L ≠ [])
    (hfree : ∀ l ∈ L, nlFree l = true) :
    splitChar nlChar (joinSep [nlChar] L ++ nlChar :: w) = L ++ splitChar nlChar w := by
  induction L with
  | nil => exact absurd rfl hL
  | cons x L2 ih =>
    rcases L2 with - | ⟨y, L3⟩
    · simpa [joinSep] using splitChar_append_nlfree (hfree x (by simp))
    · have hj : joinSep [nlChar] (x :: y :: L3) = x ++ nlChar :: joinSep [nlChar] (y :: L3) := by
        simp [joinSep]
      rw [hj, List.append_assoc, List.cons_append]
      rw [splitChar_append_nlfree (hfree x (by simp))]
      rw [ih (by simp) (fun l hl => hfree l (by simp [hl]))]
      rfl

theorem noTriple_cons {c : Char} {W : Str}
    (h2 : ¬ (W.head? = some nlChar ∧ (W.drop 1).head? = some nlChar))
    (hW : noTriple W = true) : noTriple (c :: W) = true := by
  match W with
  | [] => rfl
  | [d] => rfl
  | d :: e :: t =>
    unfold noTriple
    have hnc : ¬ (c = nlChar ∧ d = nlChar ∧ e = nlChar) := by
      rintro ⟨-, hd, he⟩
      exact h2 ⟨by simp [hd], by simp [he]⟩
    refine Bool.and_eq_true_iff.mpr ⟨?_, hW⟩
    rw [show (decide (c = nlChar ∧ d = nlChar ∧ e = nlChar)) = false from
      decide_eq_false hnc]
    rfl

theorem joinSep_cons_ne {y : Str} {L3 : List Str} :
    joinSep [nlChar] (y :: L3) = y ∨
    joinSep [nlChar] (y :: L3) = y ++ nlChar :: joinSep [nlChar] L3 := by
  rcases L3 with - | ⟨z, L4⟩
  · exact Or.inl rfl
  · refine Or.inr ?_
    show (y ++ [nlChar]) ++ joinSep [nlChar] (z :: L4) = _
    rw [List.append_assoc]
    rfl

theorem noTriple_join_blanks {L : List Str}
    (hfree : ∀ l ∈ L, nlFree l = true) (hblank : noTwoBlank L = true)
    (hlast : L.getLast? ≠ some []) :
    noTriple (joinSep [nlChar] L ++ [nlChar, nlChar]) = true := by
  induction L with
  | nil => rfl
  | cons x L2 ih =>
    rcases L2 with - | ⟨y, L3⟩
    · exact noTriple_append_left (hfree x (by simp)) rfl
    · have hj : joinSep [nlChar] (x :: y :: L3) = x ++ nlChar :: joinSep [nlChar] (y :: L3) := by
        simp [joinSep]
      rw [hj, List.append_assoc, List.cons_append]
      refine noTriple_append_left (hfree x (by simp)) ?_
      have hlast2 : (y :: L3).getLast? ≠ some [] := by
        rwa [List.getLast?_cons_cons] at hlast
      have ihW : noTriple (joinSep [nlChar] (y :: L3) ++ [nlChar, nlChar]) = true :=
        ih (fun l hl => hfree l (by simp [hl]))
          ((Bool.and_eq_true_iff.mp hblank).2) hlast2
      refine noTriple_cons ?_ ihW
      rintro ⟨hh1, hh2⟩
      rcases hy : y with - | ⟨cy, ty⟩
      · -- y = []: then x ≠ [] is irrelevant; we need the second char
        subst hy
        rcases hL3 : L3 with - | ⟨z, L4⟩
        · subst hL3
          exact hlast2 rfl
        · subst hL3
          have hz : z ≠ [] := by
            have hb2 := (Bool.and_eq_true_iff.mp hblank).2
            have hb3 := (Bool.and_eq_true_iff.mp hb2).1
            simpa using hb3
          rcases hzc : z with - | ⟨cz, tz⟩
          · exact hz hzc
          · -- join (y::L3) = [] ++ nl :: join (z::L4) = nl :: (cz :: ...) so second char is cz
            have hjz : joinSep [nlChar] ([] :: z :: L4) =
                nlChar :: joinSep [nlChar] (z :: L4) := by simp [joinSep]
            have hcz : ¬ cz = nlChar := by
              have := (List.all_eq_true.mp (hfree z (by simp [hzc]))) cz (by simp [hzc])
              simpa using this
            rcases @joinSep_cons_ne z L4 with hjj | hjj
            · rw [hjz, hjj, hzc] at hh2
              simp at hh2
              exact hcz hh2
            · rw [hjz, hjj, hzc] at hh2
              simp at hh2
              exact hcz hh2
      · -- y nonempty: first char of the join is cy which is not a newline
        have hcy : ¬ cy = nlChar := by
          have := (List.all_eq_true.mp (hfree y (by simp))) cy (by simp [hy])
          simpa using this
        rcases @joinSep_cons_ne y L3 with hjj | hjj
        · rw [hjj, hy] at hh1
          simp at hh1
          exact hcy hh1
        · rw [hjj, hy] at hh1
          simp at hh1
          exact hcy hh1

theorem jsTrimEnd_cons {c : Char} {t : Str} (hc : isWsChar c = false) :
    jsTrimEnd (c :: t) = c :: jsTrimEnd t := by
  unfold jsTrimEnd
  rw [List.reverse_cons, List.dropWhile_append]
  split
  · next hemp =>
    have : List.dropWhile isWsChar t.reverse = [] := by
      simpa [List.isEmpty_iff] using hemp
    rw [this]
    simp [List.dropWhile, hc]
  · simp

theorem buildTaggedLine_head (kvs : List (Str × Str)) :
    ∃ t2, buildTaggedLine kvs = '#' :: t2 := by
  have h0 : buildTaggedLine kvs =
      jsTrimEnd (jsTrimStart (TAGP ++ ' ' :: joinSep (str " ")
        ((kvs.filter (fun kv => kv.2 ≠ [])).map
          (fun kv => kv.1 ++ '=' :: encodeValue kv.2)))) := rfl
  rw [h0]
  rw [show TAGP ++ ' ' :: joinSep (str " ")
        ((kvs.filter (fun kv => kv.2 ≠ [])).map
          (fun kv => kv.1 ++ '=' :: encodeValue kv.2)) =
      '#' :: (str " openclaw:cron" ++ ' ' :: joinSep (str " ")
        ((kvs.filter (fun kv => kv.2 ≠ [])).map
          (fun kv => kv.1 ++ '=' :: encodeValue kv.2))) from rfl]
  rw [show ∀ (w : Str), jsTrimStart ('#' :: w) = '#' :: w from fun w => by
    unfold jsTrimStart
    rw [List.dropWhile_cons]
    rw [if_neg (by decide)]]
  rw [jsTrimEnd_cons (by decide)]
  exact ⟨_, rfl⟩

theorem joinSep_append {A B : List Str} (hA : A ≠ []) (hB : B ≠ []) :
    joinSep [nlChar] (A ++ B) = joinSep [nlChar] A ++ nlChar :: joinSep [nlChar] B := by
  induction A with
  | nil => exact absurd rfl hA
  | cons x A2 ih =>
    rcases A2 with - | ⟨y, A3⟩
    · rcases B with - | ⟨b0, B2⟩
      · exact absurd rfl hB
      · show joinSep [nlChar] (x :: b0 :: B2) = x ++ nlChar :: joinSep [nlChar] (b0 :: B2)
        show (x ++ [nlChar]) ++ joinSep [nlChar] (b0 :: B2) = _
        rw [List.append_assoc]
        rfl
    · have h1 : joinSep [nlChar] ((x :: y :: A3) ++ B) =
          x ++ nlChar :: joinSep [nlChar] ((y :: A3) ++ B) := by
        show (x ++ [nlChar]) ++ joinSep [nlChar] ((y :: A3) ++ B) = _
        rw [List.append_assoc]
        rfl
      have h2 : joinSep [nlChar] (x :: y :: A3) =
          x ++ nlChar :: joinSep [nlChar] (y :: A3) := by
        show (x ++ [nlChar]) ++ joinSep [nlChar] (y :: A3) = _
        rw [List.append_assoc]
        rfl
      rw [h1, ih (by simp), h2]
      simp

theorem noTwoBlank_append_left {A B : List Str} (h : noTwoBlank (A ++ B) = true) :
    noTwoBlank A = true := by
  induction A with
  | nil => rfl
  | cons x A2 ih =>
    rcases A2 with - | ⟨y, A3⟩
    · rfl
    · have h2 : noTwoBlank ((x :: y :: A3) ++ B) =
          (!(x = [] ∧ y = []) && noTwoBlank ((y :: A3) ++ B)) := rfl
      rw [h2] at h
      obtain ⟨ha, hb⟩ := Bool.and_eq_true_iff.mp h
      unfold noTwoBlank
      exact Bool.and_eq_true_iff.mpr ⟨ha, ih hb⟩

theorem noTwoBlank_last_of_concat_blank {A : List Str}
    (h : noTwoBlank (A ++ [[]]) = true) : A.getLast? ≠ some [] := by
  induction A with
  | nil => simp
  | cons x A2 ih =>
    rcases A2 with - | ⟨y, A3⟩
    · have h2 : noTwoBlank ([x] ++ [[]]) =
          (!(x = [] ∧ ([] : Str) = []) && noTwoBlank [([] : Str)]) := rfl
      rw [h2] at h
      obtain ⟨ha, -⟩ := Bool.and_eq_true_iff.mp h
      simp only [List.getLast?_singleton]
      intro hx
      rw [Option.some_inj] at hx
      simp [hx] at ha
    · rw [List.getLast?_cons_cons]
      refine ih ?_
      have h2 : noTwoBlank ((x :: y :: A3) ++ [[]]) =
          (!(x = [] ∧ y = []) && noTwoBlank ((y :: A3) ++ [[]])) := rfl
      rw [h2] at h
      exact (Bool.and_eq_true_iff.mp h).2


theorem jsIncludes_iff {l p : Str} : jsIncludes l p = true ↔ ∃ a b, l = a ++ p ++ b := by
  constructor
  · intro h
    unfold jsIncludes at h
    induction l with
    | nil =>
      unfold idxOfSub at h
      split at h
      · next hp =>
        exact ⟨[], [], by simp [List.prefix_nil.mp (List.isPrefixOf_iff_prefix.mp hp)]⟩
      · simp at h
    | cons c t ih =>
      unfold idxOfSub at h
      split at h
      · next hp =>
        obtain ⟨b, hb⟩ := List.isPrefixOf_iff_prefix.mp hp
        exact ⟨[], b, by simp [hb.symm]⟩
      · have h2 : (idxOfSub t p).isSome = true := by
          cases hidx : idxOfSub t p <;> simp [hidx] at h ⊢
        obtain ⟨a, b, hab⟩ := ih h2
        exact ⟨c :: a, b, by simp [hab]⟩
  · rintro ⟨a, b, rfl⟩
    unfold jsIncludes
    induction a with
    | nil =>
      unfold idxOfSub
      rw [if_pos (List.isPrefixOf_iff_prefix.mpr (by simpa using List.prefix_append p b))]
      rfl
    | cons c a2 ih =>
      unfold idxOfSub
      split
      · rfl
      · simpa using ih

theorem jsIncludes_tagp_tag {l : Str} (h : jsIncludes l TAGP = true) :
    jsIncludes l TAG = true := by
  obtain ⟨a, b, hab⟩ := jsIncludes_iff.mp h
  refine jsIncludes_iff.mpr ⟨a ++ str "# ", b, ?_⟩
  rw [hab]
  simp [TAGP, TAG, str]

theorem entryLinesAll_shape {off : Int} {jobs : List CronJob} {entries : List Str}
    (h : entryLinesAll off jobs = .ok entries) :
    entries = [] ∨ ∃ t2 rest, entries = ('#' :: t2) :: rest := by
  match jobs with
  | [] =>
    left
    have : Except.ok (ε := Str) ([] : List Str) = .ok entries := h
    simpa using (Except.ok.inj this).symm
  | j :: js =>
    right
    unfold entryLinesAll at h
    cases hb : buildTaggedEntryLines off j with
    | error e => rw [hb] at h; exact Except.noConfusion h
    | ok l0 =>
      cases hm : entryLinesAll off js with
      | error e => rw [hb, hm] at h; exact Except.noConfusion h
      | ok rest0 =>
        rw [hb, hm] at h
        obtain rfl : l0 ++ rest0 = entries := Except.ok.inj h
        unfold buildTaggedEntryLines at hb
        cases hres : resolveCrontabSchedule off j.schedule with
        | err e => rw [hres] at hb; exact Except.noConfusion hb
        | ok expr =>
          rw [hres] at hb
          have hl0 := (Except.ok.inj hb)
          obtain ⟨t2, ht2⟩ := buildTaggedLine_head (baseKVs j)
          subst hl0
          simp only [List.append_assoc, List.cons_append, List.nil_append]
          rw [ht2]
          exact ⟨t2, _, rfl⟩

theorem nl_str_eq : str "\n" = [nlChar] := by decide

theorem joinSep_hash_head {t2 : Str} {xs : List Str} :
    ∃ w, joinSep [nlChar] (('#' :: t2) :: xs) = '#' :: w := by
  cases xs with
  | nil => exact ⟨t2, rfl⟩
  | cons x xs2 => exact ⟨t2 ++ [nlChar] ++ joinSep [nlChar] (x :: xs2), rfl⟩

theorem c2_core {off : Int} {jobs : List CronJob} {L : List Str} {content : Str}
    (hfree : ∀ l ∈ L, nlFree l = true)
    (htag : ∀ l ∈ L, jsIncludes l TAG = false)
    (hblank : noTwoBlank L = true)
    (hw : writeCrontabContent off jobs L = .ok content) :
    ∃ rest, splitChar nlChar content = L ++ rest := by
  have hfilter : L.filter (fun line => ¬ jsIncludes line TAGP ∧ ¬ jsIncludes line TAG) = L := by
    apply List.filter_eq_self.mpr
    intro a ha
    have h1 := htag a ha
    have h2 : jsIncludes a TAGP = false := by
      cases hp : jsIncludes a TAGP
      · rfl
      · exact absurd (jsIncludes_tagp_tag hp) (by simp [h1])
    simp [h1, h2]
  simp only [writeCrontabContent, hfilter, nl_str_eq] at hw
  cases hE : entryLinesAll off jobs with
  | error e => rw [hE] at hw; exact Except.noConfusion hw
  | ok entries =>
    rw [hE] at hw
    have hco : collapseNl (joinSep [nlChar]
        (L ++ (if L.length ≠ 0 then [([] : Str)] else []) ++ entries ++ [([] : Str)])) =
        content := Except.ok.inj hw
    rcases L with - | ⟨l0, L2⟩
    · exact ⟨splitChar nlChar content, by simp⟩
    · have hLne : (l0 :: L2) ≠ [] := by simp
      have hif : (if (l0 :: L2).length ≠ 0 then [([] : Str)] else []) = [([] : Str)] := by simp
      rw [hif] at hco
      -- shape of the middle block: joinSep of [""] ++ entries ++ [""] is nl :: y
      -- with y either [] or starting with a non-newline character
      obtain ⟨y, hB, hy⟩ :
          ∃ y, joinSep [nlChar] (([([] : Str)] ++ entries ++ [([] : Str)])) = nlChar :: y ∧
            (∀ c, y.head? = some c → ¬ c = nlChar) := by
        rcases entryLinesAll_shape hE with rfl | ⟨t2, r0, rfl⟩
        · exact ⟨[], rfl, by intro c hc; exact absurd hc (by simp)⟩
        · obtain ⟨w, hwy⟩ := @joinSep_hash_head t2 (r0 ++ [([] : Str)])
          refine ⟨joinSep [nlChar] (('#' :: t2) :: (r0 ++ [([] : Str)])), ?_, ?_⟩
          · show ([] ++ [nlChar]) ++ joinSep [nlChar] (('#' :: t2) :: (r0 ++ [([] : Str)])) = _
            rfl
          · intro c hc
            rw [hwy] at hc
            simp at hc
            subst hc
            decide
      have hsplit : joinSep [nlChar]
          ((l0 :: L2) ++ [([] : Str)] ++ entries ++ [([] : Str)]) =
          joinSep [nlChar] (l0 :: L2) ++ nlChar :: nlChar :: y := by
        rw [show (l0 :: L2) ++ [([] : Str)] ++ entries ++ [([] : Str)] =
            (l0 :: L2) ++ ([([] : Str)] ++ entries ++ [([] : Str)]) from by simp,
          joinSep_append hLne (by simp), hB]
      rw [hsplit] at hco
      by_cases hlast : (l0 :: L2).getLast? = some ([] : Str)
      · -- L ends in a blank line: the collapse eats one of the surrounding newlines
        obtain ⟨L1, hL1⟩ : ∃ L1, l0 :: L2 = L1 ++ [([] : Str)] := by
          have h := List.getLast?_eq_getLast (l0 :: L2) hLne
          rw [h] at hlast
          have hg : (l0 :: L2).getLast hLne = ([] : Str) := by
            exact Option.some_inj.mp hlast
          exact ⟨(l0 :: L2).dropLast, by rw [← hg, List.dropLast_concat_getLast]⟩
        rcases L1 with - | ⟨m0, L3⟩
        · -- L = [""]
          have hL : l0 :: L2 = [([] : Str)] := by simpa using hL1
          rw [hL] at hco ⊢
          have hx2 : noTriple [nlChar, nlChar] = true := rfl
          have hc2 : collapseNl (joinSep [nlChar] [([] : Str)] ++ nlChar :: nlChar :: y) =
              nlChar :: nlChar :: collapseNlGo false y := by
            show collapseNlGo false (([] : Str) ++ nlChar :: nlChar :: y) = _
            rw [show ([] : Str) ++ nlChar :: nlChar :: y = [nlChar, nlChar] ++ y from rfl]
            rw [collapseGo_false_append hx2 hy]
            rfl
          rw [hc2] at hco
          rw [← hco]
          refine ⟨([] : Str) :: splitChar nlChar (collapseNlGo false y), ?_⟩
          simp [splitChar]
        · -- L = L1 ++ [""] with L1 nonempty
          have hL1ne : (m0 :: L3) ≠ [] := by simp
          have hfree1 : ∀ l ∈ (m0 :: L3), nlFree l = true := by
            intro l hl
            exact hfree l (by rw [hL1]; exact List.mem_append_left _ hl)
          have hblank1 : noTwoBlank (m0 :: L3) = true := by
            rw [hL1] at hblank
            exact noTwoBlank_append_left hblank
          have hlast1 : (m0 :: L3).getLast? ≠ some ([] : Str) := by
            rw [hL1] at hblank
            exact noTwoBlank_last_of_concat_blank hblank
          have hJ : joinSep [nlChar] (l0 :: L2) =
              joinSep [nlChar] (m0 :: L3) ++ [nlChar] := by
            rw [hL1, joinSep_append hL1ne (by simp)]
            rfl
          rw [hJ] at hco
          have hx : noTriple (joinSep [nlChar] (m0 :: L3) ++ [nlChar, nlChar]) = true :=
            noTriple_join_blanks hfree1 hblank1 hlast1
          have hc2 : collapseNl ((joinSep [nlChar] (m0 :: L3) ++ [nlChar]) ++
              nlChar :: nlChar :: y) =
              joinSep [nlChar] (m0 :: L3) ++ nlChar :: nlChar :: collapseNlGo false y := by
            show collapseNlGo false _ = _
            rw [show (joinSep [nlChar] (m0 :: L3) ++ [nlChar]) ++ nlChar :: nlChar :: y =
                joinSep [nlChar] (m0 :: L3) ++ nlChar :: nlChar :: nlChar :: y from by simp]
            exact collapseGo_false_fire hx hy
          rw [hc2] at hco
          rw [← hco]
          rw [splitChar_joinSep hL1ne hfree1]
          refine ⟨splitChar nlChar (collapseNlGo false y), ?_⟩
          rw [hL1]
          rw [show splitChar nlChar (nlChar :: collapseNlGo false y) =
              ([] : Str) :: splitChar nlChar (collapseNlGo false y) from by simp [splitChar]]
          simp
      · -- L does not end in a blank line: nothing collapses
        have hx : noTriple (joinSep [nlChar] (l0 :: L2) ++ [nlChar, nlChar]) = true :=
          noTriple_join_blanks hfree hblank hlast
        have hc2 : collapseNl (joinSep [nlChar] (l0 :: L2) ++ nlChar :: nlChar :: y) =
            joinSep [nlChar] (l0 :: L2) ++ nlChar :: nlChar :: collapseNlGo false y := by
          show collapseNlGo false _ = _
          rw [show joinSep [nlChar] (l0 :: L2) ++ nlChar :: nlChar :: y =
              (joinSep [nlChar] (l0 :: L2) ++ [nlChar, nlChar]) ++ y from by simp]
          rw [collapseGo_false_append hx hy]
          simp
        rw [hc2] at hco
        rw [← hco]
        rw [show joinSep [nlChar] (l0 :: L2) ++ nlChar :: nlChar :: collapseNlGo false y =
            joinSep [nlChar] (l0 :: L2) ++ nlChar ::
              (nlChar :: collapseNlGo false y) from rfl]
        rw [splitChar_joinSep hLne hfree]
        exact ⟨splitChar nlChar (nlChar :: collapseNlGo false y), rfl⟩

/-- C2: preservation of unmanaged lines. For every list of existing crontab
lines `L` whose lines are newline-free, none of which contains the tag
`openclaw:cron`, and -- the amendment -- in which no two consecutive lines
are blank, and every job set whose schedules are feasible (the write
succeeds), the content produced by `writeCrontabJobs(jobs, L)` starts with
the lines of `L` unchanged and in order, and therefore contains every line
of `L`, unchanged and in its original order, among its non-tagged lines. -/
theorem c2_theorem {off : Int} {jobs : List CronJob} {L : List Str} {content : Str}
    (hfree : ∀ l ∈ L, nlFree l = true)
    (htag : ∀ l ∈ L, jsIncludes l TAG = false)
    (hblank : noTwoBlank L = true)
    (hw : writeCrontabContent off jobs L = .ok content) :
    L <+: splitChar nlChar content ∧
      L.Sublist ((splitChar nlChar content).filter (fun l => !jsIncludes l TAG)) := by
  obtain ⟨rest, hr⟩ := c2_core hfree htag hblank hw
  constructor
  · exact ⟨rest, hr.symm⟩
  · rw [hr, List.filter_append]
    have hLf : L.filter (fun l => !jsIncludes l TAG) = L :=
      List.filter_eq_self.mpr (fun a ha => by simp [htag a ha])
    rw [hLf]
    exact List.sublist_append_left L _

/-- C2 witness: a concrete unmanaged line survives an empty-job write as a
prefix of the content and among its non-tagged lines. -/
theorem c2_witness :
    [str "myline"] <+: splitChar nlChar (str "myline\n\n") ∧
      [str "myline"].Sublist
        ((splitChar nlChar (str "myline\n\n")).filter (fun l => !jsIncludes l TAG)) :=
  @c2_theorem 0 [] [str "myline"] (str "myline\n\n")
    (by decide) (by decide) (by decide) rfl

/-- C2 counterexample to the unamended claim: the existing lines
`["a", "", "", "b"]` contain no tagged line, yet writing an empty job set
yields the content `"a\n\nb\n\n"` (the blank-line run collapses), whose
non-tagged lines do not contain the original list as a subsequence. -/
theorem c2_counterexample :
    (∀ l ∈ [str "a", ([] : Str), ([] : Str), str "b"],
        nlFree l = true ∧ jsIncludes l TAG = false) ∧
    writeCrontabContent 0 [] [str "a", [], [], str "b"] = .ok (str "a\n\nb\n\n") ∧
    ¬ [str "a", ([] : Str), ([] : Str), str "b"].Sublist
        ((splitChar nlChar (str "a\n\nb\n\n")).filter (fun l => !jsIncludes l TAG)) := by
  refine ⟨by decide, rfl, by decide⟩

/-- C4 counterexample: the resolver maps `everyMs=60000` to
`*/1 * * * *`, not `* * * * *`, and `everyMs=3600000` to `0 */1 * * *`,
not `0 * * * *`, refuting the claimed output strings. -/
theorem c4_counterexample :
    resolveCrontabSchedule 0 (.every 60000 none) = .ok (str "*/1 * * * *") ∧
    str "*/1 * * * *" ≠ str "* * * * *" ∧
    resolveCrontabSchedule 0 (.every 3600000 none) = .ok (str "0 */1 * * *") ∧
    str "0 */1 * * *" ≠ str "0 * * * *" := by
  refine ⟨by decide, by decide, by decide, by decide⟩

/-- C4 (amended): `resolveCrontabSchedule` on `every` schedules accepts
60000 ms producing `*/1 * * * *`, 300000 ms producing `*/5 * * * *`,
3600000 ms producing `0 */1 * * *`, and rejects 90000 ms and 59000 ms
with the 1-minute-granularity error. -/
theorem c4_theorem :
    resolveCrontabSchedule 0 (.every 60000 none) = .ok (str "*/1 * * * *") ∧
    resolveCrontabSchedule 0 (.every 300000 none) = .ok (str "*/5 * * * *") ∧
    resolveCrontabSchedule 0 (.every 3600000 none) = .ok (str "0 */1 * * *") ∧
    resolveCrontabSchedule 0 (.every 90000 none) =
      .err (str "crontab scheduler supports 1-minute granularity") ∧
    resolveCrontabSchedule 0 (.every 59000 none) =
      .err (str "crontab scheduler supports 1-minute granularity") := by
  refine ⟨by decide, by decide, by decide, by decide, by decide⟩

/-- C3 counterexample: a `crontab -l` failure whose stderr does not
mention `no crontab` does not raise; the snapshot is returned with empty
lines and the error recorded in `errors`. -/
theorem c3_counterexample :
    readCrontabSnapshot (fun _ _ => none) 0 ⟨false, [], str "permission denied"⟩ =
      ⟨[], [], [str "crontab: permission denied"]⟩ := by decide

/-- C3 (amended): on success the snapshot's lines are stdout split on
newlines (empty stdout giving no lines); a failure whose stderr contains
`no crontab` (case-insensitively) yields an empty snapshot with no
errors; any other failure yields empty lines with a `crontab: <stderr>`
message recorded in `snapshot.errors` — the call still returns a
snapshot. -/
theorem c3_theorem (cn : CronJob → Int → Option Int) (now : Int) (res : ExecResult) :
    (res.ok = true →
      readCrontabSnapshot cn now res =
        ⟨(if res.stdout ≠ [] then splitChar nlChar res.stdout else []),
         (decodeJobs cn now (if res.stdout ≠ [] then splitChar nlChar res.stdout else [])).1,
         (decodeJobs cn now (if res.stdout ≠ [] then splitChar nlChar res.stdout else [])).2⟩) ∧
    (res.ok = false → jsIncludes (jsToLower res.stderr) (str "no crontab") = true →
      readCrontabSnapshot cn now res = ⟨[], [], []⟩) ∧
    (res.ok = false → jsIncludes (jsToLower res.stderr) (str "no crontab") = false →
      readCrontabSnapshot cn now res =
        ⟨[], [],
         [str "crontab: " ++ (if res.stderr ≠ [] then res.stderr else str "failed to read")]⟩) := by
  unfold readCrontabSnapshot readCrontabLines
  refine ⟨fun hok => ?_, fun hok hnc => ?_, fun hok hnc => ?_⟩
  · simp [hok]
  · simp [hok, hnc]
    exact ⟨rfl, rfl⟩
  · simp [hok, hnc]
    exact ⟨rfl, rfl⟩

/-- C3 witness: the contract applied to a concrete successful read. -/
theorem c3_witness :
    readCrontabSnapshot (fun _ _ => none) 0 ⟨true, str "a\nb", []⟩ =
      ⟨[str "a", str "b"], [], []⟩ := by
  have h := (c3_theorem (fun _ _ => none) 0 ⟨true, str "a\nb", []⟩).1 rfl
  rw [h]
  decide

/-- C5 counterexample: `cron.add` with the infeasible 45-second interval
answers `internal_error` (not `invalid_request`) and the message is the
`Error: `-wrapped resolver reason (not verbatim); no write occurs. -/
theorem c5_counterexample :
    cronAddCrontab 0 emptySnapshot (str "u-1") 5 none sampleCreate45 =
      (.err ⟨INTERNAL_ERROR, str "Error: crontab scheduler supports 1-minute granularity"⟩,
       []) ∧
    INTERNAL_ERROR ≠ INVALID_REQUEST ∧
    str "Error: crontab scheduler supports 1-minute granularity" ≠
      str "crontab scheduler supports 1-minute granularity" := by
  refine ⟨by decide, by decide, by decide⟩

/-- C5 (amended): whenever the crontab feasibility check rejects the
schedule of a `cron.add` request that passed schema and timestamp
validation, the handler answers an error of code `internal_error` whose
message is `String(new Error(reason))`, i.e. the resolver reason prefixed
with `Error: `, and no crontab write occurs. -/
theorem c5_theorem (off : Int) (snapshot : CrontabSnapshot) (uuid : Str) (now : Int)
    (wf : Option Str) (input : CronJobCreate) (e : Str)
    (h : resolveCrontabSchedule off input.schedule = .err e) :
    cronAddCrontab off snapshot uuid now wf input =
      (.err ⟨INTERNAL_ERROR, str "Error: " ++ e⟩, []) := by
  unfold cronAddCrontab
  rw [h]
  rfl

/-- C5 witness: the amended contract at the concrete 45-second request. -/
theorem c5_witness :
    cronAddCrontab 0 emptySnapshot (str "u-1") 5 none sampleCreate45 =
      (.err ⟨INTERNAL_ERROR,
        str "Error: " ++ str "crontab scheduler supports 1-minute granularity"⟩, []) :=
  c5_theorem 0 emptySnapshot (str "u-1") 5 none sampleCreate45 _ (by decide)

/-- C6: for an `at` schedule whose timestamp parses, the resolver answers
`ok` with the five-field `minute hour day month *` expression of the
instant rounded up to the next whole minute, and the rounding changes the
instant exactly when it has nonzero seconds or milliseconds
(`t % 60000 ≠ 0`).  `off` is the host timezone offset in minutes (the
emitted fields are local wall-clock time). -/
theorem c6_theorem (off : Int) (a : Str) (t : Int)
    (h : jsDateParse off (jsTrim a) = some t) :
    resolveCrontabSchedule off (.atTime a) = .ok (atExprOf off (roundUpMinute t)) ∧
    (roundUpMinute t = t ↔ t % 60000 = 0) := by
  constructor
  · have hne : jsTrim a ≠ [] := by
      intro he
      rw [he] at h
      have hnone : jsDateParse off [] = none := rfl
      rw [hnone] at h
      exact Option.noConfusion h
    have hadj : (if 0 < getSecondsL off t ∨ 0 < getMillisecondsL off t then
        jsSetMinutesBump off t else t) = roundUpMinute t := by
      simp only [getSecondsL, getMillisecondsL, jsSetMinutesBump, roundUpMinute, localMs]
      split
      · next hcond =>
        split
        · next hz => rcases hcond with hc | hc <;> omega
        · next hz => omega
      · next hcond =>
        push_neg at hcond
        split
        · next hz => omega
        · next hz => omega
    simp only [resolveCrontabSchedule]
    rw [if_neg hne, h]
    exact congrArg ScheduleResult.ok (congrArg (atExprOf off) hadj)
  · simp only [roundUpMinute]
    split
    · next hz => simp [hz]
    · next hz =>
      constructor
      · intro he
        omega
      · intro hz2
        exact absurd hz2 hz

/-- C6 witness: `at="2030-06-15T12:34:56.500Z"` parses, has subminute
precision, and resolves to `35 12 15 6 *` under a UTC host timezone. -/
theorem c6_witness :
    jsDateParse 0 (jsTrim (str "2030-06-15T12:34:56.500Z")) = some 1907757296500 ∧
    resolveCrontabSchedule 0 (.atTime (str "2030-06-15T12:34:56.500Z")) =
      .ok (str "35 12 15 6 *") := by
  refine ⟨by decide, ?_⟩
  have h := (c6_theorem 0 (str "2030-06-15T12:34:56.500Z") 1907757296500 (by decide)).1
  rw [h]
  decide

/-- C7: a main-session job whose payload is not a `systemEvent` fails
with the exact error and dispatches nothing, and an isolated job whose
payload is not an `agentTurn` fails with its specific error and invokes
no isolated turn, under forced mode. -/
theorem c7_theorem (env : RunEnv) (job : CronJob) :
    (job.sessionTarget = str "main" → job.payload.kind ≠ str "systemEvent" →
      runCrontabJob env job .force =
        (.failed (str "main session jobs require systemEvent payload"), [])) ∧
    (job.sessionTarget = str "isolated" → job.payload.kind ≠ str "agentTurn" →
      runCrontabJob env job .force =
        (.failed (str "isolated jobs require agentTurn payload"), [])) := by
  constructor
  · intro hmain hkind
    cases hp : job.payload with
    | systemEvent text => exact absurd (by rw [hp]; rfl) hkind
    | agentTurn p =>
      unfold runCrontabJob shouldRunJob
      simp [hmain, hp]
  · intro hiso hkind
    cases hp : job.payload with
    | agentTurn p => exact absurd (by rw [hp]; rfl) hkind
    | systemEvent text =>
      unfold runCrontabJob shouldRunJob
      have hne : ¬ job.sessionTarget = str "main" := by
        rw [hiso]; decide
      simp [hne, hp]

/-- C7 witness: the pairing errors at concrete mismatched jobs. -/
theorem c7_witness :
    runCrontabJob sampleEnv sampleMismatchMain .force =
      (.failed (str "main session jobs require systemEvent payload"), []) ∧
    runCrontabJob sampleEnv sampleMismatchIso .force =
      (.failed (str "isolated jobs require agentTurn payload"), []) :=
  ⟨(c7_theorem sampleEnv sampleMismatchMain).1 (by decide) (by decide),
   (c7_theorem sampleEnv sampleMismatchIso).2 (by decide) (by decide)⟩

/-- Helper: when the gate passes and session target and payload kind are
aligned, `runCrontabJob` returns the ran shape built from the
pre-delivery outcome folded with the webhook result. -/
theorem runCrontabJob_ran (env : RunEnv) (job : CronJob) (mode : RunMode)
    (hrun : shouldRunJob env job mode = true)
    (halign : dispatchAligned job) :
    (runCrontabJob env job mode).1 =
      .ran (foldWebhookError job (preOutcome env job) (deliverWebhook env job))
        (resolveJobNextRun env job) := by
  unfold runCrontabJob
  rw [hrun]
  rcases halign with ⟨hmain, hkind⟩ | ⟨hmain, hkind⟩
  · rw [if_neg (fun hc => hc rfl), if_pos hmain]
    cases hp : job.payload with
    | agentTurn p =>
      rw [hp] at hkind
      simp only [CronPayload.kind] at hkind
      exact absurd hkind (by decide)
    | systemEvent text => rfl
  · rw [if_neg (fun hc => hc rfl), if_neg hmain]
    cases hp : job.payload with
    | systemEvent text =>
      rw [hp] at hkind
      simp only [CronPayload.kind] at hkind
      exact absurd hkind (by decide)
    | agentTurn p => rfl

/-- C8: when dispatch occurs, a truthy webhook delivery error with
`delivery.bestEffort` not `true` mutates the outcome to `status="error"`
with the webhook error and `errorKind="delivery-target"` while the result
stays in the ran (`ok:true, ran:true`) shape; with `bestEffort=true` the
pre-delivery outcome and the ran shape are unchanged. -/
theorem c8_theorem (env : RunEnv) (job : CronJob) (mode : RunMode)
    (hrun : shouldRunJob env job mode = true)
    (halign : dispatchAligned job) :
    (∀ e, (deliverWebhook env job).error = some e → e ≠ [] →
      job.delivery.bind (·.bestEffort) ≠ some true →
      (runCrontabJob env job mode).1 =
        .ran { preOutcome env job with
                 status := str "error"
                 error := some e
                 errorKind := some (str "delivery-target") }
          (resolveJobNextRun env job)) ∧
    (job.delivery.bind (·.bestEffort) = some true →
      (runCrontabJob env job mode).1 =
        .ran (preOutcome env job) (resolveJobNextRun env job)) := by
  constructor
  · intro e he hne hbe
    rw [runCrontabJob_ran env job mode hrun halign]
    have hfold : foldWebhookError job (preOutcome env job) (deliverWebhook env job) =
        { preOutcome env job with
            status := str "error"
            error := some e
            errorKind := some (str "delivery-target") } := by
      unfold foldWebhookError
      rw [he]
      rw [if_pos ⟨by simp [webhookErrTruthy, hne], hbe⟩]
    rw [hfold]
  · intro hbe
    rw [runCrontabJob_ran env job mode hrun halign]
    have hfold : foldWebhookError job (preOutcome env job) (deliverWebhook env job) =
        preOutcome env job := by
      unfold foldWebhookError
      rw [if_neg (fun hcon => absurd hbe hcon.2)]
    rw [hfold]

/-- C8 witness: a concrete webhook job with a failing fetch folds the
error into the outcome while the result remains ran. -/
theorem c8_witness :
    (runCrontabJob sampleEnvFail sampleWebhookJob .force).1 =
      .ran { preOutcome sampleEnvFail sampleWebhookJob with
               status := str "error"
               error := some (str "webhook failed: 500")
               errorKind := some (str "delivery-target") }
        (resolveJobNextRun sampleEnvFail sampleWebhookJob) :=
  (c8_theorem sampleEnvFail sampleWebhookJob .force rfl
      (Or.inl ⟨by decide, by decide⟩)).1
    (str "webhook failed: 500") (by decide) (by decide) (by decide)

/-- C9 counterexample: toggling `enabled` also changes the `enabled=`
token on the first metadata line, so the two encodings differ in more
than the execution-line prefix. -/
theorem c9_counterexample :
    (buildTaggedEntryLines 0 (setEnabled sampleMainJob true)).toOption.bind List.head? ≠
    (buildTaggedEntryLines 0 (setEnabled sampleMainJob false)).toOption.bind List.head? := by
  decide

/-- C9 (amended): for a feasible job, the encodings with `enabled=true`
and `enabled=false` share every line except that the base metadata line
carries `enabled=true` versus `enabled=false` (all its other key-values
equal) and the execution line gains the leading `# ` when disabled. -/
theorem c9_theorem (off : Int) (job : CronJob) (expr : Str)
    (h : resolveCrontabSchedule off job.schedule = .ok expr) :
    buildTaggedEntryLines off (setEnabled job true) =
      .ok ([buildTaggedLine (baseKVs (setEnabled job true)),
            buildTaggedLine (payloadKVs job)] ++ deliveryLinesOf job
           ++ [buildTaggedLine (scheduleKVs job)] ++ tzPrefixLines job
           ++ [execLineOf job expr] ++ tzResetLines job) ∧
    buildTaggedEntryLines off (setEnabled job false) =
      .ok ([buildTaggedLine (baseKVs (setEnabled job false)),
            buildTaggedLine (payloadKVs job)] ++ deliveryLinesOf job
           ++ [buildTaggedLine (scheduleKVs job)] ++ tzPrefixLines job
           ++ [str "# " ++ execLineOf job expr] ++ tzResetLines job) ∧
    baseKVs (setEnabled job true) =
      [(str "id", job.id), (str "name", job.name), (str "enabled", str "true"),
       (str "session_target", job.sessionTarget), (str "wake_mode", job.wakeMode),
       (str "created_at_ms", intToStr job.createdAtMs),
       (str "updated_at_ms", intToStr job.updatedAtMs)]
      ++ optTruthyKV (str "description") job.description
      ++ optTruthyKV (str "agent_id") job.agentId
      ++ optTruthyKV (str "session_key") job.sessionKey
      ++ optBoolKV (str "delete_after_run") job.deleteAfterRun ∧
    baseKVs (setEnabled job false) =
      [(str "id", job.id), (str "name", job.name), (str "enabled", str "false"),
       (str "session_target", job.sessionTarget), (str "wake_mode", job.wakeMode),
       (str "created_at_ms", intToStr job.createdAtMs),
       (str "updated_at_ms", intToStr job.updatedAtMs)]
      ++ optTruthyKV (str "description") job.description
      ++ optTruthyKV (str "agent_id") job.agentId
      ++ optTruthyKV (str "session_key") job.sessionKey
      ++ optBoolKV (str "delete_after_run") job.deleteAfterRun := by
  refine ⟨?_, ?_, rfl, rfl⟩
  · unfold buildTaggedEntryLines
    rw [show (setEnabled job true).schedule = job.schedule from rfl, h]
    rfl
  · unfold buildTaggedEntryLines
    rw [show (setEnabled job false).schedule = job.schedule from rfl, h]
    rfl

/-- C9 witness: the amended shape at the concrete sample job. -/
theorem c9_witness :
    buildTaggedEntryLines 0 (setEnabled sampleMainJob false) =
      .ok ([buildTaggedLine (baseKVs (setEnabled sampleMainJob false)),
            buildTaggedLine (payloadKVs sampleMainJob)] ++ deliveryLinesOf sampleMainJob
           ++ [buildTaggedLine (scheduleKVs sampleMainJob)] ++ tzPrefixLines sampleMainJob
           ++ [str "# " ++ execLineOf sampleMainJob (str "*/5 * * * *")]
           ++ tzResetLines sampleMainJob) :=
  (c9_theorem 0 sampleMainJob (str "*/5 * * * *") (by decide)).2.1

/-- C10: `cron.run` without a mode parameter behaves exactly as an
explicit `mode="force"`; `shouldRunJob` is unconditionally true under
force (regardless of dueness or the enabled flag) and consults the
due-oracle only under an explicit `due`; and the dispatch effects of a
defaulted run equal those of a forced `runCrontabJob`. -/
theorem c10_theorem :
    (∀ env job, shouldRunJob env job .force = true) ∧
    (∀ env job, shouldRunJob env job .due = env.isDue) ∧
    (∀ env off snapshot jobId,
      cronRunCrontab env off snapshot jobId none =
        cronRunCrontab env off snapshot jobId (some .force)) ∧
    (∀ env off snapshot jobId job,
      snapshot.jobs.find? (fun entry => entry.id == jobId) = some job →
      (cronRunCrontab env off snapshot jobId none).effects =
        (runCrontabJob env job .force).2) := by
  refine ⟨fun env job => rfl, fun env job => rfl, fun env off snapshot jobId => rfl,
    fun env off snapshot jobId job hfind => ?_⟩
  rcases hrun : runCrontabJob env job .force with ⟨r, eff⟩
  simp only [cronRunCrontab, hfind, Option.getD_none, shouldRunJob, hrun]
  cases r
  all_goals repeat' split
  all_goals first | rfl | simp_all

/-- C10 witness: a disabled, not-due job is still dispatched when the
mode is omitted. -/
theorem c10_witness :
    (cronRunCrontab sampleEnv 0 sampleSnapshotDisabled (str "job-1") none).effects =
      (runCrontabJob sampleEnv sampleDisabledJob .force).2 :=
  c10_theorem.2.2.2 sampleEnv 0 sampleSnapshotDisabled (str "job-1") sampleDisabledJob
    (by decide)

/-! ## C1 theorems -/

theorem toNat_ofNat_valid {n : Nat} (h : n.isValidChar) : (Char.ofNat n).toNat = n := by
  unfold Char.ofNat
  split
  · rfl
  · next h2 => exact absurd h h2

theorem char_eq_of_toNat {c d : Char} (h : c.toNat = d.toNat) : c = d := by
  have h2 := Char.ofNat_toNat c
  rw [← h2, h, Char.ofNat_toNat]

theorem char_valid_ranges (c : Char) :
    c.toNat < 55296 ∨ (57344 ≤ c.toNat ∧ c.toNat < 1114112) := c.valid

theorem char_beq_eq {c d : Char} : (c == d) = decide (c.toNat = d.toNat) := by
  cases h : c == d
  · simp only [beq_eq_false_iff_ne] at h
    symm
    simp only [decide_eq_false_iff_not]
    intro hn
    exact h (char_eq_of_toNat hn)
  · simp only [beq_iff_eq] at h
    subst h
    simp

theorem isUriUnescaped_iff {c : Char} : isUriUnescaped c = true ↔
    ((65 ≤ c.toNat ∧ c.toNat ≤ 90) ∨ (97 ≤ c.toNat ∧ c.toNat ≤ 122) ∨
     (48 ≤ c.toNat ∧ c.toNat ≤ 57) ∨ c.toNat = 45 ∨ c.toNat = 95 ∨ c.toNat = 46 ∨
     c.toNat = 33 ∨ c.toNat = 126 ∨ c.toNat = 42 ∨ c.toNat = 39 ∨ c.toNat = 40 ∨
     c.toNat = 41) := by
  unfold isUriUnescaped
  simp only [Nat.beq_eq_true_eq, Bool.or_eq_true, Bool.and_eq_true, decide_eq_true_eq]
  tauto

theorem isWsChar_iff {c : Char} : isWsChar c = true ↔
    (c.toNat = 32 ∨ c.toNat = 9 ∨ c.toNat = 10 ∨ c.toNat = 13 ∨
     c.toNat = 11 ∨ c.toNat = 12) := by
  unfold isWsChar
  rw [char_beq_eq, char_beq_eq, char_beq_eq, char_beq_eq, char_beq_eq, char_beq_eq]
  simp only [Bool.or_eq_true, decide_eq_true_eq,
    show (' ' : Char).toNat = 32 from rfl, show (Char.ofNat 9).toNat = 9 from rfl,
    show (Char.ofNat 10).toNat = 10 from rfl, show (Char.ofNat 13).toNat = 13 from rfl,
    show (Char.ofNat 11).toNat = 11 from rfl, show (Char.ofNat 12).toNat = 12 from rfl]
  tauto

theorem safe_not_ws {c : Char} (h : isUriUnescaped c = true) : isWsChar c = false := by
  have h2 := isUriUnescaped_iff.mp h
  cases hw : isWsChar c
  · rfl
  · have h3 := isWsChar_iff.mp hw
    omega

theorem safe_ne_pct {c : Char} (h : isUriUnescaped c = true) : ¬ c = '%' := by
  intro hc
  subst hc
  exact absurd h (by decide)

theorem hexVal_hexDigitChar {d : Nat} (h : d < 16) : hexVal (hexDigitChar d) = some d := by
  interval_cases d <;> decide

theorem pctTokens_cons_safe {c : Char} (hc : ¬ c = '%') (rest : Str) :
    pctTokens (c :: rest) = (pctTokens rest).map (Sum.inl c :: ·) := by
  match rest with
  | [] => simp [pctTokens, hc]
  | [a] => simp [pctTokens, hc]
  | a :: b :: t => simp [pctTokens, hc]

theorem pctTokens_pctByte {b : Nat} (hb : b < 256) (s : Str) :
    pctTokens (pctByte b ++ s) = (pctTokens s).map (Sum.inr b :: ·) := by
  show pctTokens ('%' :: hexDigitChar (b / 16) :: hexDigitChar (b % 16) :: s) = _
  simp only [pctTokens, hexVal_hexDigitChar (show b / 16 < 16 by omega),
    hexVal_hexDigitChar (show b % 16 < 16 by omega)]
  have h16 : 16 * (b / 16) + b % 16 = b := by omega
  rw [h16]

theorem utf8Bytes_lt_256 {n : Nat} (h : n < 1114112) : ∀ b ∈ utf8Bytes n, b < 256 := by
  intro b hb
  unfold utf8Bytes at hb
  split at hb
  · simp at hb; omega
  · split at hb
    · simp at hb; rcases hb with hb | hb <;> omega
    · split at hb
      · simp at hb; rcases hb with hb | hb | hb <;> omega
      · simp at hb; rcases hb with hb | hb | hb | hb <;> omega

theorem pctTokens_bytes {bs : List Nat} (hb : ∀ b ∈ bs, b < 256) (s : Str) :
    pctTokens (bs.flatMap pctByte ++ s) = (pctTokens s).map (bs.map Sum.inr ++ ·) := by
  induction bs with
  | nil => simp
  | cons b bs2 ih =>
    rw [List.flatMap_cons, List.append_assoc, pctTokens_pctByte (hb b (by simp)),
      ih (fun x hx => hb x (by simp [hx]))]
    cases pctTokens s <;> rfl

theorem pctTokens_encChar (c : Char) (s : Str) :
    pctTokens ((if isUriUnescaped c then [c] else (utf8Bytes c.toNat).flatMap pctByte) ++ s) =
      (pctTokens s).map (encTok c ++ ·) := by
  unfold encTok
  split
  · next h =>
    rw [List.singleton_append, pctTokens_cons_safe (safe_ne_pct h)]
    rfl
  · next h =>
    have hlt : c.toNat < 1114112 := by rcases char_valid_ranges c with h2 | h2 <;> omega
    exact pctTokens_bytes (utf8Bytes_lt_256 hlt) s

theorem contBytes_one {x1 : Nat} (h : isContByte x1 = true) (us : List (Char ⊕ Nat)) :
    contBytes 1 (Sum.inr x1 :: us) = some (x1 % 64, us) := by
  simp [contBytes, h]

theorem contBytes_two {x1 x2 : Nat} (h1 : isContByte x1 = true) (h2 : isContByte x2 = true)
    (us : List (Char ⊕ Nat)) :
    contBytes 2 (Sum.inr x1 :: Sum.inr x2 :: us) = some (x1 % 64 * 64 + x2 % 64, us) := by
  simp [contBytes, h1, h2]

theorem contBytes_three {x1 x2 x3 : Nat} (h1 : isContByte x1 = true)
    (h2 : isContByte x2 = true) (h3 : isContByte x3 = true) (us : List (Char ⊕ Nat)) :
    contBytes 3 (Sum.inr x1 :: Sum.inr x2 :: Sum.inr x3 :: us) =
      some (x1 % 64 * 4096 + x2 % 64 * 64 + x3 % 64, us) := by
  simp [contBytes, h1, h2, h3]
  ring

theorem contBytes_length {k : Nat} {us r : List (Char ⊕ Nat)} {v : Nat}
    (h : contBytes k us = some (v, r)) : r.length + k = us.length := by
  induction k generalizing us v with
  | zero =>
    have h2 : (some (0, us) : Option (Nat × List (Char ⊕ Nat))) = some (v, r) := h
    have h3 : us = r := congrArg Prod.snd (Option.some_inj.mp h2)
    rw [h3]
    rfl
  | succ k ih =>
    match us with
    | [] =>
      exact Option.noConfusion (h.symm.trans
        (show contBytes (k + 1) ([] : List (Char ⊕ Nat)) = none from rfl))
    | .inl c :: rest =>
      exact Option.noConfusion (h.symm.trans
        (show contBytes (k + 1) (Sum.inl c :: rest) = none from rfl))
    | .inr b :: rest =>
      rw [show contBytes (k + 1) (Sum.inr b :: rest) =
        (if isContByte b then
          (contBytes k rest).map (fun p => (b % 64 * 64 ^ k + p.1, p.2))
        else none) from rfl] at h
      split at h
      · cases hc : contBytes k rest with
        | none => rw [hc] at h; exact absurd h (by simp)
        | some p =>
          rw [hc] at h
          have h4 : some (b % 64 * 64 ^ k + p.1, p.2) = some (v, r) := h
          have h2 : p.2 = r := congrArg Prod.snd (Option.some_inj.mp h4)
          have h5 := @ih rest p.1 (by rw [← h2]; exact hc)
          simp only [List.length_cons]
          omega
      · exact absurd h (by simp)

theorem utf8Go_irrel {f g : Nat} {us : List (Char ⊕ Nat)}
    (hf : us.length ≤ f) (hg : us.length ≤ g) : utf8Go f us = utf8Go g us := by
  induction f generalizing g us with
  | zero =>
    have : us = [] := by cases us <;> simp_all
    subst this
    cases g <;> rfl
  | succ f ih =>
    match us, g with
    | [], g => cases g <;> rfl
    | c :: rest, 0 => exact absurd hg (by simp)
    | .inl c :: rest, g + 1 =>
      simp only [utf8Go]
      rw [ih (by simpa using hf) (by simpa using hg)]
    | .inr b :: rest, g + 1 =>
      simp only [utf8Go]
      have hr : rest.length ≤ f := by simpa using hf
      have hrg : rest.length ≤ g := by simpa using hg
      by_cases h1 : b < 128
      · rw [if_pos h1, if_pos h1, ih hr hrg]
      · rw [if_neg h1, if_neg h1]
        by_cases h2 : b < 194
        · rw [if_pos h2, if_pos h2]
        · rw [if_neg h2, if_neg h2]
          by_cases h3 : b < 224
          · rw [if_pos h3, if_pos h3]
            cases hc : contBytes 1 rest with
            | none => rfl
            | some p =>
              obtain ⟨v, rest2⟩ := p
              have hl := contBytes_length hc
              show (utf8Go f rest2).map (Char.ofNat (b % 32 * 64 + v) :: ·) =
                (utf8Go g rest2).map (Char.ofNat (b % 32 * 64 + v) :: ·)
              rw [@ih g rest2 (by omega) (by omega)]
          · rw [if_neg h3, if_neg h3]
            by_cases h4 : b < 240
            · rw [if_pos h4, if_pos h4]
              cases hc : contBytes 2 rest with
              | none => rfl
              | some p =>
                obtain ⟨v, rest3⟩ := p
                have hl := contBytes_length hc
                show (if 2048 ≤ b % 16 * 4096 + v ∧
                    ¬ (55296 ≤ b % 16 * 4096 + v ∧ b % 16 * 4096 + v ≤ 57343) then
                    (utf8Go f rest3).map (Char.ofNat (b % 16 * 4096 + v) :: ·) else none) =
                  (if 2048 ≤ b % 16 * 4096 + v ∧
                    ¬ (55296 ≤ b % 16 * 4096 + v ∧ b % 16 * 4096 + v ≤ 57343) then
                    (utf8Go g rest3).map (Char.ofNat (b % 16 * 4096 + v) :: ·) else none)
                rw [@ih g rest3 (by omega) (by omega)]
            · rw [if_neg h4, if_neg h4]
              by_cases h5 : b < 245
              · rw [if_pos h5, if_pos h5]
                cases hc : contBytes 3 rest with
                | none => rfl
                | some p =>
                  obtain ⟨v, rest4⟩ := p
                  have hl := contBytes_length hc
                  show (if 65536 ≤ b % 8 * 262144 + v ∧ b % 8 * 262144 + v ≤ 1114111 then
                      (utf8Go f rest4).map (Char.ofNat (b % 8 * 262144 + v) :: ·) else none) =
                    (if 65536 ≤ b % 8 * 262144 + v ∧ b % 8 * 262144 + v ≤ 1114111 then
                      (utf8Go g rest4).map (Char.ofNat (b % 8 * 262144 + v) :: ·) else none)
                  rw [@ih g rest4 (by omega) (by omega)]
              · rw [if_neg h5, if_neg h5]

theorem utf8FromUnits_inl (c : Char) (rest : List (Char ⊕ Nat)) :
    utf8FromUnits (Sum.inl c :: rest) = (utf8FromUnits rest).map (c :: ·) := by
  show utf8Go (rest.length + 1) (Sum.inl c :: rest) = _
  simp only [utf8Go]
  rfl

theorem utf8FromUnits_one {b : Nat} (h : b < 128) (rest : List (Char ⊕ Nat)) :
    utf8FromUnits (Sum.inr b :: rest) = (utf8FromUnits rest).map (Char.ofNat b :: ·) := by
  show utf8Go (rest.length + 1) (Sum.inr b :: rest) = _
  simp only [utf8Go]
  rw [if_pos h]
  rfl

theorem utf8FromUnits_two {b x1 : Nat} (hb1 : 194 ≤ b) (hb2 : b < 224)
    (h1 : isContByte x1 = true) (us : List (Char ⊕ Nat)) :
    utf8FromUnits (Sum.inr b :: Sum.inr x1 :: us) =
      (utf8FromUnits us).map (Char.ofNat (b % 32 * 64 + x1 % 64) :: ·) := by
  show utf8Go (us.length + 1 + 1) (Sum.inr b :: Sum.inr x1 :: us) = _
  simp only [utf8Go]
  rw [if_neg (by omega), if_neg (by omega), if_pos (by omega), contBytes_one h1]
  show (utf8Go (us.length + 1) us).map (Char.ofNat (b % 32 * 64 + x1 % 64) :: ·) = _
  rw [utf8Go_irrel (Nat.le_succ _) (Nat.le_refl _)]
  rfl

theorem utf8FromUnits_three {b x1 x2 : Nat} (hb1 : 224 ≤ b) (hb2 : b < 240)
    (h1 : isContByte x1 = true) (h2 : isContByte x2 = true)
    (hw : 2048 ≤ b % 16 * 4096 + (x1 % 64 * 64 + x2 % 64) ∧
      ¬ (55296 ≤ b % 16 * 4096 + (x1 % 64 * 64 + x2 % 64) ∧
         b % 16 * 4096 + (x1 % 64 * 64 + x2 % 64) ≤ 57343)) (us : List (Char ⊕ Nat)) :
    utf8FromUnits (Sum.inr b :: Sum.inr x1 :: Sum.inr x2 :: us) =
      (utf8FromUnits us).map
        (Char.ofNat (b % 16 * 4096 + (x1 % 64 * 64 + x2 % 64)) :: ·) := by
  show utf8Go (us.length + 1 + 1 + 1) (Sum.inr b :: Sum.inr x1 :: Sum.inr x2 :: us) = _
  simp only [utf8Go]
  rw [if_neg (by omega), if_neg (by omega), if_neg (by omega), if_pos (by omega),
    contBytes_two h1 h2]
  show (if 2048 ≤ b % 16 * 4096 + (x1 % 64 * 64 + x2 % 64) ∧
      ¬ (55296 ≤ b % 16 * 4096 + (x1 % 64 * 64 + x2 % 64) ∧
         b % 16 * 4096 + (x1 % 64 * 64 + x2 % 64) ≤ 57343) then
      (utf8Go (us.length + 1 + 1) us).map
        (Char.ofNat (b % 16 * 4096 + (x1 % 64 * 64 + x2 % 64)) :: ·)
    else none) = _
  rw [if_pos hw]
  rw [utf8Go_irrel (show us.length ≤ us.length + 1 + 1 by omega) (Nat.le_refl _)]
  rfl

theorem utf8FromUnits_four {b x1 x2 x3 : Nat} (hb1 : 240 ≤ b) (hb2 : b < 245)
    (h1 : isContByte x1 = true) (h2 : isContByte x2 = true) (h3 : isContByte x3 = true)
    (hw : 65536 ≤ b % 8 * 262144 + (x1 % 64 * 4096 + x2 % 64 * 64 + x3 % 64) ∧
      b % 8 * 262144 + (x1 % 64 * 4096 + x2 % 64 * 64 + x3 % 64) ≤ 1114111)
    (us : List (Char ⊕ Nat)) :
    utf8FromUnits (Sum.inr b :: Sum.inr x1 :: Sum.inr x2 :: Sum.inr x3 :: us) =
      (utf8FromUnits us).map
        (Char.ofNat (b % 8 * 262144 + (x1 % 64 * 4096 + x2 % 64 * 64 + x3 % 64)) :: ·) := by
  show utf8Go (us.length + 1 + 1 + 1 + 1)
    (Sum.inr b :: Sum.inr x1 :: Sum.inr x2 :: Sum.inr x3 :: us) = _
  simp only [utf8Go]
  rw [if_neg (by omega), if_neg (by omega), if_neg (by omega), if_neg (by omega),
    if_pos (by omega), contBytes_three h1 h2 h3]
  show (if 65536 ≤ b % 8 * 262144 + (x1 % 64 * 4096 + x2 % 64 * 64 + x3 % 64) ∧
      b % 8 * 262144 + (x1 % 64 * 4096 + x2 % 64 * 64 + x3 % 64) ≤ 1114111 then
      (utf8Go (us.length + 1 + 1 + 1) us).map
        (Char.ofNat (b % 8 * 262144 + (x1 % 64 * 4096 + x2 % 64 * 64 + x3 % 64)) :: ·)
    else none) = _
  rw [if_pos hw]
  rw [utf8Go_irrel (show us.length ≤ us.length + 1 + 1 + 1 by omega) (Nat.le_refl _)]
  rfl

theorem utf8FromUnits_encTok (c : Char) (us : List (Char ⊕ Nat)) :
    utf8FromUnits (encTok c ++ us) = (utf8FromUnits us).map (c :: ·) := by
  unfold encTok
  split
  · exact utf8FromUnits_inl c us
  · have hv := char_valid_ranges c
    by_cases h1 : c.toNat < 128
    · rw [show utf8Bytes c.toNat = [c.toNat] from by unfold utf8Bytes; rw [if_pos h1]]
      rw [show ([c.toNat].map Sum.inr : List (Char ⊕ Nat)) ++ us = Sum.inr c.toNat :: us
        from rfl]
      rw [utf8FromUnits_one h1, Char.ofNat_toNat]
    · by_cases h2 : c.toNat < 2048
      · rw [show utf8Bytes c.toNat = [192 + c.toNat / 64, 128 + c.toNat % 64] from by
          unfold utf8Bytes; rw [if_neg h1, if_pos h2]]
        rw [show (([192 + c.toNat / 64, 128 + c.toNat % 64].map Sum.inr : List (Char ⊕ Nat))
          ++ us) = Sum.inr (192 + c.toNat / 64) :: Sum.inr (128 + c.toNat % 64) :: us from rfl]
        rw [utf8FromUnits_two (by omega) (by omega)
          (by simp only [isContByte, Bool.and_eq_true, decide_eq_true_eq]; omega) us]
        rw [show (192 + c.toNat / 64) % 32 * 64 + (128 + c.toNat % 64) % 64 = c.toNat by omega]
        rw [Char.ofNat_toNat]
      · by_cases h3 : c.toNat < 65536
        · rw [show utf8Bytes c.toNat =
              [224 + c.toNat / 4096, 128 + c.toNat / 64 % 64, 128 + c.toNat % 64] from by
            unfold utf8Bytes; rw [if_neg h1, if_neg h2, if_pos h3]]
          rw [show (([224 + c.toNat / 4096, 128 + c.toNat / 64 % 64, 128 + c.toNat % 64].map
            Sum.inr : List (Char ⊕ Nat)) ++ us) = Sum.inr (224 + c.toNat / 4096) ::
            Sum.inr (128 + c.toNat / 64 % 64) :: Sum.inr (128 + c.toNat % 64) :: us from rfl]
          rw [utf8FromUnits_three (by omega) (by omega)
            (by simp only [isContByte, Bool.and_eq_true, decide_eq_true_eq]; omega)
            (by simp only [isContByte, Bool.and_eq_true, decide_eq_true_eq]; omega)
            (by constructor <;> omega) us]
          rw [show (224 + c.toNat / 4096) % 16 * 4096 +
            ((128 + c.toNat / 64 % 64) % 64 * 64 + (128 + c.toNat % 64) % 64) = c.toNat by omega]
          rw [Char.ofNat_toNat]
        · rw [show utf8Bytes c.toNat =
              [240 + c.toNat / 262144, 128 + c.toNat / 4096 % 64, 128 + c.toNat / 64 % 64,
               128 + c.toNat % 64] from by
            unfold utf8Bytes; rw [if_neg h1, if_neg h2, if_neg h3]]
          rw [show (([240 + c.toNat / 262144, 128 + c.toNat / 4096 % 64, 128 + c.toNat / 64 % 64,
            128 + c.toNat % 64].map Sum.inr : List (Char ⊕ Nat)) ++ us) =
            Sum.inr (240 + c.toNat / 262144) :: Sum.inr (128 + c.toNat / 4096 % 64) ::
            Sum.inr (128 + c.toNat / 64 % 64) :: Sum.inr (128 + c.toNat % 64) :: us from rfl]
          rw [utf8FromUnits_four (by omega) (by omega)
            (by simp only [isContByte, Bool.and_eq_true, decide_eq_true_eq]; omega)
            (by simp only [isContByte, Bool.and_eq_true, decide_eq_true_eq]; omega)
            (by simp only [isContByte, Bool.and_eq_true, decide_eq_true_eq]; omega)
            (by constructor <;> omega) us]
          rw [show (240 + c.toNat / 262144) % 8 * 262144 +
            ((128 + c.toNat / 4096 % 64) % 64 * 4096 + (128 + c.toNat / 64 % 64) % 64 * 64 +
             (128 + c.toNat % 64) % 64) = c.toNat by omega]
          rw [Char.ofNat_toNat]

theorem decodePct_encodeValue (v : Str) : decodePct (encodeValue v) = some v := by
  induction v with
  | nil => rfl
  | cons c t ih =>
    unfold decodePct at ih ⊢
    rw [show encodeValue (c :: t) =
        (if isUriUnescaped c then [c] else (utf8Bytes c.toNat).flatMap pctByte) ++ encodeValue t
      from rfl]
    rw [pctTokens_encChar]
    cases hp : pctTokens (encodeValue t) with
    | none => rw [hp] at ih; exact absurd ih (by simp)
    | some ts =>
      rw [hp] at ih
      have ih2 : utf8FromUnits ts = some t := ih
      show utf8FromUnits (encTok c ++ ts) = some (c :: t)
      rw [utf8FromUnits_encTok, ih2]
      rfl

theorem decodeValue_encodeValue (v : Str) : decodeValue (encodeValue v) = v := by
  unfold decodeValue
  rw [decodePct_encodeValue]
  rfl

theorem toDigitsCore_step (f n : Nat) (acc : List Char) :
    Nat.toDigitsCore 10 (f + 1) n acc =
      (if n / 10 = 0 then (n % 10).digitChar :: acc
       else Nat.toDigitsCore 10 f (n / 10) ((n % 10).digitChar :: acc)) := by
  simp [Nat.toDigitsCore]

theorem toDigitsCore_append (n : Nat) : ∀ fuel acc, n < fuel →
    Nat.toDigitsCore 10 fuel n acc = Nat.toDigits 10 n ++ acc := by
  induction n using Nat.strong_induction_on with
  | _ n ih =>
    intro fuel acc h
    match fuel with
    | 0 => omega
    | f + 1 =>
      rw [toDigitsCore_step]
      by_cases h0 : n / 10 = 0
      · rw [if_pos h0]
        rw [show Nat.toDigits 10 n = Nat.toDigitsCore 10 (n + 1) n [] from rfl,
          toDigitsCore_step, if_pos h0]
        rfl
      · rw [if_neg h0]
        have hn : 0 < n := by
          rcases Nat.eq_zero_or_pos n with h1 | h1
          · subst h1; simp at h0
          · exact h1
        have hlt : n / 10 < n := Nat.div_lt_self hn (by norm_num)
        rw [ih (n / 10) hlt f ((n % 10).digitChar :: acc) (by omega)]
        rw [show Nat.toDigits 10 n = Nat.toDigitsCore 10 (n + 1) n [] from rfl,
          toDigitsCore_step, if_neg h0]
        rw [ih (n / 10) hlt n [(n % 10).digitChar] (by omega)]
        simp

theorem natToStr_small {n : Nat} (h : n < 10) : natToStr n = [n.digitChar] := by
  show Nat.toDigitsCore 10 (n + 1) n [] = _
  rw [toDigitsCore_step, if_pos (by omega), Nat.mod_eq_of_lt h]

theorem natToStr_step {n : Nat} (h : 10 ≤ n) :
    natToStr n = natToStr (n / 10) ++ [(n % 10).digitChar] := by
  show Nat.toDigitsCore 10 (n + 1) n [] = _
  rw [toDigitsCore_step, if_neg (by omega)]
  exact toDigitsCore_append (n / 10) n [(n % 10).digitChar] (by omega)

theorem digitVal_digitChar {d : Nat} (h : d < 10) : digitVal d.digitChar = some d := by
  interval_cases d <;> rfl

theorem digitChar_range {d : Nat} (h : d < 10) :
    48 ≤ d.digitChar.toNat ∧ d.digitChar.toNat ≤ 57 := by
  interval_cases d <;> exact (by decide)

theorem natToStr_digits (n : Nat) : ∀ c ∈ natToStr n, 48 ≤ c.toNat ∧ c.toNat ≤ 57 := by
  induction n using Nat.strong_induction_on with
  | _ n ih =>
    intro c hc
    by_cases h : n < 10
    · rw [natToStr_small h] at hc
      simp at hc
      subst hc
      exact digitChar_range h
    · rw [natToStr_step (by omega)] at hc
      rcases List.mem_append.mp hc with h2 | h2
      · exact ih (n / 10) (Nat.div_lt_self (by omega) (by norm_num)) c h2
      · simp at h2
        subst h2
        exact digitChar_range (by omega)

theorem natToStr_ne_nil (n : Nat) : natToStr n ≠ [] := by
  by_cases h : n < 10
  · rw [natToStr_small h]; simp
  · rw [natToStr_step (by omega)]; simp

theorem digitVal_of_range {c : Char} (h : 48 ≤ c.toNat ∧ c.toNat ≤ 57) :
    digitVal c = some (c.toNat - 48) := by
  unfold digitVal
  rw [if_pos h]

theorem leadAux_snoc {t : Str} (hd : ∀ c ∈ t, 48 ≤ c.toNat ∧ c.toNat ≤ 57) {d : Nat}
    (h : d < 10) (a : Nat) :
    leadDigits.leadDigitsAux a (t ++ [d.digitChar]) = leadDigits.leadDigitsAux a t * 10 + d := by
  induction t generalizing a with
  | nil =>
    show leadDigits.leadDigitsAux a [d.digitChar] = a * 10 + d
    unfold leadDigits.leadDigitsAux
    rw [digitVal_digitChar h]
    rfl
  | cons c t2 ih =>
    rw [List.cons_append]
    unfold leadDigits.leadDigitsAux
    rw [digitVal_of_range (hd c (by simp))]
    exact ih (fun x hx => hd x (by simp [hx])) _

theorem leadDigits_natToStr (n : Nat) : leadDigits (natToStr n) = some n := by
  induction n using Nat.strong_induction_on with
  | _ n ih =>
    by_cases h : n < 10
    · rw [natToStr_small h]
      show (match digitVal n.digitChar with
        | none => none
        | some d => some (leadDigits.leadDigitsAux d [])) = some n
      rw [digitVal_digitChar h]
      rfl
    · rw [natToStr_step (by omega)]
      have ih2 := ih (n / 10) (Nat.div_lt_self (by omega) (by norm_num))
      obtain ⟨c, t, hct⟩ : ∃ c t, natToStr (n / 10) = c :: t := by
        cases hh : natToStr (n / 10) with
        | nil => exact absurd hh (natToStr_ne_nil _)
        | cons c t => exact ⟨c, t, rfl⟩
      have hdigs := natToStr_digits (n / 10)
      rw [hct] at ih2 hdigs ⊢
      have hc0 := hdigs c (by simp)
      have ih3 : (match digitVal c with
        | none => none
        | some d => some (leadDigits.leadDigitsAux d t)) = some (n / 10) := ih2
      rw [digitVal_of_range hc0] at ih3
      rw [List.cons_append]
      show (match digitVal c with
        | none => none
        | some d => some (leadDigits.leadDigitsAux d (t ++ [(n % 10).digitChar]))) = some n
      rw [digitVal_of_range hc0]
      have hv : leadDigits.leadDigitsAux (c.toNat - 48) t = n / 10 :=
        Option.some_inj.mp ih3
      rw [show (match (some (c.toNat - 48) : Option Nat) with
        | none => none
        | some d => some (leadDigits.leadDigitsAux d (t ++ [(n % 10).digitChar]))) =
        some (leadDigits.leadDigitsAux (c.toNat - 48) (t ++ [(n % 10).digitChar])) from rfl]
      rw [leadAux_snoc (fun x hx => hdigs x (by simp [hx])) (Nat.mod_lt n (by norm_num)) _, hv]
      rw [show n / 10 * 10 + n % 10 = n from by omega]

theorem jsTrimStart_eq_self {l : Str}
    (h : ∀ c, l.head? = some c → isWsChar c = false) : jsTrimStart l = l := by
  match l with
  | [] => rfl
  | c :: t =>
    show List.dropWhile isWsChar (c :: t) = c :: t
    rw [List.dropWhile_cons_of_neg (by simp [h c rfl])]

theorem jsTrimEnd_eq_self {l : Str}
    (h : ∀ c, l.getLast? = some c → isWsChar c = false) : jsTrimEnd l = l := by
  unfold jsTrimEnd
  match hr : l.reverse with
  | [] =>
    have : l = [] := by simpa using congrArg List.reverse hr
    simp [this]
  | c :: t =>
    have hc : l.getLast? = some c := by
      rw [← List.head?_reverse, hr]
      rfl
    rw [List.dropWhile_cons_of_neg (by simp [h c hc])]
    rw [← hr, List.reverse_reverse]

theorem jsTrim_eq_self {l : Str}
    (h1 : ∀ c, l.head? = some c → isWsChar c = false)
    (h2 : ∀ c, l.getLast? = some c → isWsChar c = false) : jsTrim l = l := by
  unfold jsTrim
  rw [jsTrimStart_eq_self h1, jsTrimEnd_eq_self h2]

theorem jsParseInt_no_sign {c : Char} {t : Str} (hws : isWsChar c = false)
    (hm : ¬ c = '-') (hp : ¬ c = '+') :
    jsParseInt (c :: t) = (leadDigits (c :: t)).map (fun v => (v : Int)) := by
  unfold jsParseInt
  rw [show jsTrimStart (c :: t) = c :: t from
    jsTrimStart_eq_self (fun x hx => by simp at hx; rw [← hx]; exact hws)]
  split
  · next r heq =>
    exact absurd (List.head_eq_of_cons_eq heq) hm
  · next r heq =>
    exact absurd (List.head_eq_of_cons_eq heq) hp
  · rfl

theorem jsParseInt_natToStr (n : Nat) : jsParseInt (natToStr n) = some (n : Int) := by
  obtain ⟨c, t, hct⟩ : ∃ c t, natToStr n = c :: t := by
    cases hh : natToStr n with
    | nil => exact absurd hh (natToStr_ne_nil _)
    | cons c t => exact ⟨c, t, rfl⟩
  have hc0 := natToStr_digits n c (by rw [hct]; simp)
  rw [hct, jsParseInt_no_sign
    (by cases hw : isWsChar c
        · rfl
        · have := isWsChar_iff.mp hw; omega)
    (by intro hx; rw [hx] at hc0; exact absurd hc0 (by decide))
    (by intro hx; rw [hx] at hc0; exact absurd hc0 (by decide))]
  rw [← hct, leadDigits_natToStr]
  rfl

theorem intToStr_ne_nil (v : Int) : intToStr v ≠ [] := by
  unfold intToStr
  split
  · simp
  · exact natToStr_ne_nil _

theorem jsParseInt_intToStr (v : Int) : jsParseInt (intToStr v) = some v := by
  unfold intToStr
  split
  · next h =>
    unfold jsParseInt
    rw [show jsTrimStart ('-' :: natToStr (-v).toNat) = '-' :: natToStr (-v).toNat from
      jsTrimStart_eq_self (fun x hx => by simp at hx; rw [← hx]; rfl)]
    show (leadDigits (natToStr (-v).toNat)).map (fun w => -(w : Int)) = some v
    rw [leadDigits_natToStr]
    simp
    omega
  · next h =>
    rw [jsParseInt_natToStr]
    simp
    omega

theorem utf8Bytes_ne_nil (n : Nat) : utf8Bytes n ≠ [] := by
  unfold utf8Bytes
  split
  · simp
  · split
    · simp
    · split <;> simp

theorem hexDigitChar_class {d : Nat} (h : d < 16) :
    isWsChar (hexDigitChar d) = false ∧ ¬ hexDigitChar d = '=' := by
  interval_cases d <;> exact (by decide)

theorem encodeValue_ws_free {v : Str} : ∀ c ∈ encodeValue v, isWsChar c = false := by
  intro c hc
  unfold encodeValue at hc
  rw [List.mem_flatMap] at hc
  obtain ⟨a, -, hmem⟩ := hc
  split at hmem
  · next h =>
    simp at hmem
    subst hmem
    exact safe_not_ws h
  · rw [List.mem_flatMap] at hmem
    obtain ⟨b, hb, hcb⟩ := hmem
    have hlt : b < 256 := by
      have hv := char_valid_ranges a
      exact utf8Bytes_lt_256 (by omega) b hb
    unfold pctByte at hcb
    simp at hcb
    rcases hcb with rfl | rfl | rfl
    · rfl
    · exact (hexDigitChar_class (by omega)).1
    · exact (hexDigitChar_class (by omega)).1

theorem encodeValue_ne_nil {v : Str} (h : v ≠ []) : encodeValue v ≠ [] := by
  match v with
  | c :: t =>
    unfold encodeValue
    rw [List.flatMap_cons]
    intro hap
    rcases List.append_eq_nil.mp hap with ⟨h1, -⟩
    split at h1
    · exact List.noConfusion h1
    · rcases hb : utf8Bytes c.toNat with - | ⟨b, bs⟩
      · exact utf8Bytes_ne_nil c.toNat hb
      · rw [hb, List.flatMap_cons] at h1
        rcases List.append_eq_nil.mp h1 with ⟨h2, -⟩
        exact List.noConfusion h2

theorem splitWsF_token {w : Str} (hne : w ≠ []) (hws : ∀ c ∈ w, isWsChar c = false) :
    splitWsF w = [w] := by
  induction w with
  | nil => exact absurd rfl hne
  | cons c w2 ih =>
    have hc := hws c (by simp)
    rcases w2 with - | ⟨d, w3⟩
    · simp [splitWsF, hc]
    · have hd := hws d (by simp)
      have hstep : splitWsF (c :: d :: w3) =
          (if isWsChar c = true then splitWsF (d :: w3)
           else if isWsChar d = true then [c] :: splitWsF (d :: w3)
           else match splitWsF (d :: w3) with
             | h :: r => (c :: h) :: r
             | [] => [[c]]) := rfl
      rw [hstep, if_neg (by simp [hc]), if_neg (by simp [hd])]
      rw [ih (by simp) (fun x hx => hws x (by simp [hx]))]

theorem splitWsF_sep {w rest : Str} (hne : w ≠ []) (hws : ∀ c ∈ w, isWsChar c = false) :
    splitWsF (w ++ ' ' :: rest) = w :: splitWsF rest := by
  induction w with
  | nil => exact absurd rfl hne
  | cons c w2 ih =>
    have hc := hws c (by simp)
    rcases w2 with - | ⟨d, w3⟩
    · rw [show ([c] : Str) ++ ' ' :: rest = c :: ' ' :: rest from rfl]
      have hstep : splitWsF (c :: ' ' :: rest) =
          (if isWsChar c = true then splitWsF (' ' :: rest)
           else if isWsChar ' ' = true then [c] :: splitWsF (' ' :: rest)
           else match splitWsF (' ' :: rest) with
             | h :: r => (c :: h) :: r
             | [] => [[c]]) := rfl
      have hstep2 : splitWsF (' ' :: rest) =
          (if isWsChar ' ' = true then splitWsF rest
           else match rest with
             | [] => [[' ']]
             | d :: _ =>
               if isWsChar d = true then [' '] :: splitWsF rest
               else match splitWsF rest with
                 | h :: r => ((' ' :: h) :: r : List Str)
                 | [] => [[' ']]) := rfl
      rw [hstep, if_neg (by simp [hc]), if_pos (by decide), hstep2, if_pos (by decide)]
    · have hd := hws d (by simp)
      rw [show ((c :: d :: w3) : Str) ++ ' ' :: rest = c :: ((d :: w3) ++ ' ' :: rest) from rfl]
      have hstep : splitWsF (c :: (d :: (w3 ++ ' ' :: rest))) =
          (if isWsChar c = true then splitWsF (d :: (w3 ++ ' ' :: rest))
           else if isWsChar d = true then [c] :: splitWsF (d :: (w3 ++ ' ' :: rest))
           else match splitWsF (d :: (w3 ++ ' ' :: rest)) with
             | h :: r => (c :: h) :: r
             | [] => [[c]]) := rfl
      rw [show ((d :: w3) : Str) ++ ' ' :: rest = d :: (w3 ++ ' ' :: rest) from rfl]
      rw [hstep, if_neg (by simp [hc]), if_neg (by simp [hd])]
      rw [show (d :: (w3 ++ ' ' :: rest) : Str) = (d :: w3) ++ ' ' :: rest from rfl]
      rw [ih (by simp) (fun x hx => hws x (by simp [hx]))]

theorem splitWsF_join {tokens : List Str} (hne : tokens ≠ [])
    (h1 : ∀ t ∈ tokens, t ≠ []) (h2 : ∀ t ∈ tokens, ∀ c ∈ t, isWsChar c = false) :
    splitWsF (joinSep (str " ") tokens) = tokens := by
  induction tokens with
  | nil => exact absurd rfl hne
  | cons x ts ih =>
    rcases ts with - | ⟨y, ts2⟩
    · exact splitWsF_token (h1 x (by simp)) (h2 x (by simp))
    · rw [show joinSep (str " ") (x :: y :: ts2) =
          x ++ ' ' :: joinSep (str " ") (y :: ts2) from by
        show (x ++ [' ']) ++ joinSep (str " ") (y :: ts2) = _
        rw [List.append_assoc]
        rfl]
      rw [splitWsF_sep (h1 x (by simp)) (h2 x (by simp))]
      rw [ih (by simp) (fun t ht => h1 t (by simp [ht])) (fun t ht => h2 t (by simp [ht]))]

theorem splitChar_cons_step (sep c : Char) (t : Str) :
    splitChar sep (c :: t) =
      (if c = sep then [] :: splitChar sep t
       else match splitChar sep t with
         | [] => [[c]]
         | h :: r => (c :: h) :: r) := rfl

theorem splitChar_ne_nil (sep : Char) (l : Str) : splitChar sep l ≠ [] := by
  match l with
  | [] => simp [splitChar]
  | c :: t =>
    rw [splitChar_cons_step]
    split
    · simp
    · split <;> simp

theorem splitChar_sep_append (sep : Char) (a rest : Str) :
    splitChar sep (a ++ sep :: rest) = splitChar sep a ++ splitChar sep rest := by
  induction a with
  | nil =>
    show splitChar sep (sep :: rest) = [[]] ++ splitChar sep rest
    rw [splitChar_cons_step, if_pos rfl]
    rfl
  | cons c a2 ih =>
    show splitChar sep (c :: (a2 ++ sep :: rest)) = splitChar sep (c :: a2) ++ _
    rw [splitChar_cons_step, splitChar_cons_step sep c a2]
    by_cases hc : c = sep
    · rw [if_pos hc, if_pos hc, ih]
      rfl
    · rw [if_neg hc, if_neg hc, ih]
      cases hs : splitChar sep a2 with
      | nil => exact absurd hs (splitChar_ne_nil sep a2)
      | cons h r =>
        rw [List.cons_append]
        rfl

theorem splitChar_sepfree_cons {w rest : Str} (hws : ∀ c ∈ w, ¬ c = ' ') :
    splitChar ' ' (w ++ ' ' :: rest) = w :: splitChar ' ' rest := by
  induction w with
  | nil =>
    show splitChar ' ' (' ' :: rest) = [] :: splitChar ' ' rest
    rw [splitChar_cons_step, if_pos rfl]
  | cons c w2 ih =>
    show splitChar ' ' (c :: (w2 ++ ' ' :: rest)) = _
    rw [splitChar_cons_step, if_neg (hws c (by simp)),
      ih (fun x hx => hws x (by simp [hx]))]

theorem mem_splitChar_delimited {w : Str} (a b : Str) (hws : ∀ c ∈ w, ¬ c = ' ') :
    w ∈ splitChar ' ' (a ++ ' ' :: (w ++ ' ' :: b)) := by
  rw [splitChar_sep_append ' ' a (w ++ ' ' :: b), splitChar_sepfree_cons hws]
  simp

theorem mem_of_includes {l p : Str} (h : jsIncludes l p = true) : ∀ c ∈ p, c ∈ l := by
  intro c hc
  obtain ⟨a, b, rfl⟩ := jsIncludes_iff.mp h
  simp [hc]

theorem idxOfSub_cons_step (pat : Str) (c : Char) (t : Str) :
    idxOfSub (c :: t) pat =
      (if pat.isPrefixOf (c :: t) then some 0
       else (idxOfSub t pat).map (· + 1)) := rfl

theorem idxOfSub_first_eq {k v : Str} (hk : ∀ c ∈ k, ¬ c = '=') :
    idxOfSub (k ++ '=' :: v) (str "=") = some k.length := by
  induction k with
  | nil =>
    unfold idxOfSub
    rw [if_pos (by simp [str, List.isPrefixOf_iff_prefix])]
    rfl
  | cons c k2 ih =>
    show idxOfSub (c :: (k2 ++ '=' :: v)) (str "=") = some (k2.length + 1)
    rw [idxOfSub_cons_step, if_neg (by
      simp [str, List.isPrefixOf_iff_prefix]
      intro hp
      exact (hk c (by simp)) hp.symm)]
    rw [ih (fun x hx => hk x (by simp [hx]))]
    simp

theorem tagp_no_hash {n : Nat} (h1 : 1 ≤ n) (h2 : n ≤ 14) : ¬ TAGP[n]? = some '#' := by
  interval_cases n <;> decide

theorem jsIncludes_cons_elim {c : Char} {t p : Str} (h : jsIncludes (c :: t) p = true) :
    p.isPrefixOf (c :: t) = true ∨ jsIncludes t p = true := by
  unfold jsIncludes at h
  rw [idxOfSub_cons_step] at h
  by_cases hp : p.isPrefixOf (c :: t) = true
  · exact Or.inl hp
  · rw [if_neg hp] at h
    right
    unfold jsIncludes
    cases ho : idxOfSub t p with
    | none =>
      rw [ho] at h
      exact Bool.noConfusion h
    | some k => rfl

theorem jsIncludes_cons_of_tail {c : Char} {t p : Str} (h : jsIncludes t p = true) :
    jsIncludes (c :: t) p = true := by
  unfold jsIncludes
  rw [idxOfSub_cons_step]
  by_cases hp : p.isPrefixOf (c :: t) = true
  · rw [if_pos hp]
    rfl
  · rw [if_neg hp]
    unfold jsIncludes at h
    cases ho : idxOfSub t p with
    | none =>
      rw [ho] at h
      exact Bool.noConfusion h
    | some k => rfl

theorem includes_append_split {u v p : Str} (h : jsIncludes (u ++ v) p = true) :
    jsIncludes u p = true ∨ jsIncludes v p = true ∨
    ∃ s t, p = s ++ t ∧ s ≠ [] ∧ t ≠ [] ∧ (∃ x, u = x ++ s) ∧ ∃ y, v = t ++ y := by
  obtain ⟨X, Y, hXY⟩ := jsIncludes_iff.mp h
  have hu : u = ((X ++ p) ++ Y).take u.length := by
    rw [← hXY, List.take_left]
  have hv : v = ((X ++ p) ++ Y).drop u.length := by
    rw [← hXY, List.drop_left]
  by_cases h1 : X.length + p.length ≤ u.length
  · left
    apply jsIncludes_iff.mpr
    refine ⟨X, Y.take (u.length - (X.length + p.length)), ?_⟩
    conv_lhs => rw [hu]
    rw [List.take_append_eq_append_take,
      List.take_all_of_le (by rw [List.length_append]; omega), List.length_append]
  · by_cases h2 : u.length ≤ X.length
    · right; left
      apply jsIncludes_iff.mpr
      refine ⟨X.drop u.length, Y, ?_⟩
      conv_lhs => rw [hv]
      rw [List.drop_append_eq_append_drop, List.drop_append_eq_append_drop,
        List.length_append,
        show u.length - X.length = 0 from by omega,
        show u.length - (X.length + p.length) = 0 from by omega,
        List.drop_zero, List.drop_zero]
    · right; right
      refine ⟨p.take (u.length - X.length), p.drop (u.length - X.length),
        (List.take_append_drop _ p).symm, ?_, ?_, ⟨X, ?_⟩, ⟨Y, ?_⟩⟩
      · intro hs
        have := congrArg List.length hs
        simp only [List.length_take, List.length_nil] at this
        omega
      · intro ht
        have := congrArg List.length ht
        simp only [List.length_drop, List.length_nil] at this
        omega
      · conv_lhs => rw [hu]
        rw [List.take_append_eq_append_take, List.length_append,
          show u.length - (X.length + p.length) = 0 from by omega, List.take_zero,
          List.append_nil, List.take_append_eq_append_take,
          List.take_all_of_le (by omega)]
      · conv_lhs => rw [hv]
        rw [List.drop_append_eq_append_drop, List.drop_append_eq_append_drop,
          List.length_append,
          show u.length - (X.length + p.length) = 0 from by omega, List.drop_zero,
          List.drop_eq_nil_of_le (by omega), List.nil_append]

theorem tagp_space_only {n : Nat} (h : n ≤ 14) : TAGP[n]? = some ' ' → n = 1 := by
  interval_cases n <;> decide

theorem tag_no_space {n : Nat} (h : n ≤ 12) : ¬ TAG[n]? = some ' ' := by
  interval_cases n <;> decide

theorem tagp_split_space {s t2 : Str} (hp : TAGP = s ++ ' ' :: t2) (hs : s ≠ []) :
    s = ['#'] ∧ t2 = str "openclaw:cron" := by
  have hlen : s.length + (1 + t2.length) = 15 := by
    have h0 := congrArg List.length hp
    have h15 : TAGP.length = 15 := by decide
    simp only [List.length_append, List.length_cons] at h0
    omega
  have hsne : s.length ≠ 0 := fun h0 => hs (List.length_eq_zero.mp h0)
  have hsp : TAGP[s.length]? = some ' ' := by
    rw [hp, List.getElem?_append_right (Nat.le_refl _), Nat.sub_self]
    exact List.getElem?_cons_zero
  have hs1 : s.length = 1 := tagp_space_only (by omega) hsp
  have hs2 : s = TAGP.take 1 := by
    rw [hp, List.take_append_of_le_length (by omega), List.take_all_of_le (by omega)]
  have ht2 : t2 = TAGP.drop 2 := by
    rw [hp, List.drop_append_eq_append_drop, List.drop_eq_nil_of_le (by omega),
      List.nil_append, hs1]
    rfl
  constructor
  · rw [hs2]
    rfl
  · rw [ht2]
    rfl

theorem append_eq_append_cons_elim {p r u : Str} {c : Char} {w : Str}
    (h : p ++ r = u ++ c :: w) :
    (∃ q, u = p ++ q) ∨ ∃ k, k < p.length ∧ u = p.take k ∧ p[k]? = some c := by
  by_cases h1 : p.length ≤ u.length
  · left
    refine ⟨u.drop p.length, ?_⟩
    have hpt : p = u.take p.length := by
      have h2 := congrArg (List.take p.length) h
      rw [List.take_left, List.take_append_of_le_length h1] at h2
      exact h2
    conv_lhs => rw [← List.take_append_drop p.length u]
    rw [← hpt]
  · right
    refine ⟨u.length, by omega, ?_, ?_⟩
    · have h2 := congrArg (List.take u.length) h
      rw [List.take_append_of_le_length (by omega)] at h2
      rw [show List.take u.length (u ++ c :: w) = u from List.take_left u _] at h2
      exact h2.symm
    · have h2 := congrArg (fun l => l[u.length]?) h
      simp only [] at h2
      rw [List.getElem?_append_left (by omega)] at h2
      rw [List.getElem?_append_right (Nat.le_refl _), Nat.sub_self] at h2
      rw [h2]
      exact List.getElem?_cons_zero

theorem idxOfSub_tagp {A B : Str} (hA : jsIncludes A TAGP = false) :
    idxOfSub (A ++ (TAGP ++ B)) TAGP = some A.length := by
  induction A with
  | nil =>
    show idxOfSub (TAGP ++ B) TAGP = some 0
    unfold idxOfSub
    rw [if_pos (List.isPrefixOf_iff_prefix.mpr (List.prefix_append TAGP B))]
  | cons c A2 ih =>
    rw [List.cons_append, idxOfSub_cons_step, if_neg ?hpre]
    case hpre =>
      intro hp
      obtain ⟨r, hr⟩ := List.isPrefixOf_iff_prefix.mp hp
      by_cases hn : 15 ≤ (c :: A2).length
      · have htake := congrArg (List.take 15) hr
        rw [List.take_append_of_le_length (show (15 : Nat) ≤ TAGP.length from by decide),
          List.take_all_of_le (show TAGP.length ≤ 15 from by decide)] at htake
        rw [show (c :: (A2 ++ (TAGP ++ B))) = (c :: A2) ++ (TAGP ++ B) from rfl,
          List.take_append_of_le_length hn] at htake
        have hinc : jsIncludes (c :: A2) TAGP = true := by
          unfold jsIncludes idxOfSub
          rw [if_pos (List.isPrefixOf_iff_prefix.mpr
            (show TAGP <+: (c :: A2) from by
              rw [htake]
              exact List.take_prefix 15 (c :: A2)))]
          rfl
        rw [hA] at hinc
        exact Bool.noConfusion hinc
      · have hn2 : (c :: A2).length ≤ 14 := by omega
        have hb := congrArg (fun l => l[(c :: A2).length]?) hr.symm
        simp only [] at hb
        rw [show (c :: (A2 ++ (TAGP ++ B))) = (c :: A2) ++ (TAGP ++ B) from rfl] at hb
        rw [List.getElem?_append_right (Nat.le_refl _)] at hb
        rw [Nat.sub_self] at hb
        rw [show (TAGP ++ B)[0]? = some '#' from rfl] at hb
        rw [List.getElem?_append_left (by
          show (c :: A2).length < TAGP.length
          have : TAGP.length = 15 := by decide
          omega)] at hb
        exact tagp_no_hash (by simp) (by omega) hb.symm
    rw [ih ?htail]
    case htail =>
      cases hh : jsIncludes A2 TAGP with
      | false => rfl
      | true =>
        rw [jsIncludes_cons_of_tail hh] at hA
        exact Bool.noConfusion hA
    rfl

theorem drop_after_marker (A B : Str) :
    (A ++ (TAGP ++ B)).drop (A.length + TAGP.length) = B := by
  rw [← List.append_assoc, ← List.length_append]
  exact List.drop_left (A ++ TAGP) B

theorem metaGet_nil (k : Str) : metaGet [] k = none := rfl

theorem metaGet_append (xs ys : List (Str × Str)) (k : Str) :
    metaGet (xs ++ ys) k = (metaGet ys k).or (metaGet xs k) := by
  unfold metaGet
  rw [List.reverse_append, List.find?_append]
  cases List.find? (fun kv => kv.1 == k) ys.reverse <;> simp [Option.or]

theorem metaGet_seg_ne {seg : List (Str × Str)} {k : Str}
    (h : ∀ kv ∈ seg, ¬ kv.1 = k) : metaGet seg k = none := by
  unfold metaGet
  rw [List.find?_eq_none.mpr (by
    intro kv hkv
    simp only [beq_iff_eq]
    exact h kv (List.mem_reverse.mp hkv))]
  rfl

theorem optTruthyKV_keys (k' : Str) (v : Option Str) :
    ∀ kv ∈ optTruthyKV k' v, kv.1 = k' := by
  intro kv hkv
  match v with
  | none => exact absurd hkv (by simp [optTruthyKV])
  | some s =>
    rw [show optTruthyKV k' (some s) = if s ≠ [] then [(k', s)] else [] from rfl] at hkv
    split at hkv
    · simp at hkv
      simp [hkv]
    · exact absurd hkv (by simp)

theorem optBoolKV_keys (k' : Str) (v : Option Bool) :
    ∀ kv ∈ optBoolKV k' v, kv.1 = k' := by
  intro kv hkv
  match v with
  | none => exact absurd hkv (by simp [optBoolKV])
  | some b =>
    rw [show optBoolKV k' (some b) = [(k', if b then str "true" else str "false")] from rfl]
      at hkv
    simp at hkv
    simp [hkv]

theorem optNumKV_keys (k' : Str) (v : Option Int) :
    ∀ kv ∈ optNumKV k' v, kv.1 = k' := by
  intro kv hkv
  match v with
  | none => exact absurd hkv (by simp [optNumKV])
  | some n =>
    rw [show optNumKV k' (some n) = [(k', intToStr n)] from rfl] at hkv
    simp at hkv
    simp [hkv]

theorem tokenParts_ne_nil {kvs : List (Str × Str)} (p : Str) (hp : p ∈ tokenParts kvs) :
    p ≠ [] := by
  unfold tokenParts at hp
  rw [List.mem_map] at hp
  obtain ⟨kv, -, rfl⟩ := hp
  simp

theorem tokenParts_ws_free {kvs : List (Str × Str)} (hk : ∀ kv ∈ kvs, goodKey kv.1) :
    ∀ p ∈ tokenParts kvs, ∀ c ∈ p, isWsChar c = false := by
  intro p hp c hc
  unfold tokenParts at hp
  rw [List.mem_map] at hp
  obtain ⟨kv, hkv, rfl⟩ := hp
  rcases List.mem_append.mp hc with h2 | h2
  · exact ((hk kv (List.mem_of_mem_filter hkv)).2 c h2).1
  · rcases List.mem_cons.mp h2 with rfl | h3
    · rfl
    · exact encodeValue_ws_free c h3

theorem tokenParts_has_eq {kvs : List (Str × Str)} :
    ∀ p ∈ tokenParts kvs, '=' ∈ p := by
  intro p hp
  unfold tokenParts at hp
  rw [List.mem_map] at hp
  obtain ⟨kv, -, rfl⟩ := hp
  simp

theorem joinSep_parts_ne_nil {parts : List Str} (h : parts ≠ [])
    (h2 : ∀ p ∈ parts, p ≠ []) : joinSep (str " ") parts ≠ [] := by
  match parts with
  | [x] => exact h2 x (by simp)
  | x :: y :: r =>
    show (x ++ str " ") ++ joinSep (str " ") (y :: r) ≠ []
    simp [h2 x (by simp)]

theorem joinSep_getLast_mem {parts : List Str} (h : parts ≠ [])
    (h2 : ∀ p ∈ parts, p ≠ []) :
    ∃ p ∈ parts, (joinSep (str " ") parts).getLast? = p.getLast? := by
  induction parts with
  | nil => exact absurd rfl h
  | cons x rest ih =>
    rcases rest with - | ⟨y, r⟩
    · exact ⟨x, by simp, rfl⟩
    · obtain ⟨p, hp, hlast⟩ := ih (by simp) (fun q hq => h2 q (by simp [hq]))
      refine ⟨p, by simp [hp], ?_⟩
      rw [show joinSep (str " ") (x :: y :: r) =
          x ++ ' ' :: joinSep (str " ") (y :: r) from by
        show (x ++ [' ']) ++ _ = _
        rw [List.append_assoc]
        rfl]
      rw [List.getLast?_append_of_ne_nil _ (by simp)]
      rw [show (' ' :: joinSep (str " ") (y :: r) : Str) =
        [' '] ++ joinSep (str " ") (y :: r) from rfl]
      rw [List.getLast?_append_of_ne_nil _
        (joinSep_parts_ne_nil (by simp) (fun q hq => h2 q (by simp [hq])))]
      exact hlast

theorem joinSep_head {parts : List Str} {x : Str} {rest : List Str}
    (h : parts = x :: rest) (hx : x ≠ []) :
    (joinSep (str " ") parts).head? = x.head? := by
  subst h
  rcases rest with - | ⟨y, r⟩
  · rfl
  · show ((x ++ str " ") ++ joinSep (str " ") (y :: r)).head? = _
    rw [List.append_assoc, List.head?_append_of_ne_nil _ hx]

theorem buildTaggedLine_shape {kvs : List (Str × Str)} (hk : ∀ kv ∈ kvs, goodKey kv.1)
    (hne : tokenParts kvs ≠ []) :
    buildTaggedLine kvs = TAGP ++ ' ' :: joinSep (str " ") (tokenParts kvs) := by
  have hparts_ne := fun p hp => @tokenParts_ne_nil kvs p hp
  have hws := tokenParts_ws_free hk
  unfold buildTaggedLine
  rw [show ((kvs.filter (fun kv => kv.2 ≠ [])).map
      (fun kv => kv.1 ++ '=' :: encodeValue kv.2)) = tokenParts kvs from rfl]
  apply jsTrim_eq_self
  · intro c hc
    rw [show (TAGP ++ ' ' :: joinSep (str " ") (tokenParts kvs)).head? = some '#' from rfl]
      at hc
    rw [← Option.some_inj.mp hc]
    rfl
  · intro c hc
    rw [List.getLast?_append_of_ne_nil _ (by simp)] at hc
    rw [show (' ' :: joinSep (str " ") (tokenParts kvs) : Str) =
      [' '] ++ joinSep (str " ") (tokenParts kvs) from rfl] at hc
    rw [List.getLast?_append_of_ne_nil _ (joinSep_parts_ne_nil hne hparts_ne)] at hc
    obtain ⟨p, hp, hlast⟩ := joinSep_getLast_mem hne hparts_ne
    rw [hlast] at hc
    exact hws p hp c (List.mem_of_mem_getLast? hc)

theorem jsTrim_eq_self_of_ws_free {l : Str} (h : ∀ c ∈ l, isWsChar c = false) :
    jsTrim l = l :=
  jsTrim_eq_self (fun c hc => h c (List.mem_of_mem_head? hc))
    (fun c hc => h c (List.mem_of_mem_getLast? hc))

theorem key_ws_free {k : Str} (hk : goodKey k) : ∀ c ∈ k, isWsChar c = false :=
  fun c hc => (hk.2 c hc).1

theorem parseToken_build {k v : Str} (hk : goodKey k) (hv : v ≠ []) :
    (match idxOfSub (k ++ '=' :: encodeValue v) (str "=") with
     | none => none
     | some eq =>
       if eq = 0 then none
       else
         let key := jsTrim ((k ++ '=' :: encodeValue v).take eq)
         let rawValue := jsTrim ((k ++ '=' :: encodeValue v).drop (eq + 1))
         if key = [] then none else some (key, decodeValue rawValue)) = some (k, v) := by
  rw [idxOfSub_first_eq (fun c hc => (hk.2 c hc).2)]
  have hkne : k.length ≠ 0 := by
    intro h0
    exact hk.1 (List.length_eq_zero.mp h0)
  rw [show (match (some k.length : Option Nat) with
     | none => none
     | some eq =>
       if eq = 0 then none
       else
         let key := jsTrim ((k ++ '=' :: encodeValue v).take eq)
         let rawValue := jsTrim ((k ++ '=' :: encodeValue v).drop (eq + 1))
         if key = [] then none else some (key, decodeValue rawValue)) =
    (if k.length = 0 then none
     else
       let key := jsTrim ((k ++ '=' :: encodeValue v).take k.length)
       let rawValue := jsTrim ((k ++ '=' :: encodeValue v).drop (k.length + 1))
       if key = [] then none else some (key, decodeValue rawValue)) from rfl]
  rw [if_neg hkne]
  rw [List.take_left k ('=' :: encodeValue v)]
  rw [show (k ++ '=' :: encodeValue v).drop (k.length + 1) = encodeValue v from by
    rw [show (k ++ '=' :: encodeValue v) = (k ++ ['=']) ++ encodeValue v from by simp,
      show k.length + 1 = (k ++ ['=']).length from by simp]
    exact List.drop_left _ _]
  rw [jsTrim_eq_self_of_ws_free (key_ws_free hk),
    jsTrim_eq_self_of_ws_free (fun c hc => encodeValue_ws_free c hc)]
  rw [if_neg (by simpa using hk.1), decodeValue_encodeValue]

theorem parseKVT_filterMap {kvlist : List (Str × Str)}
    (hk : ∀ kv ∈ kvlist, goodKey kv.1) (hv : ∀ kv ∈ kvlist, kv.2 ≠ []) :
    ((kvlist.map (fun kv => kv.1 ++ '=' :: encodeValue kv.2)).filterMap fun token =>
      match idxOfSub token (str "=") with
      | none => none
      | some eq =>
        if eq = 0 then none
        else
          let key := jsTrim (token.take eq)
          let rawValue := jsTrim (token.drop (eq + 1))
          if key = [] then none else some (key, decodeValue rawValue)) = kvlist := by
  induction kvlist with
  | nil => rfl
  | cons kv rest ih =>
    rw [List.map_cons, List.filterMap_cons]
    rw [parseToken_build (hk kv (by simp)) (hv kv (by simp))]
    rw [ih (fun x hx => hk x (by simp [hx])) (fun x hx => hv x (by simp [hx]))]

theorem filter_keeps_values {kvs : List (Str × Str)} :
    ∀ kv ∈ kvs.filter (fun kv => kv.2 ≠ []), kv.2 ≠ [] := by
  intro kv hkv
  have := List.of_mem_filter hkv
  simpa using this

theorem parseTaggedLine_build {kvs : List (Str × Str)} (hk : ∀ kv ∈ kvs, goodKey kv.1)
    (hne : tokenParts kvs ≠ []) :
    parseTaggedLine (buildTaggedLine kvs) = some (kvs.filter (fun kv => kv.2 ≠ [])) := by
  have hparts_ne := fun p hp => @tokenParts_ne_nil kvs p hp
  have hws := tokenParts_ws_free hk
  rw [buildTaggedLine_shape hk hne]
  unfold parseTaggedLine
  rw [show TAGP ++ ' ' :: joinSep (str " ") (tokenParts kvs) =
    [] ++ (TAGP ++ (' ' :: joinSep (str " ") (tokenParts kvs))) from by simp]
  rw [idxOfSub_tagp (by rfl)]
  show some (parseKeyValueTokens (jsTrim (List.drop TAGP.length
    (TAGP ++ (' ' :: joinSep (str " ") (tokenParts kvs)))))) = _
  rw [List.drop_left TAGP _]
  have hjhead : ∀ c, (joinSep (str " ") (tokenParts kvs)).head? = some c →
      isWsChar c = false := by
    intro c hc
    obtain ⟨x, rest, hxr⟩ : ∃ x rest, tokenParts kvs = x :: rest := by
      cases htp : tokenParts kvs with
      | nil => exact absurd htp hne
      | cons x rest => exact ⟨x, rest, rfl⟩
    rw [joinSep_head hxr (hparts_ne x (by rw [hxr]; simp))] at hc
    exact hws x (by rw [hxr]; simp) c (List.mem_of_mem_head? hc)
  rw [show jsTrim (' ' :: joinSep (str " ") (tokenParts kvs)) =
      joinSep (str " ") (tokenParts kvs) from by
    unfold jsTrim
    rw [show jsTrimStart (' ' :: joinSep (str " ") (tokenParts kvs)) =
        jsTrimStart (joinSep (str " ") (tokenParts kvs)) from by
      unfold jsTrimStart
      rw [List.dropWhile_cons_of_pos (by decide)]]
    rw [jsTrimStart_eq_self hjhead]
    apply jsTrimEnd_eq_self
    intro c hc
    obtain ⟨p, hp, hlast⟩ := joinSep_getLast_mem hne hparts_ne
    rw [hlast] at hc
    exact hws p hp c (List.mem_of_mem_getLast? hc)]
  unfold parseKeyValueTokens
  rw [splitWsF_join hne (fun t ht => tokenParts_ne_nil t ht) (fun t ht => hws t ht)]
  rw [show tokenParts kvs = (kvs.filter (fun kv => kv.2 ≠ [])).map
      (fun kv => kv.1 ++ '=' :: encodeValue kv.2) from rfl]
  rw [parseKVT_filterMap (fun kv hkv => hk kv (List.mem_of_mem_filter hkv))
    filter_keeps_values]

theorem splitChar_sepfree_single {w : Str} (hws : ∀ c ∈ w, ¬ c = ' ') :
    splitChar ' ' w = [w] := by
  induction w with
  | nil => rfl
  | cons c t ih =>
    rw [splitChar_cons_step, if_neg (hws c (by simp)),
      ih (fun x hx => hws x (by simp [hx]))]

theorem splitChar_join_sepfree {parts : List Str} (hne : parts ≠ [])
    (hsf : ∀ p ∈ parts, ∀ c ∈ p, ¬ c = ' ') :
    splitChar ' ' (joinSep (str " ") parts) = parts := by
  induction parts with
  | nil => exact absurd rfl hne
  | cons x rest ih =>
    rcases rest with - | ⟨y, r⟩
    · exact splitChar_sepfree_single (hsf x (by simp))
    · rw [show joinSep (str " ") (x :: y :: r) = x ++ ' ' :: joinSep (str " ") (y :: r) from by
        show (x ++ [' ']) ++ _ = _
        rw [List.append_assoc]
        rfl]
      rw [splitChar_sepfree_cons (hsf x (by simp))]
      rw [ih (by simp) (fun p hp => hsf p (by simp [hp]))]

theorem ws_free_not_space {c : Char} (h : isWsChar c = false) : ¬ c = ' ' := by
  intro hc
  rw [hc] at h
  exact absurd h (by decide)

theorem metadata_no_cron_command {kvs : List (Str × Str)} (hk : ∀ kv ∈ kvs, goodKey kv.1)
    (hne : tokenParts kvs ≠ []) :
    jsIncludes (TAG ++ ' ' :: joinSep (str " ") (tokenParts kvs)) CRON_COMMAND = false := by
  cases hinc : jsIncludes (TAG ++ ' ' :: joinSep (str " ") (tokenParts kvs)) CRON_COMMAND
  · rfl
  · exfalso
    obtain ⟨a, b, hab⟩ := jsIncludes_iff.mp hinc
    have hab2 : TAG ++ ' ' :: joinSep (str " ") (tokenParts kvs) =
        (a ++ str "openclaw") ++ ' ' :: (str "cron" ++ ' ' :: (str "run" ++ b)) := by
      rw [hab]
      rw [show CRON_COMMAND = str "openclaw" ++ ' ' :: (str "cron" ++ ' ' :: str "run")
        from rfl]
      simp
    have hmem : str "cron" ∈ splitChar ' '
        (TAG ++ ' ' :: joinSep (str " ") (tokenParts kvs)) := by
      rw [hab2]
      exact mem_splitChar_delimited _ _ (by decide)
    rw [splitChar_sepfree_cons (by decide)] at hmem
    rw [splitChar_join_sepfree hne
      (fun p hp c hc => ws_free_not_space (tokenParts_ws_free hk p hp c hc))] at hmem
    rcases List.mem_cons.mp hmem with h2 | h2
    · exact absurd h2 (by decide)
    · exact absurd (tokenParts_has_eq _ h2) (by decide)

theorem parseScheduleLine_build {kvs : List (Str × Str)} (hk : ∀ kv ∈ kvs, goodKey kv.1)
    (hne : tokenParts kvs ≠ []) :
    parseScheduleLine (buildTaggedLine kvs) = none := by
  rw [buildTaggedLine_shape hk hne]
  simp only [parseScheduleLine]
  rw [show jsTrimStart (TAGP ++ ' ' :: joinSep (str " ") (tokenParts kvs)) =
      TAGP ++ ' ' :: joinSep (str " ") (tokenParts kvs) from
    jsTrimStart_eq_self (fun c hc => by
      rw [show (TAGP ++ ' ' :: joinSep (str " ") (tokenParts kvs)).head? = some '#' from rfl]
        at hc
      rw [← Option.some_inj.mp hc]
      rfl)]
  rw [show jsStartsWith (TAGP ++ ' ' :: joinSep (str " ") (tokenParts kvs)) (str "#") = true
    from rfl]
  rw [show (if (true : Bool) = true then
      stripHashWs (TAGP ++ ' ' :: joinSep (str " ") (tokenParts kvs))
    else TAGP ++ ' ' :: joinSep (str " ") (tokenParts kvs)) =
    stripHashWs (TAGP ++ ' ' :: joinSep (str " ") (tokenParts kvs)) from by simp]
  rw [show stripHashWs (TAGP ++ ' ' :: joinSep (str " ") (tokenParts kvs)) =
      TAG ++ ' ' :: joinSep (str " ") (tokenParts kvs) from by
    rw [show TAGP ++ ' ' :: joinSep (str " ") (tokenParts kvs) =
      '#' :: (' ' :: (TAG ++ ' ' :: joinSep (str " ") (tokenParts kvs))) from by
      rw [show TAGP = '#' :: ' ' :: TAG from rfl]
      simp]
    show jsTrimStart (' ' :: (TAG ++ ' ' :: joinSep (str " ") (tokenParts kvs))) = _
    unfold jsTrimStart
    rw [List.dropWhile_cons_of_pos (by decide)]
    rw [show TAG ++ ' ' :: joinSep (str " ") (tokenParts kvs) =
      'o' :: (str "penclaw:cron" ++ ' ' :: joinSep (str " ") (tokenParts kvs)) from by
      rw [show TAG = 'o' :: str "penclaw:cron" from rfl]
      simp]
    rw [List.dropWhile_cons_of_neg (by decide)]]
  rw [show jsIncludes (TAG ++ ' ' :: joinSep (str " ") (tokenParts kvs)) TAG = true from by
    unfold jsIncludes idxOfSub
    rw [if_pos (List.isPrefixOf_iff_prefix.mpr (List.prefix_append _ _))]
    rfl]
  rw [metadata_no_cron_command hk hne]
  simp

theorem intToStr_chars (v : Int) : ∀ c ∈ intToStr v,
    (48 ≤ c.toNat ∧ c.toNat ≤ 57) ∨ c = '-' := by
  intro c hc
  unfold intToStr at hc
  split at hc
  · rcases List.mem_cons.mp hc with rfl | h2
    · right; rfl
    · left; exact natToStr_digits _ c h2
  · left; exact natToStr_digits _ c hc

theorem intToStr_no_colon (v : Int) : ':' ∉ intToStr v := by
  intro hc
  rcases intToStr_chars v ':' hc with h | h
  · exact absurd h (by decide)
  · exact absurd h (by decide)

theorem natToStr_head_facts {n : Nat} {c : Char} (h : (natToStr n).head? = some c) :
    isWsChar c = false ∧ ¬ c = '#' := by
  have hmem : c ∈ natToStr n := List.mem_of_mem_head? h
  have hd := natToStr_digits n c hmem
  constructor
  · cases hw : isWsChar c
    · rfl
    · have := isWsChar_iff.mp hw; omega
  · intro hh
    rw [hh] at hd
    exact absurd hd (by decide)

theorem trimEnd_prefix (l : Str) : ∃ t, jsTrimEnd l ++ t = l := by
  unfold jsTrimEnd
  obtain ⟨p, hp⟩ := (List.dropWhile_suffix (l := l.reverse) (p := isWsChar))
  refine ⟨p.reverse, ?_⟩
  have := congrArg List.reverse hp
  simpa using this

theorem jsTrim_head {l : Str} {c : Char} (h : (jsTrim l).head? = some c) :
    isWsChar c = false := by
  unfold jsTrim at h
  obtain ⟨t, ht⟩ := trimEnd_prefix (jsTrimStart l)
  have hne : jsTrimEnd (jsTrimStart l) ≠ [] := by
    intro hnil
    rw [hnil] at h
    exact Option.noConfusion h
  have h2 : (jsTrimStart l).head? = some c := by
    rw [← ht, List.head?_append_of_ne_nil _ hne]
    exact h
  unfold jsTrimStart at h2
  match hd : List.dropWhile isWsChar l with
  | [] => rw [hd] at h2; exact Option.noConfusion h2
  | x :: xs =>
    rw [hd] at h2
    have hx := List.head?_dropWhile_not isWsChar l
    rw [hd] at hx
    simp at hx h2
    rw [← h2]
    exact hx

theorem jsTrim_mem {l : Str} : ∀ c ∈ jsTrim l, c ∈ l := by
  intro c hc
  unfold jsTrim at hc
  obtain ⟨t, ht⟩ := trimEnd_prefix (jsTrimStart l)
  have h2 : c ∈ jsTrimStart l := by
    rw [← ht]
    exact List.mem_append_left _ hc
  unfold jsTrimStart at h2
  exact (List.dropWhile_suffix (p := isWsChar)).mem h2

theorem execLine_decomp (job : CronJob) (e : Str) :
    execLineOf job e =
      (e ++ (' ' :: CRON_COMMAND) ++ (' ' :: job.id) ++ [' ']) ++
        (TAGP ++ (str " id=" ++ encodeValue job.id)) := by
  unfold execLineOf
  simp

theorem exec_seg1_skip (h : jsIncludes (' ' :: CRON_COMMAND) TAGP = true) : False := by
  rcases jsIncludes_cons_elim h with h1 | h1
  · obtain ⟨r, hr⟩ := List.isPrefixOf_iff_prefix.mp h1
    have h0 := congrArg (fun l => l[0]?) hr
    simp only [] at h0
    rw [show (TAGP ++ r)[0]? = some '#' from rfl, List.getElem?_cons_zero] at h0
    exact absurd (Option.some_inj.mp h0) (by decide)
  · exact absurd h1 (by decide)

theorem exec_seg2_skip {idv : Str} (hid : jsIncludes idv TAGP = false)
    (h : jsIncludes (' ' :: idv) TAGP = true) : False := by
  rcases jsIncludes_cons_elim h with h1 | h1
  · obtain ⟨r, hr⟩ := List.isPrefixOf_iff_prefix.mp h1
    have h0 := congrArg (fun l => l[0]?) hr
    simp only [] at h0
    rw [show (TAGP ++ r)[0]? = some '#' from rfl, List.getElem?_cons_zero] at h0
    exact absurd (Option.some_inj.mp h0) (by decide)
  · rw [hid] at h1
    exact Bool.noConfusion h1

theorem span_space_elim {s t w : Str} (hp : TAGP = s ++ t) (hs : s ≠ []) (ht : t ≠ [])
    (hy : ∃ y, ' ' :: w = t ++ y) :
    s = ['#'] ∧ ∃ y, w = str "openclaw:cron" ++ y := by
  obtain ⟨y, hy⟩ := hy
  cases t with
  | nil => exact absurd rfl ht
  | cons c t2 =>
    rw [List.cons_append] at hy
    injection hy with hc hw
    rw [← hc] at hp
    obtain ⟨hs1, ht2⟩ := tagp_split_space hp hs
    refine ⟨hs1, y, ?_⟩
    rw [hw, ht2]

theorem cmd_not_tag_tail {y : Str} (h : CRON_COMMAND = str "openclaw:cron" ++ y) :
    False := by
  have h8 := congrArg (fun l => l[8]?) h
  simp only [] at h8
  rw [show CRON_COMMAND[8]? = some ' ' from by decide] at h8
  rw [List.getElem?_append_left
    (show (8 : Nat) < (str "openclaw:cron").length from by decide)] at h8
  rw [show (str "openclaw:cron")[8]? = some ':' from by decide] at h8
  exact absurd (Option.some_inj.mp h8) (by decide)

theorem execA_marker_free {e idv : Str}
    (he : jsIncludes e TAGP = false) (hid : jsIncludes idv TAGP = false) :
    jsIncludes (e ++ (' ' :: CRON_COMMAND) ++ (' ' :: idv) ++ [' ']) TAGP = false := by
  cases hA : jsIncludes (e ++ (' ' :: CRON_COMMAND) ++ (' ' :: idv) ++ [' ']) TAGP with
  | false => rfl
  | true =>
    exfalso
    rcases includes_append_split hA with h1 | h1 | ⟨s, t, hp, hs, ht, hxx, hyy⟩
    · rcases includes_append_split h1 with h2 | h2 | ⟨s, t, hp, hs, ht, ⟨x, hx⟩, hyy⟩
      · rcases includes_append_split h2 with h3 | h3 | ⟨s, t, hp, hs, ht, hxx, hyy⟩
        · rw [he] at h3
          exact Bool.noConfusion h3
        · exact exec_seg1_skip h3
        · obtain ⟨hs1, y, hcmd⟩ := span_space_elim hp hs ht hyy
          exact cmd_not_tag_tail hcmd
      · exact exec_seg2_skip hid h2
      · obtain ⟨hs1, -, -⟩ := span_space_elim hp hs ht hyy
        rw [hs1] at hx
        have hlast := congrArg List.getLast? hx
        rw [List.getLast?_append_of_ne_nil _
          (show (' ' :: CRON_COMMAND) ≠ [] from by simp)] at hlast
        rw [show (' ' :: CRON_COMMAND).getLast? = some 'n' from by decide] at hlast
        rw [List.getLast?_append_of_ne_nil _
          (show (['#'] : Str) ≠ [] from by simp)] at hlast
        rw [show (['#'] : Str).getLast? = some '#' from rfl] at hlast
        exact absurd (Option.some_inj.mp hlast) (by decide)
    · exact absurd h1 (by decide)
    · obtain ⟨hs1, y, hy2⟩ := span_space_elim hp hs ht hyy
      exact absurd hy2.symm (by simp [str])

theorem tag_prefix_of_line_elim {e w : Str} (hpr : jsStartsWith e TAG = false)
    {r : Str} (h : TAG ++ r = e ++ ' ' :: w) : False := by
  rcases append_eq_append_cons_elim h with ⟨q, hq⟩ | ⟨k, hk, -, hkc⟩
  · have hst : jsStartsWith e TAG = true := by
      unfold jsStartsWith
      exact List.isPrefixOf_iff_prefix.mpr ⟨q, hq.symm⟩
    rw [hpr] at hst
    exact Bool.noConfusion hst
  · refine tag_no_space ?_ hkc
    have h13 : TAG.length = 13 := by decide
    omega

theorem execA_dis_marker_free {e idv : Str}
    (he : jsIncludes e TAGP = false) (hid : jsIncludes idv TAGP = false)
    (hpr : jsStartsWith e TAG = false) :
    jsIncludes (str "# " ++ (e ++ (' ' :: CRON_COMMAND) ++ (' ' :: idv) ++ [' ']))
      TAGP = false := by
  cases hA : jsIncludes (str "# " ++ (e ++ (' ' :: CRON_COMMAND) ++ (' ' :: idv) ++ [' ']))
      TAGP with
  | false => rfl
  | true =>
    exfalso
    rw [show str "# " ++ (e ++ (' ' :: CRON_COMMAND) ++ (' ' :: idv) ++ [' ']) =
      '#' :: ' ' :: (e ++ (' ' :: CRON_COMMAND) ++ (' ' :: idv) ++ [' ']) from rfl] at hA
    rcases jsIncludes_cons_elim hA with h1 | h1
    · obtain ⟨r, hr⟩ := List.isPrefixOf_iff_prefix.mp h1
      have hr2 := congrArg (List.drop 2) hr
      rw [show List.drop 2 (TAGP ++ r) = TAG ++ r from rfl] at hr2
      rw [show List.drop 2 ('#' :: ' ' :: (e ++ (' ' :: CRON_COMMAND) ++ (' ' :: idv) ++
        [' '])) = e ++ (' ' :: CRON_COMMAND) ++ (' ' :: idv) ++ [' '] from rfl] at hr2
      have hr3 : TAG ++ r = e ++ ' ' :: (CRON_COMMAND ++ ((' ' :: idv) ++ [' '])) := by
        rw [hr2]
        simp [List.append_assoc]
      exact tag_prefix_of_line_elim hpr hr3
    · rcases jsIncludes_cons_elim h1 with h2 | h2
      · obtain ⟨r, hr⟩ := List.isPrefixOf_iff_prefix.mp h2
        have h0 := congrArg (fun l => l[0]?) hr
        simp only [] at h0
        rw [show (TAGP ++ r)[0]? = some '#' from rfl, List.getElem?_cons_zero] at h0
        exact absurd (Option.some_inj.mp h0) (by decide)
      · rw [execA_marker_free he hid] at h2
        exact Bool.noConfusion h2

theorem parseKV_idtail {job : CronJob} (hidne : job.id ≠ []) :
    parseKeyValueTokens (jsTrim (str " id=" ++ encodeValue job.id)) =
      [(str "id", job.id)] := by
  rw [show str " id=" ++ encodeValue job.id =
    ' ' :: (str "id" ++ '=' :: encodeValue job.id) from by simp [str]]
  rw [show jsTrim (' ' :: (str "id" ++ '=' :: encodeValue job.id)) =
      str "id" ++ '=' :: encodeValue job.id from by
    unfold jsTrim
    rw [show jsTrimStart (' ' :: (str "id" ++ '=' :: encodeValue job.id)) =
        jsTrimStart (str "id" ++ '=' :: encodeValue job.id) from by
      unfold jsTrimStart
      rw [List.dropWhile_cons_of_pos (by decide)]]
    rw [jsTrimStart_eq_self (by intro c hc; rw [show (str "id" ++ '=' ::
      encodeValue job.id).head? = some 'i' from rfl] at hc; rw [← Option.some_inj.mp hc]; rfl)]
    apply jsTrimEnd_eq_self
    intro c hc
    rw [show str "id" ++ '=' :: encodeValue job.id =
      (str "id" ++ ['=']) ++ encodeValue job.id from by simp] at hc
    rw [List.getLast?_append_of_ne_nil _ (encodeValue_ne_nil hidne)] at hc
    exact encodeValue_ws_free c (List.mem_of_mem_getLast? hc)]
  unfold parseKeyValueTokens
  rw [show str "id" ++ '=' :: encodeValue job.id =
    (str "id") ++ '=' :: encodeValue job.id from rfl]
  rw [splitWsF_token (by simp [str]) (by
    intro c hc
    rcases List.mem_append.mp hc with h2 | h2
    · rcases List.mem_cons.mp h2 with rfl | h3
      · rfl
      · rcases List.mem_cons.mp h3 with rfl | h4
        · rfl
        · exact absurd h4 (by simp)
    · rcases List.mem_cons.mp h2 with rfl | h3
      · rfl
      · exact encodeValue_ws_free c h3)]
  rw [List.filterMap_cons]
  rw [parseToken_build (And.intro (by simp [str]) (by
      intro c hc
      rcases List.mem_cons.mp hc with rfl | h3
      · exact ⟨rfl, by decide⟩
      · rcases List.mem_cons.mp h3 with rfl | h4
        · exact ⟨rfl, by decide⟩
        · exact absurd h4 (by simp))) hidne]
  rfl

theorem parseTaggedLine_exec {job : CronJob} {e : Str}
    (he : jsIncludes e TAGP = false)
    (hid : jsIncludes job.id TAGP = false) (hidne : job.id ≠ []) :
    parseTaggedLine (execLineOf job e) = some [(str "id", job.id)] := by
  rw [execLine_decomp]
  unfold parseTaggedLine
  rw [idxOfSub_tagp (execA_marker_free he hid)]
  show some (parseKeyValueTokens (jsTrim (List.drop
    ((e ++ (' ' :: CRON_COMMAND) ++ (' ' :: job.id) ++ [' ']).length + TAGP.length)
    ((e ++ (' ' :: CRON_COMMAND) ++ (' ' :: job.id) ++ [' ']) ++
      (TAGP ++ (str " id=" ++ encodeValue job.id)))))) = _
  rw [drop_after_marker]
  rw [parseKV_idtail hidne]

theorem parseTaggedLine_exec_dis {job : CronJob} {e : Str}
    (he : jsIncludes e TAGP = false)
    (hid : jsIncludes job.id TAGP = false) (hidne : job.id ≠ [])
    (hpr : jsStartsWith e TAG = false) :
    parseTaggedLine (str "# " ++ execLineOf job e) = some [(str "id", job.id)] := by
  rw [execLine_decomp]
  rw [show str "# " ++ ((e ++ (' ' :: CRON_COMMAND) ++ (' ' :: job.id) ++ [' ']) ++
      (TAGP ++ (str " id=" ++ encodeValue job.id))) =
    (str "# " ++ (e ++ (' ' :: CRON_COMMAND) ++ (' ' :: job.id) ++ [' '])) ++
      (TAGP ++ (str " id=" ++ encodeValue job.id)) from by simp]
  unfold parseTaggedLine
  rw [idxOfSub_tagp (execA_dis_marker_free he hid hpr)]
  show some (parseKeyValueTokens (jsTrim (List.drop
    ((str "# " ++ (e ++ (' ' :: CRON_COMMAND) ++ (' ' :: job.id) ++ [' '])).length +
      TAGP.length)
    ((str "# " ++ (e ++ (' ' :: CRON_COMMAND) ++ (' ' :: job.id) ++ [' '])) ++
      (TAGP ++ (str " id=" ++ encodeValue job.id)))))) = _
  rw [drop_after_marker]
  rw [parseKV_idtail hidne]

theorem parseScheduleLine_disabled {raw : Str} {si : ScheduleLineInfo}
    (h : parseScheduleLine raw = some si) :
    si.disabled = jsStartsWith (jsTrimStart raw) (str "#") := by
  simp only [parseScheduleLine] at h
  repeat' split at h
  all_goals first
    | exact Option.noConfusion h
    | (rw [← Option.some_inj.mp h])

theorem findTaggedStep_skip {es : List ParsedTaggedEntry} {errs : List Str} {i : Nat}
    {raw : Str} (h : jsIncludes (jsTrim raw) TAGP = false) :
    findTaggedStep (es, errs) (i, raw) = (es, errs) := by
  simp only [findTaggedStep]
  rw [h]
  simp

theorem findTaggedStep_tagged {es : List ParsedTaggedEntry} {errs : List Str} {i : Nat}
    {raw : Str} {m : List (Str × Str)} {idv : Str}
    (hline : jsTrim raw = raw)
    (hinc : jsIncludes raw TAGP = true)
    (hparse : parseTaggedLine raw = some m)
    (hid : metaGet m (str "id") = some idv)
    (hne : ¬ idv = []) :
    findTaggedStep (es, errs) (i, raw) =
      (entriesSet es
        (match parseScheduleLine raw with
         | some si =>
           { (entriesFind es idv).getD { id := idv } with
               meta := ((entriesFind es idv).getD { id := idv }).meta ++ m
               scheduleLine := some raw
               scheduleIndex := some i
               scheduleDisabled := some si.disabled
               scheduleExpr := some si.expr }
         | none =>
           { (entriesFind es idv).getD { id := idv } with
               meta := ((entriesFind es idv).getD { id := idv }).meta ++ m }), errs) := by
  simp only [findTaggedStep]
  rw [hline, hinc]
  rw [if_neg (by simp)]
  rw [hparse]
  rw [show ((some m).bind (fun meta => metaGet meta (str "id"))) =
    metaGet m (str "id") from rfl]
  rw [hid]
  show (if idv = [] then (es, errs ++ [str "Tagged cron line missing id: " ++ raw])
    else (entriesSet es
      (match parseScheduleLine raw with
       | some si =>
         { (entriesFind es idv).getD { id := idv } with
             meta := ((entriesFind es idv).getD { id := idv }).meta ++ m
             scheduleLine := some raw
             scheduleIndex := some i
             scheduleDisabled := some si.disabled
             scheduleExpr := some si.expr }
       | none =>
         { (entriesFind es idv).getD { id := idv } with
             meta := ((entriesFind es idv).getD { id := idv }).meta ++ m }), errs)) = _
  rw [if_neg hne]

theorem entriesFind_nil (idv : Str) : entriesFind [] idv = none := rfl

theorem entriesFind_single (e : ParsedTaggedEntry) (idv : Str) (h : e.id = idv) :
    entriesFind [e] idv = some e := by
  unfold entriesFind
  rw [List.find?_cons_of_pos]
  rw [h]
  exact beq_self_eq_true idv

theorem entriesSet_nil (e : ParsedTaggedEntry) : entriesSet [] e = [e] := rfl

theorem entriesSet_eq_id {old new : ParsedTaggedEntry} (h : new.id = old.id) :
    entriesSet [old] new = [new] := by
  unfold entriesSet
  have hb : (old.id == new.id) = true := by rw [h]; exact beq_self_eq_true _
  rw [if_pos (by simp [hb])]
  show [if (old.id == new.id) = true then new else old] = [new]
  rw [if_pos hb]

theorem findTaggedStep_first {errs : List Str} {i : Nat} {raw : Str}
    {m : List (Str × Str)} {idv : Str}
    (hline : jsTrim raw = raw) (hinc : jsIncludes raw TAGP = true)
    (hparse : parseTaggedLine raw = some m) (hid : metaGet m (str "id") = some idv)
    (hne : ¬ idv = []) :
    findTaggedStep ([], errs) (i, raw) =
      ([match parseScheduleLine raw with
        | some si => ⟨idv, [] ++ m, some raw, some si.disabled, some si.expr, none, some i⟩
        | none => ⟨idv, [] ++ m, none, none, none, none, none⟩], errs) := by
  rw [findTaggedStep_tagged hline hinc hparse hid hne]
  cases hps : parseScheduleLine raw <;> rfl

theorem findTaggedStep_merge {e : ParsedTaggedEntry} {errs : List Str} {i : Nat}
    {raw : Str} {m : List (Str × Str)} {idv : Str}
    (hline : jsTrim raw = raw) (hinc : jsIncludes raw TAGP = true)
    (hparse : parseTaggedLine raw = some m) (hid : metaGet m (str "id") = some idv)
    (hne : ¬ idv = []) (heid : e.id = idv) :
    findTaggedStep ([e], errs) (i, raw) =
      ([match parseScheduleLine raw with
        | some si =>
          { e with
              meta := e.meta ++ m
              scheduleLine := some raw
              scheduleIndex := some i
              scheduleDisabled := some si.disabled
              scheduleExpr := some si.expr }
        | none => { e with meta := e.meta ++ m }], errs) := by
  rw [findTaggedStep_tagged hline hinc hparse hid hne]
  rw [entriesFind_single e idv heid]
  cases hps : parseScheduleLine raw with
  | none =>
    show (entriesSet [e] { e with meta := e.meta ++ m }, errs) =
      ([{ e with meta := e.meta ++ m }], errs)
    rw [entriesSet_eq_id (show ({ e with meta := e.meta ++ m } :
      ParsedTaggedEntry).id = e.id from rfl)]
  | some si =>
    show (entriesSet [e] { e with
        meta := e.meta ++ m
        scheduleLine := some raw
        scheduleIndex := some i
        scheduleDisabled := some si.disabled
        scheduleExpr := some si.expr }, errs) =
      ([{ e with
        meta := e.meta ++ m
        scheduleLine := some raw
        scheduleIndex := some i
        scheduleDisabled := some si.disabled
        scheduleExpr := some si.expr }], errs)
    rw [entriesSet_eq_id (show ({ e with
        meta := e.meta ++ m
        scheduleLine := some raw
        scheduleIndex := some i
        scheduleDisabled := some si.disabled
        scheduleExpr := some si.expr } : ParsedTaggedEntry).id = e.id from rfl)]

theorem findTaggedStep_first_meta {errs : List Str} {i : Nat} {raw : Str}
    {m : List (Str × Str)} {idv : Str}
    (hline : jsTrim raw = raw) (hinc : jsIncludes raw TAGP = true)
    (hparse : parseTaggedLine raw = some m) (hid : metaGet m (str "id") = some idv)
    (hne : ¬ idv = []) (hsched : parseScheduleLine raw = none) :
    findTaggedStep ([], errs) (i, raw) =
      ([⟨idv, [] ++ m, none, none, none, none, none⟩], errs) := by
  rw [findTaggedStep_first hline hinc hparse hid hne, hsched]

theorem findTaggedStep_merge_meta {e : ParsedTaggedEntry} {errs : List Str} {i : Nat}
    {raw : Str} {m : List (Str × Str)} {idv : Str}
    (hline : jsTrim raw = raw) (hinc : jsIncludes raw TAGP = true)
    (hparse : parseTaggedLine raw = some m) (hid : metaGet m (str "id") = some idv)
    (hne : ¬ idv = []) (heid : e.id = idv) (hsched : parseScheduleLine raw = none) :
    findTaggedStep ([e], errs) (i, raw) = ([{ e with meta := e.meta ++ m }], errs) := by
  rw [findTaggedStep_merge hline hinc hparse hid hne heid, hsched]

theorem findCore_four {L1 L2 L3 LE : Str} {m1 m2 m3 mE : List (Str × Str)} {idv : Str}
    (h1t : jsTrim L1 = L1) (h1i : jsIncludes L1 TAGP = true)
    (h1p : parseTaggedLine L1 = some m1) (h1id : metaGet m1 (str "id") = some idv)
    (h1s : parseScheduleLine L1 = none)
    (h2t : jsTrim L2 = L2) (h2i : jsIncludes L2 TAGP = true)
    (h2p : parseTaggedLine L2 = some m2) (h2id : metaGet m2 (str "id") = some idv)
    (h2s : parseScheduleLine L2 = none)
    (h3t : jsTrim L3 = L3) (h3i : jsIncludes L3 TAGP = true)
    (h3p : parseTaggedLine L3 = some m3) (h3id : metaGet m3 (str "id") = some idv)
    (h3s : parseScheduleLine L3 = none)
    (hEt : jsTrim LE = LE) (hEi : jsIncludes LE TAGP = true)
    (hEp : parseTaggedLine LE = some mE) (hEid : metaGet mE (str "id") = some idv)
    (hne : ¬ idv = []) :
    findTaggedEntriesCore [L1, L2, L3, LE] =
      ([match parseScheduleLine LE with
        | some si => ⟨idv, [] ++ m1 ++ m2 ++ m3 ++ mE, some LE, some si.disabled,
            some si.expr, none, some 3⟩
        | none => ⟨idv, [] ++ m1 ++ m2 ++ m3 ++ mE, none, none, none, none, none⟩], []) := by
  unfold findTaggedEntriesCore
  rw [show ([L1, L2, L3, LE].enum) = [(0, L1), (1, L2), (2, L3), (3, LE)] from rfl]
  rw [List.foldl_cons, findTaggedStep_first_meta h1t h1i h1p h1id hne h1s]
  rw [List.foldl_cons, findTaggedStep_merge_meta h2t h2i h2p h2id hne rfl h2s]
  rw [List.foldl_cons, findTaggedStep_merge_meta h3t h3i h3p h3id hne rfl h3s]
  rw [List.foldl_cons, findTaggedStep_merge hEt hEi hEp hEid hne rfl]
  rw [List.foldl_nil]

theorem findCore_five {L1 L2 LD L3 LE : Str} {m1 m2 mD m3 mE : List (Str × Str)} {idv : Str}
    (h1t : jsTrim L1 = L1) (h1i : jsIncludes L1 TAGP = true)
    (h1p : parseTaggedLine L1 = some m1) (h1id : metaGet m1 (str "id") = some idv)
    (h1s : parseScheduleLine L1 = none)
    (h2t : jsTrim L2 = L2) (h2i : jsIncludes L2 TAGP = true)
    (h2p : parseTaggedLine L2 = some m2) (h2id : metaGet m2 (str "id") = some idv)
    (h2s : parseScheduleLine L2 = none)
    (hDt : jsTrim LD = LD) (hDi : jsIncludes LD TAGP = true)
    (hDp : parseTaggedLine LD = some mD) (hDid : metaGet mD (str "id") = some idv)
    (hDs : parseScheduleLine LD = none)
    (h3t : jsTrim L3 = L3) (h3i : jsIncludes L3 TAGP = true)
    (h3p : parseTaggedLine L3 = some m3) (h3id : metaGet m3 (str "id") = some idv)
    (h3s : parseScheduleLine L3 = none)
    (hEt : jsTrim LE = LE) (hEi : jsIncludes LE TAGP = true)
    (hEp : parseTaggedLine LE = some mE) (hEid : metaGet mE (str "id") = some idv)
    (hne : ¬ idv = []) :
    findTaggedEntriesCore [L1, L2, LD, L3, LE] =
      ([match parseScheduleLine LE with
        | some si => ⟨idv, [] ++ m1 ++ m2 ++ mD ++ m3 ++ mE, some LE, some si.disabled,
            some si.expr, none, some 4⟩
        | none => ⟨idv, [] ++ m1 ++ m2 ++ mD ++ m3 ++ mE, none, none, none, none,
            none⟩], []) := by
  unfold findTaggedEntriesCore
  rw [show ([L1, L2, LD, L3, LE].enum) =
    [(0, L1), (1, L2), (2, LD), (3, L3), (4, LE)] from rfl]
  rw [List.foldl_cons, findTaggedStep_first_meta h1t h1i h1p h1id hne h1s]
  rw [List.foldl_cons, findTaggedStep_merge_meta h2t h2i h2p h2id hne rfl h2s]
  rw [List.foldl_cons, findTaggedStep_merge_meta hDt hDi hDp hDid hne rfl hDs]
  rw [List.foldl_cons, findTaggedStep_merge_meta h3t h3i h3p h3id hne rfl h3s]
  rw [List.foldl_cons, findTaggedStep_merge hEt hEi hEp hEid hne rfl]
  rw [List.foldl_nil]

theorem findTaggedEntries_none_idx {lines : List Str} {e : ParsedTaggedEntry}
    (hcore : findTaggedEntriesCore lines = ([e], []))
    (hsi : e.scheduleIndex = none) :
    findTaggedEntries lines = ([e], []) := by
  unfold findTaggedEntries
  rw [hcore]
  simp only [List.map_cons, List.map_nil]
  rw [hsi]

theorem findTaggedEntries_some_idx {lines : List Str} {e : ParsedTaggedEntry} {idx : Nat}
    {prev : Str}
    (hcore : findTaggedEntriesCore lines = ([e], []))
    (hsi : e.scheduleIndex = some idx) (hpos : 0 < idx)
    (hprev : lines[idx - 1]? = some prev)
    (hns : jsStartsWith (jsTrim prev) (str "CRON_TZ=") = false) :
    findTaggedEntries lines = ([e], []) := by
  unfold findTaggedEntries
  rw [hcore]
  simp only [List.map_cons, List.map_nil]
  rw [hsi]
  show ([if 0 < idx then
      (match lines[idx - 1]? with
       | some prev =>
         if jsStartsWith (jsTrim prev) (str "CRON_TZ=") = true then
           { id := e.id
             meta := e.meta
             scheduleLine := e.scheduleLine
             scheduleDisabled := e.scheduleDisabled
             scheduleExpr := e.scheduleExpr
             scheduleTz :=
               if jsTrim ((jsTrim prev).drop (str "CRON_TZ=").length) = [] then none
               else some (jsTrim ((jsTrim prev).drop (str "CRON_TZ=").length))
             scheduleIndex := some idx }
         else e
       | none => e)
    else e], ([] : List Str)) = ([e], ([] : List Str))
  rw [if_pos hpos, hprev]
  show ([if jsStartsWith (jsTrim prev) (str "CRON_TZ=") = true then
      { id := e.id
        meta := e.meta
        scheduleLine := e.scheduleLine
        scheduleDisabled := e.scheduleDisabled
        scheduleExpr := e.scheduleExpr
        scheduleTz :=
          if jsTrim ((jsTrim prev).drop (str "CRON_TZ=").length) = [] then none
          else some (jsTrim ((jsTrim prev).drop (str "CRON_TZ=").length))
        scheduleIndex := some idx }
    else e], ([] : List Str)) = ([e], ([] : List Str))
  rw [hns]
  simp

theorem buildJobFromEntry_eq (cn : CronJob → Int → Option Int) (now : Int)
    (e : ParsedTaggedEntry) (J : CronJob)
    (h1 : jsTrim ((metaGet e.meta (str "id")).getD []) = J.id)
    (hne : ¬ J.id = [])
    (h2 : resolveSchedule e.meta e = some J.schedule)
    (h3 : (if (metaGet e.meta (str "payload_kind")).getD (str "systemEvent") = str "agentTurn"
        then CronPayload.agentTurn {
            message := (metaGet e.meta (str "payload_message")).getD []
            model := jsOptStrOrUndef (metaGet e.meta (str "payload_model"))
            thinking := jsOptStrOrUndef (metaGet e.meta (str "payload_thinking"))
            timeoutSeconds := jsOptNum (metaGet e.meta (str "payload_timeout_seconds"))
            allowUnsafeExternalContent :=
              trueFlag (metaGet e.meta (str "payload_allow_unsafe_external_content"))
            deliver := trueFlag (metaGet e.meta (str "payload_deliver"))
            channel := jsOptStrOrUndef (metaGet e.meta (str "payload_channel"))
            toAddr := jsOptStrOrUndef (metaGet e.meta (str "payload_to"))
            bestEffortDeliver := trueFlag (metaGet e.meta (str "payload_best_effort_deliver")) }
        else CronPayload.systemEvent ((metaGet e.meta (str "payload_text")).getD
          ((metaGet e.meta (str "payload_message")).getD []))) = J.payload)
    (h4 : (if (metaGet e.meta (str "delivery_mode")).getD (str "none") = str "none" then none
        else some ({ mode := (metaGet e.meta (str "delivery_mode")).getD (str "none")
                     channel := jsOptStrOrUndef (metaGet e.meta (str "delivery_channel"))
                     toAddr := jsOptStrOrUndef (metaGet e.meta (str "delivery_to"))
                     bestEffort := trueFlag (metaGet e.meta (str "delivery_best_effort")) }
                   : CronDelivery)) = J.delivery)
    (h5 : (if e.scheduleDisabled = some true then false
        else (metaGet e.meta (str "enabled") ≠ some (str "false") : Bool)) = J.enabled)
    (h6 : jsOptStrOrUndef (metaGet e.meta (str "agent_id")) = J.agentId)
    (h7 : jsOptStrOrUndef (metaGet e.meta (str "session_key")) = J.sessionKey)
    (h8 : (metaGet e.meta (str "name")).getD J.id = J.name)
    (h9 : jsOptStrOrUndef (metaGet e.meta (str "description")) = J.description)
    (h10 : trueFlag (metaGet e.meta (str "delete_after_run")) = J.deleteAfterRun)
    (h11 : numOrNow (metaGet e.meta (str "created_at_ms")) now = J.createdAtMs)
    (h12 : numOrNow (metaGet e.meta (str "updated_at_ms")) now = J.updatedAtMs)
    (h13 : (metaGet e.meta (str "session_target")).getD (str "main") = J.sessionTarget)
    (h14 : (metaGet e.meta (str "wake_mode")).getD (str "now") = J.wakeMode) :
    buildJobFromEntry cn now e =
      some (if J.enabled then
        { J with state := { nextRunAtMs := cn { J with state := {} } now } }
      else { J with state := {} }) := by
  simp only [buildJobFromEntry]
  rw [h1, if_neg hne, h2]
  split
  · next heq => exact Option.noConfusion heq
  · next schedule2 heq =>
    obtain rfl : schedule2 = J.schedule := (Option.some_inj.mp heq).symm
    rw [h3, h4, h5, h6, h7, h8, h9, h10, h11, h12, h13, h14]

theorem metaGet_self_single (k v : Str) : metaGet [(k, v)] k = some v := by
  unfold metaGet
  rw [show ([(k, v)] : List (Str × Str)).reverse = [(k, v)] from rfl]
  rw [List.find?_cons_of_pos _ (by exact beq_self_eq_true k)]
  rfl

theorem metaGet_skip_right {xs ys : List (Str × Str)} {k : Str}
    (h : metaGet ys k = none) : metaGet (xs ++ ys) k = metaGet xs k := by
  rw [metaGet_append, h, Option.none_or]

theorem metaGet_take_right {xs ys : List (Str × Str)} {k : Str} {v : Str}
    (h : metaGet ys k = some v) : metaGet (xs ++ ys) k = some v := by
  rw [metaGet_append, h, Option.or_some]

theorem optTruthy_self {k : Str} {v : Option Str} (hv : v ≠ some []) :
    metaGet (optTruthyKV k v) k = v := by
  match v with
  | none => rfl
  | some s =>
    have hs : s ≠ [] := fun h => hv (by rw [h])
    rw [show optTruthyKV k (some s) = (if s ≠ [] then [(k, s)] else []) from rfl,
      if_pos hs]
    exact metaGet_self_single k s

theorem optTruthy_roundtrip {k : Str} {v : Option Str} (hv : v ≠ some []) :
    jsOptStrOrUndef (metaGet (optTruthyKV k v) k) = v := by
  rw [optTruthy_self hv]
  match v with
  | none => rfl
  | some s =>
    have hs : s ≠ [] := fun h => hv (by rw [h])
    rw [show jsOptStrOrUndef (some s) = (if s ≠ [] then some s else none) from rfl,
      if_pos hs]

theorem optBool_self {k : Str} {v : Option Bool} :
    metaGet (optBoolKV k v) k = v.map (fun b => if b then str "true" else str "false") := by
  match v with
  | none => rfl
  | some b => exact metaGet_self_single k _

theorem trueFlag_roundtrip {k : Str} {v : Option Bool} (hv : v ≠ some false) :
    trueFlag (metaGet (optBoolKV k v) k) = v := by
  rw [optBool_self]
  match v with
  | none => rfl
  | some true => rfl
  | some false => exact absurd rfl hv

theorem optNum_self {k : Str} {v : Option Int} :
    metaGet (optNumKV k v) k = v.map intToStr := by
  match v with
  | none => rfl
  | some n => exact metaGet_self_single k _

theorem optNum_roundtrip {k : Str} {v : Option Int} :
    jsOptNum (metaGet (optNumKV k v) k) = v := by
  rw [optNum_self]
  match v with
  | none => rfl
  | some n =>
    show jsOptNum (some (intToStr n)) = some n
    rw [show jsOptNum (some (intToStr n)) =
      (if intToStr n ≠ [] then jsParseInt (intToStr n) else none) from rfl]
    rw [if_pos (intToStr_ne_nil n), jsParseInt_intToStr]

theorem filter_optTruthyKV (k : Str) (v : Option Str) :
    (optTruthyKV k v).filter (fun kv => kv.2 ≠ []) = optTruthyKV k v := by
  match v with
  | none => rfl
  | some s =>
    rw [show optTruthyKV k (some s) = (if s ≠ [] then [(k, s)] else []) from rfl]
    split
    · next hs => simp [hs]
    · rfl

theorem filter_optBoolKV (k : Str) (v : Option Bool) :
    (optBoolKV k v).filter (fun kv => kv.2 ≠ []) = optBoolKV k v := by
  match v with
  | none => rfl
  | some true => rfl
  | some false => rfl

theorem filter_optNumKV (k : Str) (v : Option Int) :
    (optNumKV k v).filter (fun kv => kv.2 ≠ []) = optNumKV k v := by
  match v with
  | none => rfl
  | some n =>
    rw [show optNumKV k (some n) = [(k, intToStr n)] from rfl]
    rw [List.filter_cons_of_pos (by simpa using intToStr_ne_nil n)]
    rfl

theorem find_neg_helper {α : Type} {p : α → Bool} {a : α} (h : p a = false) :
    ¬ p a = true := by simp [h]

theorem base7_reverse (job : CronJob) :
    (base7 job).reverse = [(str "updated_at_ms", intToStr job.updatedAtMs), (str "created_at_ms", intToStr job.createdAtMs), (str "wake_mode", job.wakeMode), (str "session_target", job.sessionTarget), (str "enabled", (if job.enabled then str "true" else str "false")), (str "name", job.name), (str "id", job.id)] := by
  unfold base7
  rfl

theorem metaGet_base7_name (job : CronJob) :
    metaGet (base7 job) (str "name") = some (job.name) := by
  unfold metaGet
  rw [base7_reverse]
  rw [List.find?_cons_of_neg _ (by exact find_neg_helper rfl)]
  rw [List.find?_cons_of_neg _ (by exact find_neg_helper rfl)]
  rw [List.find?_cons_of_neg _ (by exact find_neg_helper rfl)]
  rw [List.find?_cons_of_neg _ (by exact find_neg_helper rfl)]
  rw [List.find?_cons_of_neg _ (by exact find_neg_helper rfl)]
  rw [List.find?_cons_of_pos _ (by exact beq_self_eq_true _)]
  rfl

theorem metaGet_base7_enabled (job : CronJob) :
    metaGet (base7 job) (str "enabled") = some ((if job.enabled then str "true" else str "false")) := by
  unfold metaGet
  rw [base7_reverse]
  rw [List.find?_cons_of_neg _ (by exact find_neg_helper rfl)]
  rw [List.find?_cons_of_neg _ (by exact find_neg_helper rfl)]
  rw [List.find?_cons_of_neg _ (by exact find_neg_helper rfl)]
  rw [List.find?_cons_of_neg _ (by exact find_neg_helper rfl)]
  rw [List.find?_cons_of_pos _ (by exact beq_self_eq_true _)]
  rfl

theorem metaGet_base7_session_target (job : CronJob) :
    metaGet (base7 job) (str "session_target") = some (job.sessionTarget) := by
  unfold metaGet
  rw [base7_reverse]
  rw [List.find?_cons_of_neg _ (by exact find_neg_helper rfl)]
  rw [List.find?_cons_of_neg _ (by exact find_neg_helper rfl)]
  rw [List.find?_cons_of_neg _ (by exact find_neg_helper rfl)]
  rw [List.find?_cons_of_pos _ (by exact beq_self_eq_true _)]
  rfl

theorem metaGet_base7_wake_mode (job : CronJob) :
    metaGet (base7 job) (str "wake_mode") = some (job.wakeMode) := by
  unfold metaGet
  rw [base7_reverse]
  rw [List.find?_cons_of_neg _ (by exact find_neg_helper rfl)]
  rw [List.find?_cons_of_neg _ (by exact find_neg_helper rfl)]
  rw [List.find?_cons_of_pos _ (by exact beq_self_eq_true _)]
  rfl

theorem metaGet_base7_created_at_ms (job : CronJob) :
    metaGet (base7 job) (str "created_at_ms") = some (intToStr job.createdAtMs) := by
  unfold metaGet
  rw [base7_reverse]
  rw [List.find?_cons_of_neg _ (by exact find_neg_helper rfl)]
  rw [List.find?_cons_of_pos _ (by exact beq_self_eq_true _)]
  rfl

theorem metaGet_base7_updated_at_ms (job : CronJob) :
    metaGet (base7 job) (str "updated_at_ms") = some (intToStr job.updatedAtMs) := by
  unfold metaGet
  rw [base7_reverse]

  rw [List.find?_cons_of_pos _ (by exact beq_self_eq_true _)]
  rfl

theorem filter_base7 (job : CronJob) (hid : job.id ≠ []) (hname : job.name ≠ [])
    (hst : job.sessionTarget ≠ []) (hwm : job.wakeMode ≠ []) :
    (base7 job).filter (fun kv => kv.2 ≠ []) = base7 job := by
  unfold base7
  rw [List.filter_cons_of_pos (by exact decide_eq_true hid),
    List.filter_cons_of_pos (by exact decide_eq_true hname),
    List.filter_cons_of_pos (by
      cases job.enabled <;> exact decide_eq_true (by simp [str])),
    List.filter_cons_of_pos (by exact decide_eq_true hst),
    List.filter_cons_of_pos (by exact decide_eq_true hwm),
    List.filter_cons_of_pos (by exact decide_eq_true (intToStr_ne_nil _)),
    List.filter_cons_of_pos (by exact decide_eq_true (intToStr_ne_nil _)),
    List.filter_nil]

theorem filter_baseKVs (job : CronJob) (hid : job.id ≠ []) (hname : job.name ≠ [])
    (hst : job.sessionTarget ≠ []) (hwm : job.wakeMode ≠ []) :
    (baseKVs job).filter (fun kv => kv.2 ≠ []) =
      base7 job ++ optTruthyKV (str "description") job.description
        ++ optTruthyKV (str "agent_id") job.agentId
        ++ optTruthyKV (str "session_key") job.sessionKey
        ++ optBoolKV (str "delete_after_run") job.deleteAfterRun := by
  rw [show baseKVs job = base7 job ++ optTruthyKV (str "description") job.description
    ++ optTruthyKV (str "agent_id") job.agentId
    ++ optTruthyKV (str "session_key") job.sessionKey
    ++ optBoolKV (str "delete_after_run") job.deleteAfterRun from rfl]
  rw [List.filter_append, List.filter_append, List.filter_append, List.filter_append]
  rw [filter_optTruthyKV, filter_optTruthyKV, filter_optTruthyKV, filter_optBoolKV,
    filter_base7 job hid hname hst hwm]

theorem base7_keys (job : CronJob) : ∀ kv ∈ base7 job,
    kv.1 = str "id" ∨ kv.1 = str "name" ∨ kv.1 = str "enabled" ∨
    kv.1 = str "session_target" ∨ kv.1 = str "wake_mode" ∨
    kv.1 = str "created_at_ms" ∨ kv.1 = str "updated_at_ms" := by
  intro kv hkv
  unfold base7 at hkv
  simp only [List.mem_cons, List.not_mem_nil, or_false] at hkv
  rcases hkv with rfl | rfl | rfl | rfl | rfl | rfl | rfl <;> simp

theorem baseKVs_keys (job : CronJob) : ∀ kv ∈ baseKVs job,
    kv.1 = str "id" ∨ kv.1 = str "name" ∨ kv.1 = str "enabled" ∨
    kv.1 = str "session_target" ∨ kv.1 = str "wake_mode" ∨
    kv.1 = str "created_at_ms" ∨ kv.1 = str "updated_at_ms" ∨
    kv.1 = str "description" ∨ kv.1 = str "agent_id" ∨ kv.1 = str "session_key" ∨
    kv.1 = str "delete_after_run" := by
  intro kv hkv
  rw [show baseKVs job = base7 job ++ optTruthyKV (str "description") job.description
    ++ optTruthyKV (str "agent_id") job.agentId
    ++ optTruthyKV (str "session_key") job.sessionKey
    ++ optBoolKV (str "delete_after_run") job.deleteAfterRun from rfl] at hkv
  simp only [List.mem_append] at hkv
  rcases hkv with ((((h | h) | h) | h) | h)
  · rcases base7_keys job kv h with h2 | h2 | h2 | h2 | h2 | h2 | h2 <;> simp [h2]
  · simp [optTruthyKV_keys _ _ kv h]
  · simp [optTruthyKV_keys _ _ kv h]
  · simp [optTruthyKV_keys _ _ kv h]
  · simp [optBoolKV_keys _ _ kv h]

theorem payloadKVs_keys (job : CronJob) : ∀ kv ∈ payloadKVs job,
    kv.1 = str "id" ∨ kv.1 = str "payload_kind" ∨ kv.1 = str "payload_message" ∨
    kv.1 = str "payload_text" ∨ kv.1 = str "payload_model" ∨
    kv.1 = str "payload_thinking" ∨ kv.1 = str "payload_timeout_seconds" ∨
    kv.1 = str "payload_allow_unsafe_external_content" ∨ kv.1 = str "payload_deliver" ∨
    kv.1 = str "payload_channel" ∨ kv.1 = str "payload_to" ∨
    kv.1 = str "payload_best_effort_deliver" := by
  intro kv hkv
  unfold payloadKVs at hkv
  match hp : job.payload with
  | .systemEvent text =>
    rw [hp] at hkv
    simp only [List.mem_cons, List.not_mem_nil, or_false] at hkv
    rcases hkv with rfl | rfl | rfl <;> simp
  | .agentTurn p =>
    rw [hp] at hkv
    simp only [List.mem_cons, List.mem_append, List.not_mem_nil, or_false] at hkv
    rcases hkv with ((((((((rfl | rfl | rfl) | h) | h) | h) | h) | h) | h) | h) | h
    · simp
    · simp
    · simp
    · simp [optTruthyKV_keys _ _ kv h]
    · simp [optTruthyKV_keys _ _ kv h]
    · simp [optNumKV_keys _ _ kv h]
    · simp [optBoolKV_keys _ _ kv h]
    · simp [optBoolKV_keys _ _ kv h]
    · simp [optTruthyKV_keys _ _ kv h]
    · simp [optTruthyKV_keys _ _ kv h]
    · simp [optBoolKV_keys _ _ kv h]

theorem scheduleKVs_keys (job : CronJob) : ∀ kv ∈ scheduleKVs job,
    kv.1 = str "id" ∨ kv.1 = str "schedule_kind" ∨ kv.1 = str "schedule_at" ∨
    kv.1 = str "schedule_every_ms" ∨ kv.1 = str "schedule_anchor_ms" ∨
    kv.1 = str "schedule_expr" ∨ kv.1 = str "schedule_tz" ∨
    kv.1 = str "schedule_stagger_ms" := by
  intro kv hkv
  unfold scheduleKVs at hkv
  simp only [List.mem_cons] at hkv
  rcases hkv with rfl | rfl | h
  · simp
  · simp
  · match hs : job.schedule with
    | .atTime a =>
      rw [hs] at h
      simp only [List.mem_cons, List.not_mem_nil, or_false] at h
      subst h
      simp
    | .every ms anc =>
      rw [hs] at h
      simp only [List.mem_cons] at h
      rcases h with rfl | h2
      · simp
      · simp [optNumKV_keys _ _ kv h2]
    | .cron expr tz stg =>
      rw [hs] at h
      simp only [List.mem_cons, List.mem_append] at h
      rcases h with rfl | (h3 | h3)
      · simp
      · simp [optTruthyKV_keys _ _ kv h3]
      · simp [optNumKV_keys _ _ kv h3]

theorem deliveryKVs_keys (job : CronJob) (dv : CronDelivery) : ∀ kv ∈ deliveryKVs job dv,
    kv.1 = str "id" ∨ kv.1 = str "delivery_mode" ∨ kv.1 = str "delivery_channel" ∨
    kv.1 = str "delivery_to" ∨ kv.1 = str "delivery_best_effort" := by
  intro kv hkv
  unfold deliveryKVs at hkv
  simp only [List.mem_cons, List.mem_append, List.not_mem_nil, or_false] at hkv
  rcases hkv with (((rfl | rfl) | h2) | h2) | h2
  · simp
  · simp
  · simp [optTruthyKV_keys _ _ kv h2]
  · simp [optTruthyKV_keys _ _ kv h2]
  · simp [optBoolKV_keys _ _ kv h2]

theorem deliveryLinesOf_some {job : CronJob} {dv : CronDelivery}
    (hdel : job.delivery = some dv) (hmode : ¬ dv.mode = str "none") :
    deliveryLinesOf job = [buildTaggedLine (deliveryKVs job dv)] := by
  unfold deliveryLinesOf
  rw [hdel]
  show (if dv.mode ≠ str "none" then [buildTaggedLine (deliveryKVs job dv)] else []) = _
  rw [if_pos hmode]

theorem deliveryLinesOf_none_mode {job : CronJob} {dv : CronDelivery}
    (hdel : job.delivery = some dv) (hmode : dv.mode = str "none") :
    deliveryLinesOf job = [] := by
  unfold deliveryLinesOf
  rw [hdel]
  show (if dv.mode ≠ str "none" then [buildTaggedLine (deliveryKVs job dv)] else []) = _
  rw [if_neg (by simp [hmode])]

theorem deliveryLinesOf_none {job : CronJob} (hdel : job.delivery = none) :
    deliveryLinesOf job = [] := by
  unfold deliveryLinesOf
  rw [hdel]

theorem metaGet_cons (x : Str × Str) (rest : List (Str × Str)) (k : Str) :
    metaGet (x :: rest) k = (metaGet rest k).or (metaGet [x] k) :=
  metaGet_append [x] rest k

theorem skip_single {q : Str} {v : Str} {k : Str} (h : ¬ q = k) :
    metaGet [(q, v)] k = none :=
  metaGet_seg_ne (fun kv hkv => by
    rcases List.mem_singleton.mp hkv with rfl
    exact h)

theorem skip_optTruthy {q : Str} {v : Option Str} {k : Str} (h : ¬ q = k) :
    metaGet (optTruthyKV q v) k = none :=
  metaGet_seg_ne (fun kv hkv => by rw [optTruthyKV_keys q v kv hkv]; exact h)

theorem skip_optBool {q : Str} {v : Option Bool} {k : Str} (h : ¬ q = k) :
    metaGet (optBoolKV q v) k = none :=
  metaGet_seg_ne (fun kv hkv => by rw [optBoolKV_keys q v kv hkv]; exact h)

theorem skip_optNum {q : Str} {v : Option Int} {k : Str} (h : ¬ q = k) :
    metaGet (optNumKV q v) k = none :=
  metaGet_seg_ne (fun kv hkv => by rw [optNumKV_keys q v kv hkv]; exact h)

theorem skip_base7 {job : CronJob} {k : Str}
    (h : ¬ str "id" = k ∧ ¬ str "name" = k ∧ ¬ str "enabled" = k ∧
         ¬ str "session_target" = k ∧ ¬ str "wake_mode" = k ∧
         ¬ str "created_at_ms" = k ∧ ¬ str "updated_at_ms" = k) :
    metaGet (base7 job) k = none :=
  metaGet_seg_ne (fun kv hkv => by
    obtain ⟨n1, n2, n3, n4, n5, n6, n7⟩ := h
    rcases base7_keys job kv hkv with g | g | g | g | g | g | g <;> rw [g]
    · exact n1
    · exact n2
    · exact n3
    · exact n4
    · exact n5
    · exact n6
    · exact n7)

theorem skip_m1 {job : CronJob} {k : Str}
    (h : ¬ str "id" = k ∧ ¬ str "name" = k ∧ ¬ str "enabled" = k ∧
         ¬ str "session_target" = k ∧ ¬ str "wake_mode" = k ∧
         ¬ str "created_at_ms" = k ∧ ¬ str "updated_at_ms" = k ∧
         ¬ str "description" = k ∧ ¬ str "agent_id" = k ∧ ¬ str "session_key" = k ∧
         ¬ str "delete_after_run" = k) :
    metaGet ((baseKVs job).filter (fun kv => kv.2 ≠ [])) k = none :=
  metaGet_seg_ne (fun kv hkv => by
    obtain ⟨n1, n2, n3, n4, n5, n6, n7, n8, n9, n10, n11⟩ := h
    rcases baseKVs_keys job kv (List.mem_of_mem_filter hkv) with
      g | g | g | g | g | g | g | g | g | g | g <;> rw [g]
    · exact n1
    · exact n2
    · exact n3
    · exact n4
    · exact n5
    · exact n6
    · exact n7
    · exact n8
    · exact n9
    · exact n10
    · exact n11)

theorem skip_m2 {job : CronJob} {k : Str}
    (h : ¬ str "id" = k ∧ ¬ str "payload_kind" = k ∧ ¬ str "payload_message" = k ∧
         ¬ str "payload_text" = k ∧ ¬ str "payload_model" = k ∧
         ¬ str "payload_thinking" = k ∧ ¬ str "payload_timeout_seconds" = k ∧
         ¬ str "payload_allow_unsafe_external_content" = k ∧ ¬ str "payload_deliver" = k ∧
         ¬ str "payload_channel" = k ∧ ¬ str "payload_to" = k ∧
         ¬ str "payload_best_effort_deliver" = k) :
    metaGet ((payloadKVs job).filter (fun kv => kv.2 ≠ [])) k = none :=
  metaGet_seg_ne (fun kv hkv => by
    obtain ⟨n1, n2, n3, n4, n5, n6, n7, n8, n9, n10, n11, n12⟩ := h
    rcases payloadKVs_keys job kv (List.mem_of_mem_filter hkv) with
      g | g | g | g | g | g | g | g | g | g | g | g <;> rw [g]
    · exact n1
    · exact n2
    · exact n3
    · exact n4
    · exact n5
    · exact n6
    · exact n7
    · exact n8
    · exact n9
    · exact n10
    · exact n11
    · exact n12)

theorem skip_m3 {job : CronJob} {k : Str}
    (h : ¬ str "id" = k ∧ ¬ str "schedule_kind" = k ∧ ¬ str "schedule_at" = k ∧
         ¬ str "schedule_every_ms" = k ∧ ¬ str "schedule_anchor_ms" = k ∧
         ¬ str "schedule_expr" = k ∧ ¬ str "schedule_tz" = k ∧
         ¬ str "schedule_stagger_ms" = k) :
    metaGet ((scheduleKVs job).filter (fun kv => kv.2 ≠ [])) k = none :=
  metaGet_seg_ne (fun kv hkv => by
    obtain ⟨n1, n2, n3, n4, n5, n6, n7, n8⟩ := h
    rcases scheduleKVs_keys job kv (List.mem_of_mem_filter hkv) with
      g | g | g | g | g | g | g | g <;> rw [g]
    · exact n1
    · exact n2
    · exact n3
    · exact n4
    · exact n5
    · exact n6
    · exact n7
    · exact n8)

theorem skip_mdel {mdel : List (Str × Str)} {k : Str} (hd : delKeysOk mdel)
    (h : ¬ str "id" = k ∧ ¬ str "delivery_mode" = k ∧ ¬ str "delivery_channel" = k ∧
         ¬ str "delivery_to" = k ∧ ¬ str "delivery_best_effort" = k) :
    metaGet mdel k = none :=
  metaGet_seg_ne (fun kv hkv => by
    obtain ⟨n1, n2, n3, n4, n5⟩ := h
    rcases hd kv hkv with g | g | g | g | g <;> rw [g]
    · exact n1
    · exact n2
    · exact n3
    · exact n4
    · exact n5)

theorem metaGet_M_id (job : CronJob) (mdel : List (Str × Str)) :
    metaGet (entryMetaOf job mdel) (str "id") = some job.id := by
  unfold entryMetaOf
  exact metaGet_take_right (metaGet_self_single _ _)

theorem metaGet_M_in_m1 (job : CronJob) (mdel : List (Str × Str)) (k : Str)
    (hd : delKeysOk mdel)
    (h1 : ¬ str "id" = k)
    (h2 : metaGet ((payloadKVs job).filter (fun kv => kv.2 ≠ [])) k = none)
    (h3 : metaGet mdel k = none)
    (h4 : metaGet ((scheduleKVs job).filter (fun kv => kv.2 ≠ [])) k = none) :
    metaGet (entryMetaOf job mdel) k =
      metaGet ((baseKVs job).filter (fun kv => kv.2 ≠ [])) k := by
  unfold entryMetaOf
  rw [metaGet_skip_right (skip_single h1), metaGet_skip_right h4, metaGet_skip_right h3,
    metaGet_skip_right h2, metaGet_append, metaGet_nil]
  cases metaGet ((baseKVs job).filter (fun kv => kv.2 ≠ [])) k <;> rfl

theorem metaGet_nil_append (xs : List (Str × Str)) (k : Str) :
    metaGet ([] ++ xs) k = metaGet xs k := by
  rw [metaGet_append, metaGet_nil]
  cases metaGet xs k <;> rfl

theorem metaGet_M_in_m2 (job : CronJob) (mdel : List (Str × Str)) (k : Str)
    (h1 : ¬ str "id" = k)
    (h3 : metaGet mdel k = none)
    (h4 : metaGet ((scheduleKVs job).filter (fun kv => kv.2 ≠ [])) k = none)
    (h5 : metaGet ((baseKVs job).filter (fun kv => kv.2 ≠ [])) k = none) :
    metaGet (entryMetaOf job mdel) k =
      metaGet ((payloadKVs job).filter (fun kv => kv.2 ≠ [])) k := by
  unfold entryMetaOf
  rw [metaGet_skip_right (skip_single h1), metaGet_skip_right h4, metaGet_skip_right h3,
    metaGet_append, metaGet_nil_append, h5]
  cases hm : metaGet ((payloadKVs job).filter (fun kv => kv.2 ≠ [])) k <;> rfl

theorem metaGet_M_in_mdel (job : CronJob) (mdel : List (Str × Str)) (k : Str)
    (h1 : ¬ str "id" = k)
    (h2 : metaGet ((payloadKVs job).filter (fun kv => kv.2 ≠ [])) k = none)
    (h4 : metaGet ((scheduleKVs job).filter (fun kv => kv.2 ≠ [])) k = none)
    (h5 : metaGet ((baseKVs job).filter (fun kv => kv.2 ≠ [])) k = none) :
    metaGet (entryMetaOf job mdel) k = metaGet mdel k := by
  unfold entryMetaOf
  rw [metaGet_skip_right (skip_single h1), metaGet_skip_right h4, metaGet_append,
    metaGet_append, metaGet_nil_append, h5, h2]
  cases hm : metaGet mdel k <;> rfl

theorem metaGet_M_in_m3 (job : CronJob) (mdel : List (Str × Str)) (k : Str)
    (h1 : ¬ str "id" = k) :
    metaGet (entryMetaOf job mdel) k =
      (metaGet ((scheduleKVs job).filter (fun kv => kv.2 ≠ [])) k).or
        ((metaGet mdel k).or
          ((metaGet ((payloadKVs job).filter (fun kv => kv.2 ≠ [])) k).or
            (metaGet ((baseKVs job).filter (fun kv => kv.2 ≠ [])) k))) := by
  unfold entryMetaOf
  rw [metaGet_skip_right (skip_single h1), metaGet_append, metaGet_append, metaGet_append,
    metaGet_append, metaGet_nil]
  cases metaGet ((scheduleKVs job).filter (fun kv => kv.2 ≠ [])) k <;>
    cases metaGet mdel k <;>
    cases metaGet ((payloadKVs job).filter (fun kv => kv.2 ≠ [])) k <;>
    cases metaGet ((baseKVs job).filter (fun kv => kv.2 ≠ [])) k <;> rfl

theorem or_none_eq (o : Option Str) : o.or none = o := by cases o <;> rfl

theorem numOrNow_intToStr {v now : Int} (h : ¬ v = 0) :
    numOrNow (some (intToStr v)) now = v := by
  unfold numOrNow
  rw [show (some (intToStr v)).getD (str "0") = intToStr v from rfl, jsParseInt_intToStr]
  split
  · next heq => exact Option.noConfusion heq
  · next heq => exact absurd (Option.some_inj.mp heq) h
  · next n h1 h2 => exact (Option.some_inj.mp h2).symm

theorem m1_ctx {job : CronJob} (hidne : job.id ≠ []) (hname : job.name ≠ [])
    (hst : job.sessionTarget ≠ []) (hwm : job.wakeMode ≠ []) (k : Str)
    (hk : ¬ str "description" = k ∧ ¬ str "agent_id" = k ∧ ¬ str "session_key" = k ∧
      ¬ str "delete_after_run" = k) :
    metaGet ((baseKVs job).filter (fun kv => kv.2 ≠ [])) k = metaGet (base7 job) k := by
  rw [filter_baseKVs job hidne hname hst hwm]
  rw [metaGet_skip_right (skip_optBool hk.2.2.2), metaGet_skip_right (skip_optTruthy hk.2.2.1),
    metaGet_skip_right (skip_optTruthy hk.2.1), metaGet_skip_right (skip_optTruthy hk.1)]

theorem M_base_fixed {job : CronJob} {mdel : List (Str × Str)}
    (hidne : job.id ≠ []) (hname : job.name ≠ []) (hst : job.sessionTarget ≠ [])
    (hwm : job.wakeMode ≠ []) (hd : delKeysOk mdel) (k : Str)
    (hk1 : ¬ str "id" = k)
    (hk2 : metaGet ((payloadKVs job).filter (fun kv => kv.2 ≠ [])) k = none)
    (hk3 : metaGet mdel k = none)
    (hk4 : metaGet ((scheduleKVs job).filter (fun kv => kv.2 ≠ [])) k = none)
    (hk5 : ¬ str "description" = k ∧ ¬ str "agent_id" = k ∧ ¬ str "session_key" = k ∧
      ¬ str "delete_after_run" = k) :
    metaGet (entryMetaOf job mdel) k = metaGet (base7 job) k := by
  rw [metaGet_M_in_m1 job mdel k hd hk1 hk2 hk3 hk4, m1_ctx hidne hname hst hwm k hk5]

theorem M_name {job : CronJob} {mdel : List (Str × Str)}
    (hidne : job.id ≠ []) (hname : job.name ≠ []) (hst : job.sessionTarget ≠ [])
    (hwm : job.wakeMode ≠ []) (hd : delKeysOk mdel) :
    metaGet (entryMetaOf job mdel) (str "name") = some job.name := by
  rw [M_base_fixed hidne hname hst hwm hd (str "name") (by decide)
    (skip_m2 (by decide)) (skip_mdel hd (by decide)) (skip_m3 (by decide)) (by decide)]
  exact metaGet_base7_name job

theorem M_enabled {job : CronJob} {mdel : List (Str × Str)}
    (hidne : job.id ≠ []) (hname : job.name ≠ []) (hst : job.sessionTarget ≠ [])
    (hwm : job.wakeMode ≠ []) (hd : delKeysOk mdel) :
    metaGet (entryMetaOf job mdel) (str "enabled") =
      some (if job.enabled then str "true" else str "false") := by
  rw [M_base_fixed hidne hname hst hwm hd (str "enabled") (by decide)
    (skip_m2 (by decide)) (skip_mdel hd (by decide)) (skip_m3 (by decide)) (by decide)]
  exact metaGet_base7_enabled job

theorem M_session_target {job : CronJob} {mdel : List (Str × Str)}
    (hidne : job.id ≠ []) (hname : job.name ≠ []) (hst : job.sessionTarget ≠ [])
    (hwm : job.wakeMode ≠ []) (hd : delKeysOk mdel) :
    metaGet (entryMetaOf job mdel) (str "session_target") = some job.sessionTarget := by
  rw [M_base_fixed hidne hname hst hwm hd (str "session_target") (by decide)
    (skip_m2 (by decide)) (skip_mdel hd (by decide)) (skip_m3 (by decide)) (by decide)]
  exact metaGet_base7_session_target job

theorem M_wake_mode {job : CronJob} {mdel : List (Str × Str)}
    (hidne : job.id ≠ []) (hname : job.name ≠ []) (hst : job.sessionTarget ≠ [])
    (hwm : job.wakeMode ≠ []) (hd : delKeysOk mdel) :
    metaGet (entryMetaOf job mdel) (str "wake_mode") = some job.wakeMode := by
  rw [M_base_fixed hidne hname hst hwm hd (str "wake_mode") (by decide)
    (skip_m2 (by decide)) (skip_mdel hd (by decide)) (skip_m3 (by decide)) (by decide)]
  exact metaGet_base7_wake_mode job

theorem M_created {job : CronJob} {mdel : List (Str × Str)}
    (hidne : job.id ≠ []) (hname : job.name ≠ []) (hst : job.sessionTarget ≠ [])
    (hwm : job.wakeMode ≠ []) (hd : delKeysOk mdel) :
    metaGet (entryMetaOf job mdel) (str "created_at_ms") =
      some (intToStr job.createdAtMs) := by
  rw [M_base_fixed hidne hname hst hwm hd (str "created_at_ms") (by decide)
    (skip_m2 (by decide)) (skip_mdel hd (by decide)) (skip_m3 (by decide)) (by decide)]
  exact metaGet_base7_created_at_ms job

theorem M_updated {job : CronJob} {mdel : List (Str × Str)}
    (hidne : job.id ≠ []) (hname : job.name ≠ []) (hst : job.sessionTarget ≠ [])
    (hwm : job.wakeMode ≠ []) (hd : delKeysOk mdel) :
    metaGet (entryMetaOf job mdel) (str "updated_at_ms") =
      some (intToStr job.updatedAtMs) := by
  rw [M_base_fixed hidne hname hst hwm hd (str "updated_at_ms") (by decide)
    (skip_m2 (by decide)) (skip_mdel hd (by decide)) (skip_m3 (by decide)) (by decide)]
  exact metaGet_base7_updated_at_ms job

theorem metaGet_m1_split {job : CronJob} (k : Str) (hidne : job.id ≠ [])
    (hname : job.name ≠ []) (hst : job.sessionTarget ≠ []) (hwm : job.wakeMode ≠ []) :
    metaGet ((baseKVs job).filter (fun kv => kv.2 ≠ [])) k =
      (metaGet (optBoolKV (str "delete_after_run") job.deleteAfterRun) k).or
      ((metaGet (optTruthyKV (str "session_key") job.sessionKey) k).or
      ((metaGet (optTruthyKV (str "agent_id") job.agentId) k).or
      ((metaGet (optTruthyKV (str "description") job.description) k).or
      (metaGet (base7 job) k)))) := by
  rw [filter_baseKVs job hidne hname hst hwm, metaGet_append, metaGet_append,
    metaGet_append, metaGet_append]

theorem M_description {job : CronJob} {mdel : List (Str × Str)}
    (hidne : job.id ≠ []) (hname : job.name ≠ []) (hst : job.sessionTarget ≠ [])
    (hwm : job.wakeMode ≠ []) (hd : delKeysOk mdel) :
    metaGet (entryMetaOf job mdel) (str "description") =
      metaGet (optTruthyKV (str "description") job.description) (str "description") := by
  rw [metaGet_M_in_m1 job mdel (str "description") hd (by decide)
    (skip_m2 (by decide)) (skip_mdel hd (by decide)) (skip_m3 (by decide))]
  rw [metaGet_m1_split (str "description") hidne hname hst hwm,
    skip_optBool (show ¬ str "delete_after_run" = str "description" by decide),
    skip_optTruthy (show ¬ str "session_key" = str "description" by decide),
    skip_optTruthy (show ¬ str "agent_id" = str "description" by decide),
    skip_base7 (by decide)]
  cases hm : metaGet (optTruthyKV (str "description") job.description) (str "description")
    <;> rfl

theorem M_agent_id {job : CronJob} {mdel : List (Str × Str)}
    (hidne : job.id ≠ []) (hname : job.name ≠ []) (hst : job.sessionTarget ≠ [])
    (hwm : job.wakeMode ≠ []) (hd : delKeysOk mdel) :
    metaGet (entryMetaOf job mdel) (str "agent_id") =
      metaGet (optTruthyKV (str "agent_id") job.agentId) (str "agent_id") := by
  rw [metaGet_M_in_m1 job mdel (str "agent_id") hd (by decide)
    (skip_m2 (by decide)) (skip_mdel hd (by decide)) (skip_m3 (by decide))]
  rw [metaGet_m1_split (str "agent_id") hidne hname hst hwm,
    skip_optBool (show ¬ str "delete_after_run" = str "agent_id" by decide),
    skip_optTruthy (show ¬ str "session_key" = str "agent_id" by decide),
    skip_optTruthy (show ¬ str "description" = str "agent_id" by decide),
    skip_base7 (by decide)]
  cases hm : metaGet (optTruthyKV (str "agent_id") job.agentId) (str "agent_id")
    <;> rfl

theorem M_session_key {job : CronJob} {mdel : List (Str × Str)}
    (hidne : job.id ≠ []) (hname : job.name ≠ []) (hst : job.sessionTarget ≠ [])
    (hwm : job.wakeMode ≠ []) (hd : delKeysOk mdel) :
    metaGet (entryMetaOf job mdel) (str "session_key") =
      metaGet (optTruthyKV (str "session_key") job.sessionKey) (str "session_key") := by
  rw [metaGet_M_in_m1 job mdel (str "session_key") hd (by decide)
    (skip_m2 (by decide)) (skip_mdel hd (by decide)) (skip_m3 (by decide))]
  rw [metaGet_m1_split (str "session_key") hidne hname hst hwm,
    skip_optBool (show ¬ str "delete_after_run" = str "session_key" by decide),
    skip_optTruthy (show ¬ str "agent_id" = str "session_key" by decide),
    skip_optTruthy (show ¬ str "description" = str "session_key" by decide),
    skip_base7 (by decide)]
  cases hm : metaGet (optTruthyKV (str "session_key") job.sessionKey) (str "session_key")
    <;> rfl

theorem M_delete_after_run {job : CronJob} {mdel : List (Str × Str)}
    (hidne : job.id ≠ []) (hname : job.name ≠ []) (hst : job.sessionTarget ≠ [])
    (hwm : job.wakeMode ≠ []) (hd : delKeysOk mdel) :
    metaGet (entryMetaOf job mdel) (str "delete_after_run") =
      metaGet (optBoolKV (str "delete_after_run") job.deleteAfterRun)
        (str "delete_after_run") := by
  rw [metaGet_M_in_m1 job mdel (str "delete_after_run") hd (by decide)
    (skip_m2 (by decide)) (skip_mdel hd (by decide)) (skip_m3 (by decide))]
  rw [metaGet_m1_split (str "delete_after_run") hidne hname hst hwm,
    skip_optTruthy (show ¬ str "session_key" = str "delete_after_run" by decide),
    skip_optTruthy (show ¬ str "agent_id" = str "delete_after_run" by decide),
    skip_optTruthy (show ¬ str "description" = str "delete_after_run" by decide),
    skip_base7 (by decide)]
  cases hm : metaGet (optBoolKV (str "delete_after_run") job.deleteAfterRun)
    (str "delete_after_run") <;> rfl

theorem filter_single_truthy (k v : Str) :
    [(k, v)].filter (fun kv => kv.2 ≠ []) = optTruthyKV k (some v) := by
  by_cases hv : v = []
  · subst hv; rfl
  · rw [List.filter_cons_of_pos (by simpa using hv),
      show optTruthyKV k (some v) = (if v ≠ [] then [(k, v)] else []) from rfl, if_pos hv]
    rfl

theorem payloadKVs_agent {job : CronJob} {p : AgentTurnPayload}
    (hp : job.payload = .agentTurn p) :
    payloadKVs job =
      [(str "id", job.id), (str "payload_kind", str "agentTurn"),
       (str "payload_message", p.message)]
      ++ optTruthyKV (str "payload_model") p.model
      ++ optTruthyKV (str "payload_thinking") p.thinking
      ++ optNumKV (str "payload_timeout_seconds") p.timeoutSeconds
      ++ optBoolKV (str "payload_allow_unsafe_external_content") p.allowUnsafeExternalContent
      ++ optBoolKV (str "payload_deliver") p.deliver
      ++ optTruthyKV (str "payload_channel") p.channel
      ++ optTruthyKV (str "payload_to") p.toAddr
      ++ optBoolKV (str "payload_best_effort_deliver") p.bestEffortDeliver := by
  unfold payloadKVs
  rw [hp]

theorem payloadKVs_system {job : CronJob} {text : Str}
    (hp : job.payload = .systemEvent text) :
    payloadKVs job =
      [(str "id", job.id), (str "payload_kind", str "systemEvent"),
       (str "payload_text", text)] := by
  unfold payloadKVs
  rw [hp]

theorem filter_payloadKVs_agent {job : CronJob} {p : AgentTurnPayload}
    (hp : job.payload = .agentTurn p) (hid : job.id ≠ []) :
    (payloadKVs job).filter (fun kv => kv.2 ≠ []) =
      ((str "id", job.id) :: (str "payload_kind", str "agentTurn") ::
        optTruthyKV (str "payload_message") (some p.message))
      ++ optTruthyKV (str "payload_model") p.model
      ++ optTruthyKV (str "payload_thinking") p.thinking
      ++ optNumKV (str "payload_timeout_seconds") p.timeoutSeconds
      ++ optBoolKV (str "payload_allow_unsafe_external_content") p.allowUnsafeExternalContent
      ++ optBoolKV (str "payload_deliver") p.deliver
      ++ optTruthyKV (str "payload_channel") p.channel
      ++ optTruthyKV (str "payload_to") p.toAddr
      ++ optBoolKV (str "payload_best_effort_deliver") p.bestEffortDeliver := by
  rw [payloadKVs_agent hp]
  rw [List.filter_append, List.filter_append, List.filter_append, List.filter_append,
    List.filter_append, List.filter_append, List.filter_append, List.filter_append]
  rw [List.filter_cons_of_pos (by simpa using hid), List.filter_cons_of_pos (by decide),
    filter_single_truthy]
  rw [filter_optTruthyKV, filter_optTruthyKV, filter_optNumKV, filter_optBoolKV,
    filter_optBoolKV, filter_optTruthyKV, filter_optTruthyKV, filter_optBoolKV]

theorem filter_payloadKVs_system {job : CronJob} {text : Str}
    (hp : job.payload = .systemEvent text) (hid : job.id ≠ []) :
    (payloadKVs job).filter (fun kv => kv.2 ≠ []) =
      (str "id", job.id) :: (str "payload_kind", str "systemEvent") ::
        optTruthyKV (str "payload_text") (some text) := by
  rw [payloadKVs_system hp]
  rw [List.filter_cons_of_pos (by simpa using hid), List.filter_cons_of_pos (by decide),
    filter_single_truthy]

theorem skip_m2A_head {idv msg : Str} {k : Str}
    (h1 : ¬ str "id" = k) (h2 : ¬ str "payload_kind" = k)
    (h3 : ¬ str "payload_message" = k) :
    metaGet ((str "id", idv) :: (str "payload_kind", str "agentTurn") ::
      optTruthyKV (str "payload_message") (some msg)) k = none :=
  metaGet_seg_ne (fun kv hkv => by
    simp only [List.mem_cons] at hkv
    rcases hkv with rfl | rfl | h
    · exact h1
    · exact h2
    · rw [optTruthyKV_keys _ _ kv h]; exact h3)

theorem skip_m2S_head {idv text : Str} {k : Str}
    (h1 : ¬ str "id" = k) (h2 : ¬ str "payload_kind" = k)
    (h3 : ¬ str "payload_text" = k) :
    metaGet ((str "id", idv) :: (str "payload_kind", str "systemEvent") ::
      optTruthyKV (str "payload_text") (some text)) k = none :=
  metaGet_seg_ne (fun kv hkv => by
    simp only [List.mem_cons] at hkv
    rcases hkv with rfl | rfl | h
    · exact h1
    · exact h2
    · rw [optTruthyKV_keys _ _ kv h]; exact h3)

theorem optTruthy_getD (k s : Str) :
    (metaGet (optTruthyKV k (some s)) k).getD [] = s := by
  by_cases hs : s = []
  · subst hs; rfl
  · rw [optTruthy_self (fun h => hs (Option.some_inj.mp h))]
    rfl

theorem M_pl_model {job : CronJob} {mdel : List (Str × Str)} {p : AgentTurnPayload}
    (hp : job.payload = .agentTurn p) (hid : job.id ≠ []) (hd : delKeysOk mdel) :
    metaGet (entryMetaOf job mdel) (str "payload_model") =
      metaGet (optTruthyKV (str "payload_model") p.model) (str "payload_model") := by
  rw [metaGet_M_in_m2 job mdel (str "payload_model") (by decide)
    (skip_mdel hd (by decide)) (skip_m3 (by decide)) (skip_m1 (by decide))]
  rw [filter_payloadKVs_agent hp hid]
  rw [metaGet_append, metaGet_append, metaGet_append, metaGet_append, metaGet_append,
    metaGet_append, metaGet_append, metaGet_append]
  rw [skip_m2A_head (show ¬ str "id" = str "payload_model" by decide)
      (show ¬ str "payload_kind" = str "payload_model" by decide)
      (show ¬ str "payload_message" = str "payload_model" by decide),
    skip_optTruthy (show ¬ str "payload_thinking" = str "payload_model" by decide),
    skip_optNum (show ¬ str "payload_timeout_seconds" = str "payload_model" by decide),
    skip_optBool (show ¬ str "payload_allow_unsafe_external_content" = str "payload_model" by decide),
    skip_optBool (show ¬ str "payload_deliver" = str "payload_model" by decide),
    skip_optTruthy (show ¬ str "payload_channel" = str "payload_model" by decide),
    skip_optTruthy (show ¬ str "payload_to" = str "payload_model" by decide),
    skip_optBool (show ¬ str "payload_best_effort_deliver" = str "payload_model" by decide)]
  cases hm : metaGet (optTruthyKV (str "payload_model") p.model) (str "payload_model") <;> rfl

theorem M_pl_thinking {job : CronJob} {mdel : List (Str × Str)} {p : AgentTurnPayload}
    (hp : job.payload = .agentTurn p) (hid : job.id ≠ []) (hd : delKeysOk mdel) :
    metaGet (entryMetaOf job mdel) (str "payload_thinking") =
      metaGet (optTruthyKV (str "payload_thinking") p.thinking) (str "payload_thinking") := by
  rw [metaGet_M_in_m2 job mdel (str "payload_thinking") (by decide)
    (skip_mdel hd (by decide)) (skip_m3 (by decide)) (skip_m1 (by decide))]
  rw [filter_payloadKVs_agent hp hid]
  rw [metaGet_append, metaGet_append, metaGet_append, metaGet_append, metaGet_append,
    metaGet_append, metaGet_append, metaGet_append]
  rw [skip_m2A_head (show ¬ str "id" = str "payload_thinking" by decide)
      (show ¬ str "payload_kind" = str "payload_thinking" by decide)
      (show ¬ str "payload_message" = str "payload_thinking" by decide),
    skip_optTruthy (show ¬ str "payload_model" = str "payload_thinking" by decide),
    skip_optNum (show ¬ str "payload_timeout_seconds" = str "payload_thinking" by decide),
    skip_optBool (show ¬ str "payload_allow_unsafe_external_content" = str "payload_thinking" by decide),
    skip_optBool (show ¬ str "payload_deliver" = str "payload_thinking" by decide),
    skip_optTruthy (show ¬ str "payload_channel" = str "payload_thinking" by decide),
    skip_optTruthy (show ¬ str "payload_to" = str "payload_thinking" by decide),
    skip_optBool (show ¬ str "payload_best_effort_deliver" = str "payload_thinking" by decide)]
  cases hm : metaGet (optTruthyKV (str "payload_thinking") p.thinking) (str "payload_thinking") <;> rfl

theorem M_pl_timeout {job : CronJob} {mdel : List (Str × Str)} {p : AgentTurnPayload}
    (hp : job.payload = .agentTurn p) (hid : job.id ≠ []) (hd : delKeysOk mdel) :
    metaGet (entryMetaOf job mdel) (str "payload_timeout_seconds") =
      metaGet (optNumKV (str "payload_timeout_seconds") p.timeoutSeconds) (str "payload_timeout_seconds") := by
  rw [metaGet_M_in_m2 job mdel (str "payload_timeout_seconds") (by decide)
    (skip_mdel hd (by decide)) (skip_m3 (by decide)) (skip_m1 (by decide))]
  rw [filter_payloadKVs_agent hp hid]
  rw [metaGet_append, metaGet_append, metaGet_append, metaGet_append, metaGet_append,
    metaGet_append, metaGet_append, metaGet_append]
  rw [skip_m2A_head (show ¬ str "id" = str "payload_timeout_seconds" by decide)
      (show ¬ str "payload_kind" = str "payload_timeout_seconds" by decide)
      (show ¬ str "payload_message" = str "payload_timeout_seconds" by decide),
    skip_optTruthy (show ¬ str "payload_model" = str "payload_timeout_seconds" by decide),
    skip_optTruthy (show ¬ str "payload_thinking" = str "payload_timeout_seconds" by decide),
    skip_optBool (show ¬ str "payload_allow_unsafe_external_content" = str "payload_timeout_seconds" by decide),
    skip_optBool (show ¬ str "payload_deliver" = str "payload_timeout_seconds" by decide),
    skip_optTruthy (show ¬ str "payload_channel" = str "payload_timeout_seconds" by decide),
    skip_optTruthy (show ¬ str "payload_to" = str "payload_timeout_seconds" by decide),
    skip_optBool (show ¬ str "payload_best_effort_deliver" = str "payload_timeout_seconds" by decide)]
  cases hm : metaGet (optNumKV (str "payload_timeout_seconds") p.timeoutSeconds) (str "payload_timeout_seconds") <;> rfl

theorem M_pl_allow {job : CronJob} {mdel : List (Str × Str)} {p : AgentTurnPayload}
    (hp : job.payload = .agentTurn p) (hid : job.id ≠ []) (hd : delKeysOk mdel) :
    metaGet (entryMetaOf job mdel) (str "payload_allow_unsafe_external_content") =
      metaGet (optBoolKV (str "payload_allow_unsafe_external_content") p.allowUnsafeExternalContent) (str "payload_allow_unsafe_external_content") := by
  rw [metaGet_M_in_m2 job mdel (str "payload_allow_unsafe_external_content") (by decide)
    (skip_mdel hd (by decide)) (skip_m3 (by decide)) (skip_m1 (by decide))]
  rw [filter_payloadKVs_agent hp hid]
  rw [metaGet_append, metaGet_append, metaGet_append, metaGet_append, metaGet_append,
    metaGet_append, metaGet_append, metaGet_append]
  rw [skip_m2A_head (show ¬ str "id" = str "payload_allow_unsafe_external_content" by decide)
      (show ¬ str "payload_kind" = str "payload_allow_unsafe_external_content" by decide)
      (show ¬ str "payload_message" = str "payload_allow_unsafe_external_content" by decide),
    skip_optTruthy (show ¬ str "payload_model" = str "payload_allow_unsafe_external_content" by decide),
    skip_optTruthy (show ¬ str "payload_thinking" = str "payload_allow_unsafe_external_content" by decide),
    skip_optNum (show ¬ str "payload_timeout_seconds" = str "payload_allow_unsafe_external_content" by decide),
    skip_optBool (show ¬ str "payload_deliver" = str "payload_allow_unsafe_external_content" by decide),
    skip_optTruthy (show ¬ str "payload_channel" = str "payload_allow_unsafe_external_content" by decide),
    skip_optTruthy (show ¬ str "payload_to" = str "payload_allow_unsafe_external_content" by decide),
    skip_optBool (show ¬ str "payload_best_effort_deliver" = str "payload_allow_unsafe_external_content" by decide)]
  cases hm : metaGet (optBoolKV (str "payload_allow_unsafe_external_content") p.allowUnsafeExternalContent) (str "payload_allow_unsafe_external_content") <;> rfl

theorem M_pl_deliver {job : CronJob} {mdel : List (Str × Str)} {p : AgentTurnPayload}
    (hp : job.payload = .agentTurn p) (hid : job.id ≠ []) (hd : delKeysOk mdel) :
    metaGet (entryMetaOf job mdel) (str "payload_deliver") =
      metaGet (optBoolKV (str "payload_deliver") p.deliver) (str "payload_deliver") := by
  rw [metaGet_M_in_m2 job mdel (str "payload_deliver") (by decide)
    (skip_mdel hd (by decide)) (skip_m3 (by decide)) (skip_m1 (by decide))]
  rw [filter_payloadKVs_agent hp hid]
  rw [metaGet_append, metaGet_append, metaGet_append, metaGet_append, metaGet_append,
    metaGet_append, metaGet_append, metaGet_append]
  rw [skip_m2A_head (show ¬ str "id" = str "payload_deliver" by decide)
      (show ¬ str "payload_kind" = str "payload_deliver" by decide)
      (show ¬ str "payload_message" = str "payload_deliver" by decide),
    skip_optTruthy (show ¬ str "payload_model" = str "payload_deliver" by decide),
    skip_optTruthy (show ¬ str "payload_thinking" = str "payload_deliver" by decide),
    skip_optNum (show ¬ str "payload_timeout_seconds" = str "payload_deliver" by decide),
    skip_optBool (show ¬ str "payload_allow_unsafe_external_content" = str "payload_deliver" by decide),
    skip_optTruthy (show ¬ str "payload_channel" = str "payload_deliver" by decide),
    skip_optTruthy (show ¬ str "payload_to" = str "payload_deliver" by decide),
    skip_optBool (show ¬ str "payload_best_effort_deliver" = str "payload_deliver" by decide)]
  cases hm : metaGet (optBoolKV (str "payload_deliver") p.deliver) (str "payload_deliver") <;> rfl

theorem M_pl_channel {job : CronJob} {mdel : List (Str × Str)} {p : AgentTurnPayload}
    (hp : job.payload = .agentTurn p) (hid : job.id ≠ []) (hd : delKeysOk mdel) :
    metaGet (entryMetaOf job mdel) (str "payload_channel") =
      metaGet (optTruthyKV (str "payload_channel") p.channel) (str "payload_channel") := by
  rw [metaGet_M_in_m2 job mdel (str "payload_channel") (by decide)
    (skip_mdel hd (by decide)) (skip_m3 (by decide)) (skip_m1 (by decide))]
  rw [filter_payloadKVs_agent hp hid]
  rw [metaGet_append, metaGet_append, metaGet_append, metaGet_append, metaGet_append,
    metaGet_append, metaGet_append, metaGet_append]
  rw [skip_m2A_head (show ¬ str "id" = str "payload_channel" by decide)
      (show ¬ str "payload_kind" = str "payload_channel" by decide)
      (show ¬ str "payload_message" = str "payload_channel" by decide),
    skip_optTruthy (show ¬ str "payload_model" = str "payload_channel" by decide),
    skip_optTruthy (show ¬ str "payload_thinking" = str "payload_channel" by decide),
    skip_optNum (show ¬ str "payload_timeout_seconds" = str "payload_channel" by decide),
    skip_optBool (show ¬ str "payload_allow_unsafe_external_content" = str "payload_channel" by decide),
    skip_optBool (show ¬ str "payload_deliver" = str "payload_channel" by decide),
    skip_optTruthy (show ¬ str "payload_to" = str "payload_channel" by decide),
    skip_optBool (show ¬ str "payload_best_effort_deliver" = str "payload_channel" by decide)]
  cases hm : metaGet (optTruthyKV (str "payload_channel") p.channel) (str "payload_channel") <;> rfl

theorem M_pl_to {job : CronJob} {mdel : List (Str × Str)} {p : AgentTurnPayload}
    (hp : job.payload = .agentTurn p) (hid : job.id ≠ []) (hd : delKeysOk mdel) :
    metaGet (entryMetaOf job mdel) (str "payload_to") =
      metaGet (optTruthyKV (str "payload_to") p.toAddr) (str "payload_to") := by
  rw [metaGet_M_in_m2 job mdel (str "payload_to") (by decide)
    (skip_mdel hd (by decide)) (skip_m3 (by decide)) (skip_m1 (by decide))]
  rw [filter_payloadKVs_agent hp hid]
  rw [metaGet_append, metaGet_append, metaGet_append, metaGet_append, metaGet_append,
    metaGet_append, metaGet_append, metaGet_append]
  rw [skip_m2A_head (show ¬ str "id" = str "payload_to" by decide)
      (show ¬ str "payload_kind" = str "payload_to" by decide)
      (show ¬ str "payload_message" = str "payload_to" by decide),
    skip_optTruthy (show ¬ str "payload_model" = str "payload_to" by decide),
    skip_optTruthy (show ¬ str "payload_thinking" = str "payload_to" by decide),
    skip_optNum (show ¬ str "payload_timeout_seconds" = str "payload_to" by decide),
    skip_optBool (show ¬ str "payload_allow_unsafe_external_content" = str "payload_to" by decide),
    skip_optBool (show ¬ str "payload_deliver" = str "payload_to" by decide),
    skip_optTruthy (show ¬ str "payload_channel" = str "payload_to" by decide),
    skip_optBool (show ¬ str "payload_best_effort_deliver" = str "payload_to" by decide)]
  cases hm : metaGet (optTruthyKV (str "payload_to") p.toAddr) (str "payload_to") <;> rfl

theorem M_pl_bed {job : CronJob} {mdel : List (Str × Str)} {p : AgentTurnPayload}
    (hp : job.payload = .agentTurn p) (hid : job.id ≠ []) (hd : delKeysOk mdel) :
    metaGet (entryMetaOf job mdel) (str "payload_best_effort_deliver") =
      metaGet (optBoolKV (str "payload_best_effort_deliver") p.bestEffortDeliver) (str "payload_best_effort_deliver") := by
  rw [metaGet_M_in_m2 job mdel (str "payload_best_effort_deliver") (by decide)
    (skip_mdel hd (by decide)) (skip_m3 (by decide)) (skip_m1 (by decide))]
  rw [filter_payloadKVs_agent hp hid]
  rw [metaGet_append, metaGet_append, metaGet_append, metaGet_append, metaGet_append,
    metaGet_append, metaGet_append, metaGet_append]
  rw [skip_m2A_head (show ¬ str "id" = str "payload_best_effort_deliver" by decide)
      (show ¬ str "payload_kind" = str "payload_best_effort_deliver" by decide)
      (show ¬ str "payload_message" = str "payload_best_effort_deliver" by decide),
    skip_optTruthy (show ¬ str "payload_model" = str "payload_best_effort_deliver" by decide),
    skip_optTruthy (show ¬ str "payload_thinking" = str "payload_best_effort_deliver" by decide),
    skip_optNum (show ¬ str "payload_timeout_seconds" = str "payload_best_effort_deliver" by decide),
    skip_optBool (show ¬ str "payload_allow_unsafe_external_content" = str "payload_best_effort_deliver" by decide),
    skip_optBool (show ¬ str "payload_deliver" = str "payload_best_effort_deliver" by decide),
    skip_optTruthy (show ¬ str "payload_channel" = str "payload_best_effort_deliver" by decide),
    skip_optTruthy (show ¬ str "payload_to" = str "payload_best_effort_deliver" by decide)]
  cases hm : metaGet (optBoolKV (str "payload_best_effort_deliver") p.bestEffortDeliver) (str "payload_best_effort_deliver") <;> rfl

theorem M_pl_message {job : CronJob} {mdel : List (Str × Str)} {p : AgentTurnPayload}
    (hp : job.payload = .agentTurn p) (hid : job.id ≠ []) (hd : delKeysOk mdel) :
    metaGet (entryMetaOf job mdel) (str "payload_message") =
      metaGet (optTruthyKV (str "payload_message") (some p.message)) (str "payload_message") := by
  rw [metaGet_M_in_m2 job mdel (str "payload_message") (by decide)
    (skip_mdel hd (by decide)) (skip_m3 (by decide)) (skip_m1 (by decide))]
  rw [filter_payloadKVs_agent hp hid]
  rw [metaGet_append, metaGet_append, metaGet_append, metaGet_append, metaGet_append,
    metaGet_append, metaGet_append, metaGet_append]
  rw [skip_optTruthy (show ¬ str "payload_model" = str "payload_message" by decide),
    skip_optTruthy (show ¬ str "payload_thinking" = str "payload_message" by decide),
    skip_optNum (show ¬ str "payload_timeout_seconds" = str "payload_message" by decide),
    skip_optBool (show ¬ str "payload_allow_unsafe_external_content" = str "payload_message" by decide),
    skip_optBool (show ¬ str "payload_deliver" = str "payload_message" by decide),
    skip_optTruthy (show ¬ str "payload_channel" = str "payload_message" by decide),
    skip_optTruthy (show ¬ str "payload_to" = str "payload_message" by decide),
    skip_optBool (show ¬ str "payload_best_effort_deliver" = str "payload_message" by decide)]
  rw [metaGet_cons, metaGet_cons, skip_single (show ¬ str "id" = str "payload_message" by decide),
    skip_single (show ¬ str "payload_kind" = str "payload_message" by decide)]
  cases hm : metaGet (optTruthyKV (str "payload_message") (some p.message)) (str "payload_message") <;> rfl

theorem M_pl_kind_agent {job : CronJob} {mdel : List (Str × Str)} {p : AgentTurnPayload}
    (hp : job.payload = .agentTurn p) (hid : job.id ≠ []) (hd : delKeysOk mdel) :
    metaGet (entryMetaOf job mdel) (str "payload_kind") = some (str "agentTurn") := by
  rw [metaGet_M_in_m2 job mdel (str "payload_kind") (by decide)
    (skip_mdel hd (by decide)) (skip_m3 (by decide)) (skip_m1 (by decide))]
  rw [filter_payloadKVs_agent hp hid]
  rw [metaGet_append, metaGet_append, metaGet_append, metaGet_append, metaGet_append,
    metaGet_append, metaGet_append, metaGet_append]
  rw [skip_optTruthy (show ¬ str "payload_model" = str "payload_kind" by decide),
    skip_optTruthy (show ¬ str "payload_thinking" = str "payload_kind" by decide),
    skip_optNum (show ¬ str "payload_timeout_seconds" = str "payload_kind" by decide),
    skip_optBool (show ¬ str "payload_allow_unsafe_external_content" = str "payload_kind" by decide),
    skip_optBool (show ¬ str "payload_deliver" = str "payload_kind" by decide),
    skip_optTruthy (show ¬ str "payload_channel" = str "payload_kind" by decide),
    skip_optTruthy (show ¬ str "payload_to" = str "payload_kind" by decide),
    skip_optBool (show ¬ str "payload_best_effort_deliver" = str "payload_kind" by decide)]
  rw [metaGet_cons, metaGet_cons, skip_single (show ¬ str "id" = str "payload_kind" by decide),
    skip_optTruthy (show ¬ str "payload_message" = str "payload_kind" by decide)]
  rfl

theorem M_pl_kind_system {job : CronJob} {mdel : List (Str × Str)} {text : Str}
    (hp : job.payload = .systemEvent text) (hid : job.id ≠ []) (hd : delKeysOk mdel) :
    metaGet (entryMetaOf job mdel) (str "payload_kind") = some (str "systemEvent") := by
  rw [metaGet_M_in_m2 job mdel (str "payload_kind") (by decide)
    (skip_mdel hd (by decide)) (skip_m3 (by decide)) (skip_m1 (by decide))]
  rw [filter_payloadKVs_system hp hid]
  rw [metaGet_cons, metaGet_cons,
    skip_single (show ¬ str "id" = str "payload_kind" by decide),
    skip_optTruthy (show ¬ str "payload_text" = str "payload_kind" by decide)]
  rfl

theorem M_pl_text {job : CronJob} {mdel : List (Str × Str)} {text : Str}
    (hp : job.payload = .systemEvent text) (hid : job.id ≠ []) (hd : delKeysOk mdel) :
    metaGet (entryMetaOf job mdel) (str "payload_text") =
      metaGet (optTruthyKV (str "payload_text") (some text)) (str "payload_text") := by
  rw [metaGet_M_in_m2 job mdel (str "payload_text") (by decide)
    (skip_mdel hd (by decide)) (skip_m3 (by decide)) (skip_m1 (by decide))]
  rw [filter_payloadKVs_system hp hid]
  rw [metaGet_cons, metaGet_cons,
    skip_single (show ¬ str "id" = str "payload_text" by decide),
    skip_single (show ¬ str "payload_kind" = str "payload_text" by decide)]
  cases hm : metaGet (optTruthyKV (str "payload_text") (some text)) (str "payload_text")
    <;> rfl

theorem M_pl_message_system {job : CronJob} {mdel : List (Str × Str)} {text : Str}
    (hp : job.payload = .systemEvent text) (hid : job.id ≠ []) (hd : delKeysOk mdel) :
    metaGet (entryMetaOf job mdel) (str "payload_message") = none := by
  rw [metaGet_M_in_m2 job mdel (str "payload_message") (by decide)
    (skip_mdel hd (by decide)) (skip_m3 (by decide)) (skip_m1 (by decide))]
  rw [filter_payloadKVs_system hp hid]
  exact skip_m2S_head (by decide) (by decide) (by decide)

theorem payload_decode_agent {job : CronJob} {mdel : List (Str × Str)}
    {p : AgentTurnPayload}
    (hp : job.payload = .agentTurn p) (hid : job.id ≠ []) (hd : delKeysOk mdel)
    (hmodel : p.model ≠ some []) (hthink : p.thinking ≠ some [])
    (hchan : p.channel ≠ some []) (hto : p.toAddr ≠ some [])
    (hallow : p.allowUnsafeExternalContent ≠ some false)
    (hdeliv : p.deliver ≠ some false) (hbed : p.bestEffortDeliver ≠ some false) :
    (if (metaGet (entryMetaOf job mdel) (str "payload_kind")).getD (str "systemEvent") =
        str "agentTurn"
      then CronPayload.agentTurn {
          message := (metaGet (entryMetaOf job mdel) (str "payload_message")).getD []
          model := jsOptStrOrUndef (metaGet (entryMetaOf job mdel) (str "payload_model"))
          thinking :=
            jsOptStrOrUndef (metaGet (entryMetaOf job mdel) (str "payload_thinking"))
          timeoutSeconds :=
            jsOptNum (metaGet (entryMetaOf job mdel) (str "payload_timeout_seconds"))
          allowUnsafeExternalContent := trueFlag
            (metaGet (entryMetaOf job mdel) (str "payload_allow_unsafe_external_content"))
          deliver := trueFlag (metaGet (entryMetaOf job mdel) (str "payload_deliver"))
          channel := jsOptStrOrUndef (metaGet (entryMetaOf job mdel) (str "payload_channel"))
          toAddr := jsOptStrOrUndef (metaGet (entryMetaOf job mdel) (str "payload_to"))
          bestEffortDeliver :=
            trueFlag (metaGet (entryMetaOf job mdel) (str "payload_best_effort_deliver")) }
      else CronPayload.systemEvent ((metaGet (entryMetaOf job mdel) (str "payload_text")).getD
        ((metaGet (entryMetaOf job mdel) (str "payload_message")).getD []))) =
      job.payload := by
  rw [M_pl_kind_agent hp hid hd]
  rw [if_pos (by decide)]
  rw [M_pl_message hp hid hd, optTruthy_getD,
    M_pl_model hp hid hd, optTruthy_roundtrip hmodel,
    M_pl_thinking hp hid hd, optTruthy_roundtrip hthink,
    M_pl_timeout hp hid hd, optNum_roundtrip,
    M_pl_allow hp hid hd, trueFlag_roundtrip hallow,
    M_pl_deliver hp hid hd, trueFlag_roundtrip hdeliv,
    M_pl_channel hp hid hd, optTruthy_roundtrip hchan,
    M_pl_to hp hid hd, optTruthy_roundtrip hto,
    M_pl_bed hp hid hd, trueFlag_roundtrip hbed, hp]

theorem payload_decode_system {job : CronJob} {mdel : List (Str × Str)} {text : Str}
    (hp : job.payload = .systemEvent text) (hid : job.id ≠ []) (hd : delKeysOk mdel) :
    (if (metaGet (entryMetaOf job mdel) (str "payload_kind")).getD (str "systemEvent") =
        str "agentTurn"
      then CronPayload.agentTurn {
          message := (metaGet (entryMetaOf job mdel) (str "payload_message")).getD []
          model := jsOptStrOrUndef (metaGet (entryMetaOf job mdel) (str "payload_model"))
          thinking :=
            jsOptStrOrUndef (metaGet (entryMetaOf job mdel) (str "payload_thinking"))
          timeoutSeconds :=
            jsOptNum (metaGet (entryMetaOf job mdel) (str "payload_timeout_seconds"))
          allowUnsafeExternalContent := trueFlag
            (metaGet (entryMetaOf job mdel) (str "payload_allow_unsafe_external_content"))
          deliver := trueFlag (metaGet (entryMetaOf job mdel) (str "payload_deliver"))
          channel := jsOptStrOrUndef (metaGet (entryMetaOf job mdel) (str "payload_channel"))
          toAddr := jsOptStrOrUndef (metaGet (entryMetaOf job mdel) (str "payload_to"))
          bestEffortDeliver :=
            trueFlag (metaGet (entryMetaOf job mdel) (str "payload_best_effort_deliver")) }
      else CronPayload.systemEvent ((metaGet (entryMetaOf job mdel) (str "payload_text")).getD
        ((metaGet (entryMetaOf job mdel) (str "payload_message")).getD []))) =
      job.payload := by
  rw [M_pl_kind_system hp hid hd]
  rw [if_neg (by decide)]
  rw [M_pl_text hp hid hd, M_pl_message_system hp hid hd]
  show CronPayload.systemEvent
    ((metaGet (optTruthyKV (str "payload_text") (some text)) (str "payload_text")).getD [])
    = job.payload
  rw [optTruthy_getD, hp]

theorem filter_deliveryKVs {job : CronJob} {dv : CronDelivery}
    (hid : job.id ≠ []) (hmode : dv.mode ≠ []) :
    (deliveryKVs job dv).filter (fun kv => kv.2 ≠ []) =
      [(str "id", job.id), (str "delivery_mode", dv.mode)]
      ++ optTruthyKV (str "delivery_channel") dv.channel
      ++ optTruthyKV (str "delivery_to") dv.toAddr
      ++ optBoolKV (str "delivery_best_effort") dv.bestEffort := by
  unfold deliveryKVs
  rw [List.filter_append, List.filter_append, List.filter_append]
  rw [List.filter_cons_of_pos (by simpa using hid),
    List.filter_cons_of_pos (by simpa using hmode)]
  rw [filter_optTruthyKV, filter_optTruthyKV, filter_optBoolKV]
  rfl

theorem delKeysOk_filter (job : CronJob) (dv : CronDelivery) :
    delKeysOk ((deliveryKVs job dv).filter (fun kv => kv.2 ≠ [])) :=
  fun kv hkv => deliveryKVs_keys job dv kv (List.mem_of_mem_filter hkv)

theorem delKeysOk_nil : delKeysOk [] := fun kv hkv => absurd hkv (List.not_mem_nil kv)

theorem skip_mdel_head {idv mode : Str} {k : Str}
    (h1 : ¬ str "id" = k) (h2 : ¬ str "delivery_mode" = k) :
    metaGet [(str "id", idv), (str "delivery_mode", mode)] k = none :=
  metaGet_seg_ne (fun kv hkv => by
    simp only [List.mem_cons, List.not_mem_nil, or_false] at hkv
    rcases hkv with rfl | rfl
    · exact h1
    · exact h2)

theorem M_del_mode {job : CronJob} {dv : CronDelivery}
    (hid : job.id ≠ []) (hmode : dv.mode ≠ []) :
    metaGet (entryMetaOf job ((deliveryKVs job dv).filter (fun kv => kv.2 ≠ [])))
      (str "delivery_mode") = some dv.mode := by
  rw [metaGet_M_in_mdel job _ (str "delivery_mode") (by decide)
    (skip_m2 (by decide)) (skip_m3 (by decide)) (skip_m1 (by decide))]
  rw [filter_deliveryKVs hid hmode]
  rw [metaGet_append, metaGet_append, metaGet_append]
  rw [skip_optBool (show ¬ str "delivery_best_effort" = str "delivery_mode" by decide),
    skip_optTruthy (show ¬ str "delivery_to" = str "delivery_mode" by decide),
    skip_optTruthy (show ¬ str "delivery_channel" = str "delivery_mode" by decide)]
  rw [metaGet_cons, skip_single (show ¬ str "id" = str "delivery_mode" by decide),
    metaGet_self_single]
  rfl

theorem M_del_channel {job : CronJob} {dv : CronDelivery}
    (hid : job.id ≠ []) (hmode : dv.mode ≠ []) :
    metaGet (entryMetaOf job ((deliveryKVs job dv).filter (fun kv => kv.2 ≠ [])))
      (str "delivery_channel") =
      metaGet (optTruthyKV (str "delivery_channel") dv.channel) (str "delivery_channel") := by
  rw [metaGet_M_in_mdel job _ (str "delivery_channel") (by decide)
    (skip_m2 (by decide)) (skip_m3 (by decide)) (skip_m1 (by decide))]
  rw [filter_deliveryKVs hid hmode]
  rw [metaGet_append, metaGet_append, metaGet_append]
  rw [skip_optBool (show ¬ str "delivery_best_effort" = str "delivery_channel" by decide),
    skip_optTruthy (show ¬ str "delivery_to" = str "delivery_channel" by decide),
    skip_mdel_head (show ¬ str "id" = str "delivery_channel" by decide)
      (show ¬ str "delivery_mode" = str "delivery_channel" by decide)]
  cases hm : metaGet (optTruthyKV (str "delivery_channel") dv.channel)
    (str "delivery_channel") <;> rfl

theorem M_del_to {job : CronJob} {dv : CronDelivery}
    (hid : job.id ≠ []) (hmode : dv.mode ≠ []) :
    metaGet (entryMetaOf job ((deliveryKVs job dv).filter (fun kv => kv.2 ≠ [])))
      (str "delivery_to") =
      metaGet (optTruthyKV (str "delivery_to") dv.toAddr) (str "delivery_to") := by
  rw [metaGet_M_in_mdel job _ (str "delivery_to") (by decide)
    (skip_m2 (by decide)) (skip_m3 (by decide)) (skip_m1 (by decide))]
  rw [filter_deliveryKVs hid hmode]
  rw [metaGet_append, metaGet_append, metaGet_append]
  rw [skip_optBool (show ¬ str "delivery_best_effort" = str "delivery_to" by decide),
    skip_optTruthy (show ¬ str "delivery_channel" = str "delivery_to" by decide),
    skip_mdel_head (show ¬ str "id" = str "delivery_to" by decide)
      (show ¬ str "delivery_mode" = str "delivery_to" by decide)]
  cases hm : metaGet (optTruthyKV (str "delivery_to") dv.toAddr) (str "delivery_to") <;> rfl

theorem M_del_be {job : CronJob} {dv : CronDelivery}
    (hid : job.id ≠ []) (hmode : dv.mode ≠ []) :
    metaGet (entryMetaOf job ((deliveryKVs job dv).filter (fun kv => kv.2 ≠ [])))
      (str "delivery_best_effort") =
      metaGet (optBoolKV (str "delivery_best_effort") dv.bestEffort)
        (str "delivery_best_effort") := by
  rw [metaGet_M_in_mdel job _ (str "delivery_best_effort") (by decide)
    (skip_m2 (by decide)) (skip_m3 (by decide)) (skip_m1 (by decide))]
  rw [filter_deliveryKVs hid hmode]
  rw [metaGet_append, metaGet_append, metaGet_append]
  rw [skip_optTruthy (show ¬ str "delivery_to" = str "delivery_best_effort" by decide),
    skip_optTruthy (show ¬ str "delivery_channel" = str "delivery_best_effort" by decide),
    skip_mdel_head (show ¬ str "id" = str "delivery_best_effort" by decide)
      (show ¬ str "delivery_mode" = str "delivery_best_effort" by decide)]
  cases hm : metaGet (optBoolKV (str "delivery_best_effort") dv.bestEffort)
    (str "delivery_best_effort") <;> rfl

theorem delivery_decode_none {job : CronJob} (hdel : job.delivery = none) :
    (if (metaGet (entryMetaOf job []) (str "delivery_mode")).getD (str "none") = str "none"
      then none
      else some ({ mode := (metaGet (entryMetaOf job []) (str "delivery_mode")).getD
                     (str "none")
                   channel :=
                     jsOptStrOrUndef (metaGet (entryMetaOf job []) (str "delivery_channel"))
                   toAddr := jsOptStrOrUndef (metaGet (entryMetaOf job []) (str "delivery_to"))
                   bestEffort :=
                     trueFlag (metaGet (entryMetaOf job []) (str "delivery_best_effort")) }
                 : CronDelivery)) = job.delivery := by
  have hm : metaGet (entryMetaOf job []) (str "delivery_mode") = none := by
    rw [metaGet_M_in_mdel job [] (str "delivery_mode") (by decide)
      (skip_m2 (by decide)) (skip_m3 (by decide)) (skip_m1 (by decide))]
    rfl
  rw [hm, if_pos (by decide), hdel]

theorem delivery_decode_some {job : CronJob} {dv : CronDelivery}
    (hdel : job.delivery = some dv) (hid : job.id ≠ [])
    (hmode : dv.mode ≠ []) (hmn : ¬ dv.mode = str "none")
    (hchan : dv.channel ≠ some []) (hto : dv.toAddr ≠ some [])
    (hbe : dv.bestEffort ≠ some false) :
    (if (metaGet (entryMetaOf job ((deliveryKVs job dv).filter (fun kv => kv.2 ≠ [])))
          (str "delivery_mode")).getD (str "none") = str "none"
      then none
      else some ({ mode := (metaGet (entryMetaOf job
                     ((deliveryKVs job dv).filter (fun kv => kv.2 ≠ [])))
                     (str "delivery_mode")).getD (str "none")
                   channel := jsOptStrOrUndef (metaGet (entryMetaOf job
                     ((deliveryKVs job dv).filter (fun kv => kv.2 ≠ [])))
                     (str "delivery_channel"))
                   toAddr := jsOptStrOrUndef (metaGet (entryMetaOf job
                     ((deliveryKVs job dv).filter (fun kv => kv.2 ≠ [])))
                     (str "delivery_to"))
                   bestEffort := trueFlag (metaGet (entryMetaOf job
                     ((deliveryKVs job dv).filter (fun kv => kv.2 ≠ [])))
                     (str "delivery_best_effort")) }
                 : CronDelivery)) = job.delivery := by
  rw [M_del_mode hid hmode]
  rw [show (some dv.mode).getD (str "none") = dv.mode from rfl]
  rw [if_neg hmn]
  rw [M_del_channel hid hmode, optTruthy_roundtrip hchan,
    M_del_to hid hmode, optTruthy_roundtrip hto,
    M_del_be hid hmode, trueFlag_roundtrip hbe, hdel]

theorem scheduleKVs_at {job : CronJob} {a : Str} (hs : job.schedule = .atTime a) :
    scheduleKVs job =
      [(str "id", job.id), (str "schedule_kind", str "at"), (str "schedule_at", a)] := by
  unfold scheduleKVs
  rw [hs]
  rfl

theorem scheduleKVs_every {job : CronJob} {ms : Int} {anchor : Option Int}
    (hs : job.schedule = .every ms anchor) :
    scheduleKVs job =
      (str "id", job.id) :: (str "schedule_kind", str "every") ::
        (str "schedule_every_ms", intToStr ms) :: optNumKV (str "schedule_anchor_ms") anchor := by
  unfold scheduleKVs
  rw [hs]
  rfl

theorem scheduleKVs_cron {job : CronJob} {expr : Str} {stag : Option Int}
    (hs : job.schedule = .cron expr none stag) :
    scheduleKVs job =
      (str "id", job.id) :: (str "schedule_kind", str "cron") ::
        (str "schedule_expr", expr) :: optNumKV (str "schedule_stagger_ms") stag := by
  unfold scheduleKVs
  rw [hs]
  rfl

theorem filter_scheduleKVs_at {job : CronJob} {a : Str}
    (hs : job.schedule = .atTime a) (hid : job.id ≠ []) :
    (scheduleKVs job).filter (fun kv => kv.2 ≠ []) =
      (str "id", job.id) :: (str "schedule_kind", str "at") ::
        optTruthyKV (str "schedule_at") (some a) := by
  rw [scheduleKVs_at hs]
  rw [List.filter_cons_of_pos (by simpa using hid), List.filter_cons_of_pos (by decide),
    filter_single_truthy]

theorem filter_scheduleKVs_every {job : CronJob} {ms : Int} {anchor : Option Int}
    (hs : job.schedule = .every ms anchor) (hid : job.id ≠ []) :
    (scheduleKVs job).filter (fun kv => kv.2 ≠ []) =
      (str "id", job.id) :: (str "schedule_kind", str "every") ::
        (str "schedule_every_ms", intToStr ms) :: optNumKV (str "schedule_anchor_ms") anchor := by
  rw [scheduleKVs_every hs]
  rw [List.filter_cons_of_pos (by simpa using hid), List.filter_cons_of_pos (by decide),
    List.filter_cons_of_pos (by simpa using intToStr_ne_nil ms), filter_optNumKV]

theorem filter_scheduleKVs_cron {job : CronJob} {expr : Str} {stag : Option Int}
    (hs : job.schedule = .cron expr none stag) (hid : job.id ≠ []) (hexpr : expr ≠ []) :
    (scheduleKVs job).filter (fun kv => kv.2 ≠ []) =
      (str "id", job.id) :: (str "schedule_kind", str "cron") ::
        (str "schedule_expr", expr) :: optNumKV (str "schedule_stagger_ms") stag := by
  rw [scheduleKVs_cron hs]
  rw [List.filter_cons_of_pos (by simpa using hid), List.filter_cons_of_pos (by decide),
    List.filter_cons_of_pos (by simpa using hexpr), filter_optNumKV]

theorem M_sch_kind_at {job : CronJob} {mdel : List (Str × Str)} {a : Str}
    (hs : job.schedule = .atTime a) (hid : job.id ≠ []) (hd : delKeysOk mdel) :
    metaGet (entryMetaOf job mdel) (str "schedule_kind") = some (str "at") := by
  rw [metaGet_M_in_m3 job mdel (str "schedule_kind") (by decide), skip_mdel hd (by decide),
    skip_m2 (by decide), skip_m1 (by decide)]
  rw [filter_scheduleKVs_at hs hid]
  rw [metaGet_cons, metaGet_cons,
    skip_single (show ¬ str "id" = str "schedule_kind" by decide),
    skip_optTruthy (show ¬ str "schedule_at" = str "schedule_kind" by decide),
    metaGet_self_single]
  rfl

theorem M_sch_at {job : CronJob} {mdel : List (Str × Str)} {a : Str}
    (hs : job.schedule = .atTime a) (hid : job.id ≠ []) (hd : delKeysOk mdel) :
    metaGet (entryMetaOf job mdel) (str "schedule_at") =
      metaGet (optTruthyKV (str "schedule_at") (some a)) (str "schedule_at") := by
  rw [metaGet_M_in_m3 job mdel (str "schedule_at") (by decide), skip_mdel hd (by decide),
    skip_m2 (by decide), skip_m1 (by decide)]
  rw [filter_scheduleKVs_at hs hid]
  rw [metaGet_cons, metaGet_cons,
    skip_single (show ¬ str "id" = str "schedule_at" by decide),
    skip_single (show ¬ str "schedule_kind" = str "schedule_at" by decide)]
  cases hm : metaGet (optTruthyKV (str "schedule_at") (some a)) (str "schedule_at") <;> rfl

theorem M_sch_kind_every {job : CronJob} {mdel : List (Str × Str)} {ms : Int}
    {anchor : Option Int}
    (hs : job.schedule = .every ms anchor) (hid : job.id ≠ []) (hd : delKeysOk mdel) :
    metaGet (entryMetaOf job mdel) (str "schedule_kind") = some (str "every") := by
  rw [metaGet_M_in_m3 job mdel (str "schedule_kind") (by decide), skip_mdel hd (by decide),
    skip_m2 (by decide), skip_m1 (by decide)]
  rw [filter_scheduleKVs_every hs hid]
  rw [metaGet_cons, metaGet_cons, metaGet_cons,
    skip_single (show ¬ str "id" = str "schedule_kind" by decide),
    skip_single (show ¬ str "schedule_every_ms" = str "schedule_kind" by decide),
    skip_optNum (show ¬ str "schedule_anchor_ms" = str "schedule_kind" by decide),
    metaGet_self_single]
  rfl

theorem M_sch_every_ms {job : CronJob} {mdel : List (Str × Str)} {ms : Int}
    {anchor : Option Int}
    (hs : job.schedule = .every ms anchor) (hid : job.id ≠ []) (hd : delKeysOk mdel) :
    metaGet (entryMetaOf job mdel) (str "schedule_every_ms") = some (intToStr ms) := by
  rw [metaGet_M_in_m3 job mdel (str "schedule_every_ms") (by decide),
    skip_mdel hd (by decide), skip_m2 (by decide), skip_m1 (by decide)]
  rw [filter_scheduleKVs_every hs hid]
  rw [metaGet_cons, metaGet_cons, metaGet_cons,
    skip_single (show ¬ str "id" = str "schedule_every_ms" by decide),
    skip_single (show ¬ str "schedule_kind" = str "schedule_every_ms" by decide),
    skip_optNum (show ¬ str "schedule_anchor_ms" = str "schedule_every_ms" by decide),
    metaGet_self_single]
  rfl

theorem M_sch_anchor {job : CronJob} {mdel : List (Str × Str)} {ms : Int}
    {anchor : Option Int}
    (hs : job.schedule = .every ms anchor) (hid : job.id ≠ []) (hd : delKeysOk mdel) :
    metaGet (entryMetaOf job mdel) (str "schedule_anchor_ms") =
      metaGet (optNumKV (str "schedule_anchor_ms") anchor) (str "schedule_anchor_ms") := by
  rw [metaGet_M_in_m3 job mdel (str "schedule_anchor_ms") (by decide),
    skip_mdel hd (by decide), skip_m2 (by decide), skip_m1 (by decide)]
  rw [filter_scheduleKVs_every hs hid]
  rw [metaGet_cons, metaGet_cons, metaGet_cons,
    skip_single (show ¬ str "id" = str "schedule_anchor_ms" by decide),
    skip_single (show ¬ str "schedule_kind" = str "schedule_anchor_ms" by decide),
    skip_single (show ¬ str "schedule_every_ms" = str "schedule_anchor_ms" by decide)]
  cases hm : metaGet (optNumKV (str "schedule_anchor_ms") anchor) (str "schedule_anchor_ms")
    <;> rfl

theorem M_sch_kind_cron {job : CronJob} {mdel : List (Str × Str)} {expr : Str}
    {stag : Option Int}
    (hs : job.schedule = .cron expr none stag) (hid : job.id ≠ []) (hexpr : expr ≠ [])
    (hd : delKeysOk mdel) :
    metaGet (entryMetaOf job mdel) (str "schedule_kind") = some (str "cron") := by
  rw [metaGet_M_in_m3 job mdel (str "schedule_kind") (by decide), skip_mdel hd (by decide),
    skip_m2 (by decide), skip_m1 (by decide)]
  rw [filter_scheduleKVs_cron hs hid hexpr]
  rw [metaGet_cons, metaGet_cons, metaGet_cons,
    skip_single (show ¬ str "id" = str "schedule_kind" by decide),
    skip_single (show ¬ str "schedule_expr" = str "schedule_kind" by decide),
    skip_optNum (show ¬ str "schedule_stagger_ms" = str "schedule_kind" by decide),
    metaGet_self_single]
  rfl

theorem M_sch_expr {job : CronJob} {mdel : List (Str × Str)} {expr : Str}
    {stag : Option Int}
    (hs : job.schedule = .cron expr none stag) (hid : job.id ≠ []) (hexpr : expr ≠ [])
    (hd : delKeysOk mdel) :
    metaGet (entryMetaOf job mdel) (str "schedule_expr") = some expr := by
  rw [metaGet_M_in_m3 job mdel (str "schedule_expr") (by decide), skip_mdel hd (by decide),
    skip_m2 (by decide), skip_m1 (by decide)]
  rw [filter_scheduleKVs_cron hs hid hexpr]
  rw [metaGet_cons, metaGet_cons, metaGet_cons,
    skip_single (show ¬ str "id" = str "schedule_expr" by decide),
    skip_single (show ¬ str "schedule_kind" = str "schedule_expr" by decide),
    skip_optNum (show ¬ str "schedule_stagger_ms" = str "schedule_expr" by decide),
    metaGet_self_single]
  rfl

theorem M_sch_stagger {job : CronJob} {mdel : List (Str × Str)} {expr : Str}
    {stag : Option Int}
    (hs : job.schedule = .cron expr none stag) (hid : job.id ≠ []) (hexpr : expr ≠ [])
    (hd : delKeysOk mdel) :
    metaGet (entryMetaOf job mdel) (str "schedule_stagger_ms") =
      metaGet (optNumKV (str "schedule_stagger_ms") stag) (str "schedule_stagger_ms") := by
  rw [metaGet_M_in_m3 job mdel (str "schedule_stagger_ms") (by decide),
    skip_mdel hd (by decide), skip_m2 (by decide), skip_m1 (by decide)]
  rw [filter_scheduleKVs_cron hs hid hexpr]
  rw [metaGet_cons, metaGet_cons, metaGet_cons,
    skip_single (show ¬ str "id" = str "schedule_stagger_ms" by decide),
    skip_single (show ¬ str "schedule_kind" = str "schedule_stagger_ms" by decide),
    skip_single (show ¬ str "schedule_expr" = str "schedule_stagger_ms" by decide)]
  cases hm : metaGet (optNumKV (str "schedule_stagger_ms") stag) (str "schedule_stagger_ms")
    <;> rfl

theorem M_sch_tz_cron {job : CronJob} {mdel : List (Str × Str)} {expr : Str}
    {stag : Option Int}
    (hs : job.schedule = .cron expr none stag) (hid : job.id ≠ []) (hexpr : expr ≠ [])
    (hd : delKeysOk mdel) :
    metaGet (entryMetaOf job mdel) (str "schedule_tz") = none := by
  rw [metaGet_M_in_m3 job mdel (str "schedule_tz") (by decide), skip_mdel hd (by decide),
    skip_m2 (by decide), skip_m1 (by decide)]
  rw [filter_scheduleKVs_cron hs hid hexpr]
  rw [metaGet_cons, metaGet_cons, metaGet_cons,
    skip_single (show ¬ str "id" = str "schedule_tz" by decide),
    skip_single (show ¬ str "schedule_kind" = str "schedule_tz" by decide),
    skip_single (show ¬ str "schedule_expr" = str "schedule_tz" by decide),
    skip_optNum (show ¬ str "schedule_stagger_ms" = str "schedule_tz" by decide)]
  rfl

theorem resolveSchedule_at {job : CronJob} {mdel : List (Str × Str)} {a : Str}
    {ent : ParsedTaggedEntry}
    (hs : job.schedule = .atTime a) (hid : job.id ≠ []) (hd : delKeysOk mdel)
    (ha : a ≠ []) :
    resolveSchedule (entryMetaOf job mdel) ent = some job.schedule := by
  simp only [resolveSchedule]
  rw [M_sch_kind_at hs hid hd]
  rw [show (some (str "at")).getD (str "cron") = str "at" from rfl]
  rw [if_pos rfl]
  rw [M_sch_at hs hid hd, optTruthy_getD]
  rw [if_neg ha, hs]

theorem resolveSchedule_every {job : CronJob} {mdel : List (Str × Str)} {ms : Int}
    {ent : ParsedTaggedEntry}
    (hs : job.schedule = .every ms none) (hid : job.id ≠ []) (hd : delKeysOk mdel)
    (hms : 0 < ms) :
    resolveSchedule (entryMetaOf job mdel) ent = some job.schedule := by
  simp only [resolveSchedule]
  rw [M_sch_kind_every hs hid hd]
  rw [show (some (str "every")).getD (str "cron") = str "every" from rfl]
  rw [if_neg (by decide), if_pos rfl]
  rw [M_sch_every_ms hs hid hd]
  rw [show (some (intToStr ms)).getD [] = intToStr ms from rfl, jsParseInt_intToStr]
  show (if ms ≤ 0 then none
    else some (CronSchedule.every ms
      (jsOptNum (metaGet (entryMetaOf job mdel) (str "schedule_anchor_ms"))))) =
    some job.schedule
  rw [if_neg (by omega)]
  rw [M_sch_anchor hs hid hd]
  rw [show jsOptNum (metaGet (optNumKV (str "schedule_anchor_ms") (none : Option Int))
    (str "schedule_anchor_ms")) = (none : Option Int) from rfl]
  rw [hs]

theorem resolveSchedule_cron {job : CronJob} {mdel : List (Str × Str)} {expr : Str}
    {stag : Option Int} {ent : ParsedTaggedEntry}
    (hs : job.schedule = .cron expr none stag) (hid : job.id ≠ []) (hd : delKeysOk mdel)
    (hexpr : expr ≠ []) (htz : ent.scheduleTz = none) :
    resolveSchedule (entryMetaOf job mdel) ent = some job.schedule := by
  simp only [resolveSchedule]
  rw [M_sch_kind_cron hs hid hexpr hd]
  rw [show (some (str "cron")).getD (str "cron") = str "cron" from rfl]
  rw [if_neg (by decide), if_neg (by decide)]
  rw [M_sch_expr hs hid hexpr hd]
  rw [show (some expr).getD (ent.scheduleExpr.getD []) = expr from rfl]
  rw [if_neg hexpr]
  rw [M_sch_tz_cron hs hid hexpr hd]
  rw [show ((none : Option Str).getD []) = ([] : Str) from rfl]
  rw [if_neg (show ¬ ([] : Str) ≠ [] from fun h => h rfl)]
  rw [htz]
  rw [M_sch_stagger hs hid hexpr hd, optNum_roundtrip, hs]

theorem buildJob_canonical (cn : CronJob → Int → Option Int) (now : Int)
    {e : ParsedTaggedEntry} {J : CronJob} {mdel : List (Str × Str)}
    (hmeta : e.meta = entryMetaOf J mdel) (hd : delKeysOk mdel)
    (hidt : jsTrim J.id = J.id) (hidne : ¬ J.id = [])
    (hname : J.name ≠ []) (hst : J.sessionTarget ≠ []) (hwm : J.wakeMode ≠ [])
    (hdesc : J.description ≠ some []) (hagent : J.agentId ≠ some [])
    (hskey : J.sessionKey ≠ some []) (hdar : J.deleteAfterRun ≠ some false)
    (hca : ¬ J.createdAtMs = 0) (hua : ¬ J.updatedAtMs = 0)
    (hsched : resolveSchedule (entryMetaOf J mdel) e = some J.schedule)
    (hpay : (if (metaGet (entryMetaOf J mdel) (str "payload_kind")).getD (str "systemEvent") =
        str "agentTurn"
      then CronPayload.agentTurn {
          message := (metaGet (entryMetaOf J mdel) (str "payload_message")).getD []
          model := jsOptStrOrUndef (metaGet (entryMetaOf J mdel) (str "payload_model"))
          thinking := jsOptStrOrUndef (metaGet (entryMetaOf J mdel) (str "payload_thinking"))
          timeoutSeconds :=
            jsOptNum (metaGet (entryMetaOf J mdel) (str "payload_timeout_seconds"))
          allowUnsafeExternalContent := trueFlag
            (metaGet (entryMetaOf J mdel) (str "payload_allow_unsafe_external_content"))
          deliver := trueFlag (metaGet (entryMetaOf J mdel) (str "payload_deliver"))
          channel := jsOptStrOrUndef (metaGet (entryMetaOf J mdel) (str "payload_channel"))
          toAddr := jsOptStrOrUndef (metaGet (entryMetaOf J mdel) (str "payload_to"))
          bestEffortDeliver :=
            trueFlag (metaGet (entryMetaOf J mdel) (str "payload_best_effort_deliver")) }
      else CronPayload.systemEvent ((metaGet (entryMetaOf J mdel) (str "payload_text")).getD
        ((metaGet (entryMetaOf J mdel) (str "payload_message")).getD []))) = J.payload)
    (hdel : (if (metaGet (entryMetaOf J mdel) (str "delivery_mode")).getD (str "none") =
        str "none" then none
      else some ({ mode := (metaGet (entryMetaOf J mdel) (str "delivery_mode")).getD
                     (str "none")
                   channel := jsOptStrOrUndef
                     (metaGet (entryMetaOf J mdel) (str "delivery_channel"))
                   toAddr := jsOptStrOrUndef (metaGet (entryMetaOf J mdel) (str "delivery_to"))
                   bestEffort := trueFlag
                     (metaGet (entryMetaOf J mdel) (str "delivery_best_effort")) }
                 : CronDelivery)) = J.delivery)
    (hen : (if e.scheduleDisabled = some true then false
        else (metaGet (entryMetaOf J mdel) (str "enabled") ≠ some (str "false") : Bool)) =
      J.enabled) :
    buildJobFromEntry cn now e =
      some (if J.enabled then
        { J with state := { nextRunAtMs := cn { J with state := {} } now } }
      else { J with state := {} }) := by
  refine buildJobFromEntry_eq cn now e J ?_ hidne ?_ ?_ ?_ ?_ ?_ ?_ ?_ ?_ ?_ ?_ ?_ ?_ ?_
  · rw [hmeta, metaGet_M_id]; exact hidt
  · rw [hmeta]; exact hsched
  · rw [hmeta]; exact hpay
  · rw [hmeta]; exact hdel
  · rw [hmeta]; exact hen
  · rw [hmeta, M_agent_id hidne hname hst hwm hd]; exact optTruthy_roundtrip hagent
  · rw [hmeta, M_session_key hidne hname hst hwm hd]; exact optTruthy_roundtrip hskey
  · rw [hmeta, M_name hidne hname hst hwm hd]; rfl
  · rw [hmeta, M_description hidne hname hst hwm hd]; exact optTruthy_roundtrip hdesc
  · rw [hmeta, M_delete_after_run hidne hname hst hwm hd]; exact trueFlag_roundtrip hdar
  · rw [hmeta, M_created hidne hname hst hwm hd]; exact numOrNow_intToStr hca
  · rw [hmeta, M_updated hidne hname hst hwm hd]; exact numOrNow_intToStr hua
  · rw [hmeta, M_session_target hidne hname hst hwm hd]; rfl
  · rw [hmeta, M_wake_mode hidne hname hst hwm hd]; rfl

theorem decode_of_entry {cn : CronJob → Int → Option Int} {now : Int} {lines : List Str}
    {e : ParsedTaggedEntry} {J2 : CronJob}
    (hfind : findTaggedEntries lines = ([e], []))
    (hbuild : buildJobFromEntry cn now e = some J2) :
    decodeJobs cn now lines = ([J2], []) := by
  simp only [decodeJobs]
  rw [hfind]
  show (List.filterMap (buildJobFromEntry cn now) [e], ([] : List Str)) = ([J2], [])
  rw [List.filterMap_cons, hbuild]
  rfl

theorem goodKeys_base (J : CronJob) : ∀ kv ∈ baseKVs J, goodKey kv.1 := by
  intro kv hkv
  rcases baseKVs_keys J kv hkv with g | g | g | g | g | g | g | g | g | g | g <;>
    rw [g] <;> exact ⟨by decide, by decide⟩

theorem goodKeys_payload (J : CronJob) : ∀ kv ∈ payloadKVs J, goodKey kv.1 := by
  intro kv hkv
  rcases payloadKVs_keys J kv hkv with g | g | g | g | g | g | g | g | g | g | g | g <;>
    rw [g] <;> exact ⟨by decide, by decide⟩

theorem goodKeys_delivery (J : CronJob) (dv : CronDelivery) :
    ∀ kv ∈ deliveryKVs J dv, goodKey kv.1 := by
  intro kv hkv
  rcases deliveryKVs_keys J dv kv hkv with g | g | g | g | g <;> rw [g] <;>
    exact ⟨by decide, by decide⟩

theorem goodKeys_schedule (J : CronJob) : ∀ kv ∈ scheduleKVs J, goodKey kv.1 := by
  intro kv hkv
  rcases scheduleKVs_keys J kv hkv with g | g | g | g | g | g | g | g <;>
    rw [g] <;> exact ⟨by decide, by decide⟩

theorem tokenParts_ne_of_mem {kvs : List (Str × Str)} {kv : Str × Str}
    (h : kv ∈ kvs) (hv : kv.2 ≠ []) : tokenParts kvs ≠ [] := by
  unfold tokenParts
  intro hnil
  rw [List.map_eq_nil] at hnil
  have hmem : kv ∈ kvs.filter (fun x => x.2 ≠ []) :=
    List.mem_filter.mpr ⟨h, by simpa using hv⟩
  rw [hnil] at hmem
  exact absurd hmem (List.not_mem_nil kv)

theorem tokenParts_base_ne (J : CronJob) (hid : J.id ≠ []) : tokenParts (baseKVs J) ≠ [] :=
  @tokenParts_ne_of_mem _ (str "id", J.id) (by unfold baseKVs; simp) hid

theorem tokenParts_payload_ne (J : CronJob) (hid : J.id ≠ []) :
    tokenParts (payloadKVs J) ≠ [] := by
  refine @tokenParts_ne_of_mem _ (str "id", J.id) ?_ hid
  unfold payloadKVs
  match J.payload with
  | .agentTurn p => simp
  | .systemEvent text => simp

theorem tokenParts_delivery_ne (J : CronJob) (dv : CronDelivery) (hid : J.id ≠ []) :
    tokenParts (deliveryKVs J dv) ≠ [] :=
  @tokenParts_ne_of_mem _ (str "id", J.id) (by unfold deliveryKVs; simp) hid

theorem tokenParts_schedule_ne (J : CronJob) (hid : J.id ≠ []) :
    tokenParts (scheduleKVs J) ≠ [] :=
  @tokenParts_ne_of_mem _ (str "id", J.id) (by unfold scheduleKVs; simp) hid

theorem buildTaggedLine_trim {kvs : List (Str × Str)} (hk : ∀ kv ∈ kvs, goodKey kv.1)
    (hne : tokenParts kvs ≠ []) :
    jsTrim (buildTaggedLine kvs) = buildTaggedLine kvs := by
  have hparts_ne := fun p hp => @tokenParts_ne_nil kvs p hp
  rw [buildTaggedLine_shape hk hne]
  apply jsTrim_eq_self
  · intro c hc
    rw [show (TAGP ++ ' ' :: joinSep (str " ") (tokenParts kvs)).head? = some '#' from rfl]
      at hc
    rw [← Option.some_inj.mp hc]
    rfl
  · intro c hc
    rw [List.getLast?_append_of_ne_nil _ (by simp)] at hc
    rw [show (' ' :: joinSep (str " ") (tokenParts kvs) : Str) =
      [' '] ++ joinSep (str " ") (tokenParts kvs) from rfl] at hc
    rw [List.getLast?_append_of_ne_nil _ (joinSep_parts_ne_nil hne hparts_ne)] at hc
    obtain ⟨p, hp, hlast⟩ := joinSep_getLast_mem hne hparts_ne
    rw [hlast] at hc
    exact tokenParts_ws_free hk p hp c (List.mem_of_mem_getLast? hc)

theorem jsIncludes_build {kvs : List (Str × Str)} (hk : ∀ kv ∈ kvs, goodKey kv.1)
    (hne : tokenParts kvs ≠ []) :
    jsIncludes (buildTaggedLine kvs) TAGP = true := by
  rw [buildTaggedLine_shape hk hne]
  exact jsIncludes_iff.mpr ⟨[], ' ' :: joinSep (str " ") (tokenParts kvs), by simp⟩

theorem startsCronTz_build {kvs : List (Str × Str)} (hk : ∀ kv ∈ kvs, goodKey kv.1)
    (hne : tokenParts kvs ≠ []) :
    jsStartsWith (buildTaggedLine kvs) (str "CRON_TZ=") = false := by
  rw [buildTaggedLine_shape hk hne]
  rfl

theorem metaGet_base7_id (job : CronJob) :
    metaGet (base7 job) (str "id") = some job.id := by
  unfold metaGet
  rw [base7_reverse]
  rw [List.find?_cons_of_neg _ (by exact find_neg_helper rfl)]
  rw [List.find?_cons_of_neg _ (by exact find_neg_helper rfl)]
  rw [List.find?_cons_of_neg _ (by exact find_neg_helper rfl)]
  rw [List.find?_cons_of_neg _ (by exact find_neg_helper rfl)]
  rw [List.find?_cons_of_neg _ (by exact find_neg_helper rfl)]
  rw [List.find?_cons_of_neg _ (by exact find_neg_helper rfl)]
  rw [List.find?_cons_of_pos _ (by exact beq_self_eq_true _)]
  rfl

theorem metaGet_m1f_id (J : CronJob) (hid : J.id ≠ []) (hname : J.name ≠ [])
    (hst : J.sessionTarget ≠ []) (hwm : J.wakeMode ≠ []) :
    metaGet ((baseKVs J).filter (fun kv => kv.2 ≠ [])) (str "id") = some J.id := by
  rw [metaGet_m1_split (str "id") hid hname hst hwm,
    skip_optBool (show ¬ str "delete_after_run" = str "id" by decide),
    skip_optTruthy (show ¬ str "session_key" = str "id" by decide),
    skip_optTruthy (show ¬ str "agent_id" = str "id" by decide),
    skip_optTruthy (show ¬ str "description" = str "id" by decide),
    metaGet_base7_id]
  rfl

theorem metaGet_m2f_id (J : CronJob) (hid : J.id ≠ []) :
    metaGet ((payloadKVs J).filter (fun kv => kv.2 ≠ [])) (str "id") = some J.id := by
  match hp : J.payload with
  | .agentTurn p =>
    rw [filter_payloadKVs_agent hp hid]
    rw [metaGet_append, metaGet_append, metaGet_append, metaGet_append, metaGet_append,
      metaGet_append, metaGet_append, metaGet_append]
    rw [skip_optBool (show ¬ str "payload_best_effort_deliver" = str "id" by decide),
      skip_optTruthy (show ¬ str "payload_to" = str "id" by decide),
      skip_optTruthy (show ¬ str "payload_channel" = str "id" by decide),
      skip_optBool (show ¬ str "payload_deliver" = str "id" by decide),
      skip_optBool (show ¬ str "payload_allow_unsafe_external_content" = str "id" by decide),
      skip_optNum (show ¬ str "payload_timeout_seconds" = str "id" by decide),
      skip_optTruthy (show ¬ str "payload_thinking" = str "id" by decide),
      skip_optTruthy (show ¬ str "payload_model" = str "id" by decide)]
    rw [metaGet_cons, metaGet_cons,
      skip_optTruthy (show ¬ str "payload_message" = str "id" by decide),
      skip_single (show ¬ str "payload_kind" = str "id" by decide),
      metaGet_self_single]
    rfl
  | .systemEvent text =>
    rw [filter_payloadKVs_system hp hid]
    rw [metaGet_cons, metaGet_cons,
      skip_optTruthy (show ¬ str "payload_text" = str "id" by decide),
      skip_single (show ¬ str "payload_kind" = str "id" by decide),
      metaGet_self_single]
    rfl

theorem metaGet_mDf_id (J : CronJob) (dv : CronDelivery) (hid : J.id ≠ [])
    (hmode : dv.mode ≠ []) :
    metaGet ((deliveryKVs J dv).filter (fun kv => kv.2 ≠ [])) (str "id") = some J.id := by
  rw [filter_deliveryKVs hid hmode]
  rw [metaGet_append, metaGet_append, metaGet_append]
  rw [skip_optBool (show ¬ str "delivery_best_effort" = str "id" by decide),
    skip_optTruthy (show ¬ str "delivery_to" = str "id" by decide),
    skip_optTruthy (show ¬ str "delivery_channel" = str "id" by decide)]
  rw [metaGet_cons, skip_single (show ¬ str "delivery_mode" = str "id" by decide),
    metaGet_self_single]
  rfl

theorem metaGet_m3f_id (J : CronJob) (hid : J.id ≠ []) :
    metaGet ((scheduleKVs J).filter (fun kv => kv.2 ≠ [])) (str "id") = some J.id := by
  match hs : J.schedule with
  | .atTime a =>
    rw [filter_scheduleKVs_at hs hid]
    rw [metaGet_cons, metaGet_cons,
      skip_optTruthy (show ¬ str "schedule_at" = str "id" by decide),
      skip_single (show ¬ str "schedule_kind" = str "id" by decide),
      metaGet_self_single]
    rfl
  | .every ms anchor =>
    rw [filter_scheduleKVs_every hs hid]
    rw [metaGet_cons, metaGet_cons, metaGet_cons,
      skip_optNum (show ¬ str "schedule_anchor_ms" = str "id" by decide),
      skip_single (show ¬ str "schedule_every_ms" = str "id" by decide),
      skip_single (show ¬ str "schedule_kind" = str "id" by decide),
      metaGet_self_single]
    rfl
  | .cron expr tz stag =>
    have hsk : scheduleKVs J = (str "id", J.id) :: (str "schedule_kind", str "cron") ::
        ((str "schedule_expr", expr) ::
          (optTruthyKV (str "schedule_tz") tz ++
            optNumKV (str "schedule_stagger_ms") stag)) := by
      unfold scheduleKVs
      rw [hs]
      rfl
    have hseg : metaGet (((str "schedule_expr", expr) ::
        (optTruthyKV (str "schedule_tz") tz ++
          optNumKV (str "schedule_stagger_ms") stag)).filter (fun kv => kv.2 ≠ []))
        (str "id") = none :=
      metaGet_seg_ne (fun kv hkv => by
        have h2 := List.mem_of_mem_filter hkv
        simp only [List.mem_cons, List.mem_append] at h2
        rcases h2 with rfl | h3 | h3
        · exact (show ¬ str "schedule_expr" = str "id" by decide)
        · rw [optTruthyKV_keys _ _ kv h3]; decide
        · rw [optNumKV_keys _ _ kv h3]; decide)
    rw [hsk, List.filter_cons_of_pos (by simpa using hid), List.filter_cons_of_pos (by decide)]
    rw [metaGet_cons, metaGet_cons, metaGet_self_single,
      skip_single (show ¬ str "schedule_kind" = str "id" by decide), hseg]
    rfl

theorem execLineOf_ne_nil (job : CronJob) (e : Str) : execLineOf job e ≠ [] := by
  rw [execLine_decomp]
  simp

theorem execLineOf_getLast {job : CronJob} {e : Str} (hidne : job.id ≠ []) :
    ∀ c, (execLineOf job e).getLast? = some c → isWsChar c = false := by
  intro c hc
  rw [execLine_decomp] at hc
  rw [List.getLast?_append_of_ne_nil _ (by simp [TAGP, str])] at hc
  rw [List.getLast?_append_of_ne_nil _ (by simp [str])] at hc
  rw [show str " id=" ++ encodeValue job.id =
    (str " id=") ++ encodeValue job.id from rfl] at hc
  rw [List.getLast?_append_of_ne_nil _ (encodeValue_ne_nil hidne)] at hc
  exact encodeValue_ws_free c (List.mem_of_mem_getLast? hc)

theorem execLineOf_head {job : CronJob} {e : Str} (hene : e ≠ []) :
    (execLineOf job e).head? = e.head? := by
  rw [execLine_decomp]
  rw [List.head?_append_of_ne_nil _ (by simp [hene])]
  rw [List.head?_append_of_ne_nil _ (by simp [hene])]
  rw [List.head?_append_of_ne_nil _ (by simp [hene])]
  rw [List.head?_append_of_ne_nil _ hene]

theorem jsTrim_exec_en {job : CronJob} {e : Str} (hene : e ≠ [])
    (hehead : ∀ c, e.head? = some c → isWsChar c = false) (hidne : job.id ≠ []) :
    jsTrim (execLineOf job e) = execLineOf job e := by
  apply jsTrim_eq_self
  · intro c hc
    rw [execLineOf_head hene] at hc
    exact hehead c hc
  · exact execLineOf_getLast hidne

theorem jsTrim_exec_dis {job : CronJob} {e : Str} (hidne : job.id ≠ []) :
    jsTrim (str "# " ++ execLineOf job e) = str "# " ++ execLineOf job e := by
  apply jsTrim_eq_self
  · intro c hc
    rw [show (str "# " ++ execLineOf job e).head? = some '#' from rfl] at hc
    rw [← Option.some_inj.mp hc]
    rfl
  · intro c hc
    rw [List.getLast?_append_of_ne_nil _ (execLineOf_ne_nil job e)] at hc
    exact execLineOf_getLast hidne c hc

theorem jsIncludes_exec_en (job : CronJob) (e : Str) :
    jsIncludes (execLineOf job e) TAGP = true :=
  jsIncludes_iff.mpr ⟨e ++ (' ' :: CRON_COMMAND) ++ (' ' :: job.id) ++ [' '],
    str " id=" ++ encodeValue job.id, by rw [execLine_decomp]; simp⟩

theorem jsIncludes_exec_dis (job : CronJob) (e : Str) :
    jsIncludes (str "# " ++ execLineOf job e) TAGP = true :=
  jsIncludes_iff.mpr ⟨str "# " ++ (e ++ (' ' :: CRON_COMMAND) ++ (' ' :: job.id) ++ [' ']),
    str " id=" ++ encodeValue job.id, by rw [execLine_decomp]; simp⟩

theorem jsTrimStart_exec_en {job : CronJob} {e : Str} (hene : e ≠ [])
    (hehead : ∀ c, e.head? = some c → isWsChar c = false) :
    jsTrimStart (execLineOf job e) = execLineOf job e :=
  jsTrimStart_eq_self (fun c hc => hehead c (by rw [execLineOf_head hene] at hc; exact hc))

theorem jsTrimStart_exec_dis (job : CronJob) (e : Str) :
    jsTrimStart (str "# " ++ execLineOf job e) = str "# " ++ execLineOf job e :=
  jsTrimStart_eq_self (fun c hc => by
    rw [show (str "# " ++ execLineOf job e).head? = some '#' from rfl] at hc
    rw [← Option.some_inj.mp hc]
    rfl)

theorem startsHash_false {l : Str} {c : Char} (hh : l.head? = some c) (hc : ¬ c = '#') :
    jsStartsWith l (str "#") = false := by
  match l with
  | [] => exact Option.noConfusion hh
  | d :: t =>
    obtain rfl : d = c := Option.some_inj.mp hh
    show (('#' == d) && List.isPrefixOf [] t) = false
    rw [show ('#' == d) = false from beq_eq_false_iff_ne.mpr (fun h2 => hc h2.symm)]
    rfl

theorem startsHash_exec_en {job : CronJob} {e : Str} {c : Char} (hene : e ≠ [])
    (hh : e.head? = some c) (hc : ¬ c = '#') :
    jsStartsWith (execLineOf job e) (str "#") = false :=
  startsHash_false (by rw [execLineOf_head hene]; exact hh) hc

theorem startsHash_exec_dis (job : CronJob) (e : Str) :
    jsStartsWith (str "# " ++ execLineOf job e) (str "#") = true := rfl

theorem intToStr_head_facts {v : Int} {c : Char} (h : (intToStr v).head? = some c) :
    isWsChar c = false ∧ ¬ c = '#' := by
  unfold intToStr at h
  split at h
  · obtain rfl : '-' = c := Option.some_inj.mp h
    exact ⟨rfl, by decide⟩
  · exact natToStr_head_facts h

theorem resolveCrontab_cron_ok {off : Int} {expr : Str} {tz : Option Str}
    {stag : Option Int} {e : Str}
    (h : resolveCrontabSchedule off (.cron expr tz stag) = .ok e) :
    e = jsTrim expr ∧ jsTrim expr ≠ [] := by
  simp only [resolveCrontabSchedule] at h
  split at h
  · exact ScheduleResult.noConfusion h
  · next hne =>
    split at h
    · exact ScheduleResult.noConfusion h
    · split at h
      · exact ScheduleResult.noConfusion h
      · split at h
        · exact ScheduleResult.noConfusion h
        · split at h
          · exact ScheduleResult.noConfusion h
          · exact ⟨(ScheduleResult.ok.inj h).symm, hne⟩

theorem resolveCrontab_every_ok {off ms : Int} {anchor : Option Int} {e : Str}
    (h : resolveCrontabSchedule off (.every ms anchor) = .ok e) :
    0 < ms ∧ anchor = none ∧
      (e = str "*/" ++ intToStr (ms / 60000) ++ str " * * * *" ∨
       e = str "0 */" ++ intToStr (ms / 3600000) ++ str " * * *" ∨
       e = str "0 0 */" ++ intToStr (ms / 86400000) ++ str " * *") := by
  simp only [resolveCrontabSchedule] at h
  split at h
  · exact ScheduleResult.noConfusion h
  · next hpos =>
    split at h
    · exact ScheduleResult.noConfusion h
    · next hanch =>
      have hanc : anchor = none := Option.not_isSome_iff_eq_none.mp hanch
      split at h
      · exact ScheduleResult.noConfusion h
      · split at h
        · exact ScheduleResult.noConfusion h
        · split at h
          · exact ⟨by omega, hanc, Or.inl (ScheduleResult.ok.inj h).symm⟩
          · split at h
            · exact ⟨by omega, hanc, Or.inr (Or.inl (ScheduleResult.ok.inj h).symm)⟩
            · split at h
              · exact ⟨by omega, hanc, Or.inr (Or.inr (ScheduleResult.ok.inj h).symm)⟩
              · exact ScheduleResult.noConfusion h

theorem resolveCrontab_at_ok {off : Int} {a e : Str}
    (h : resolveCrontabSchedule off (.atTime a) = .ok e) :
    a ≠ [] ∧ ∃ t : Int, e = atExprOf off t := by
  simp only [resolveCrontabSchedule] at h
  split at h
  · exact ScheduleResult.noConfusion h
  · next t heq =>
    refine ⟨?_, ?_⟩
    · intro ha
      rw [ha, if_pos (show jsTrim ([] : Str) = [] from rfl)] at heq
      exact Option.noConfusion heq
    · exact ⟨_, (ScheduleResult.ok.inj h).symm⟩

theorem exprFacts_of_colon_free {e : Str} (hne : e ≠ []) (hc : ':' ∉ e)
    (hh : ∀ c, e.head? = some c → isWsChar c = false ∧ ¬ c = '#') : ExprFacts e := by
  refine ⟨hne, ?_, ?_, hh⟩
  · cases hi : jsIncludes e TAGP with
    | false => rfl
    | true => exact absurd (mem_of_includes hi ':' (by decide)) hc
  · cases hi : jsStartsWith e TAG with
    | false => rfl
    | true =>
      obtain ⟨r, hr⟩ := List.isPrefixOf_iff_prefix.mp hi
      exact absurd (hr ▸ List.mem_append_left r (show (':' : Char) ∈ TAG from by decide))
        hc

theorem atExpr_facts (off t : Int) : ExprFacts (atExprOf off t) := by
  unfold atExprOf
  refine exprFacts_of_colon_free ?_ ?_ ?_
  · simp [intToStr_ne_nil]
  · intro hc
    simp only [List.mem_append] at hc
    rcases hc with ((((((h | h) | h) | h) | h) | h) | h) | h
    · exact intToStr_no_colon _ h
    · exact absurd h (by decide)
    · exact intToStr_no_colon _ h
    · exact absurd h (by decide)
    · exact intToStr_no_colon _ h
    · exact absurd h (by decide)
    · exact intToStr_no_colon _ h
    · exact absurd h (by decide)
  · intro c hc
    rw [List.head?_append_of_ne_nil _ (by simp [intToStr_ne_nil])] at hc
    rw [List.head?_append_of_ne_nil _ (by simp [intToStr_ne_nil])] at hc
    rw [List.head?_append_of_ne_nil _ (by simp [intToStr_ne_nil])] at hc
    rw [List.head?_append_of_ne_nil _ (by simp [intToStr_ne_nil])] at hc
    rw [List.head?_append_of_ne_nil _ (by simp [intToStr_ne_nil])] at hc
    rw [List.head?_append_of_ne_nil _ (by simp [intToStr_ne_nil])] at hc
    rw [List.head?_append_of_ne_nil _ (intToStr_ne_nil _)] at hc
    exact intToStr_head_facts hc

theorem every_expr_facts {ms : Int} {e : Str}
    (h : e = str "*/" ++ intToStr (ms / 60000) ++ str " * * * *" ∨
      e = str "0 */" ++ intToStr (ms / 3600000) ++ str " * * *" ∨
      e = str "0 0 */" ++ intToStr (ms / 86400000) ++ str " * *") :
    ExprFacts e := by
  rcases h with rfl | rfl | rfl
  · refine exprFacts_of_colon_free (by simp [str]) ?_ ?_
    · intro hc
      simp only [List.mem_append] at hc
      rcases hc with (h | h) | h
      · exact absurd h (by decide)
      · exact intToStr_no_colon _ h
      · exact absurd h (by decide)
    · intro c hc
      rw [show ((str "*/" ++ intToStr (ms / 60000) ++ str " * * * *").head? :
        Option Char) = some '*' from by
        rw [List.head?_append_of_ne_nil _ (by simp [str])]
        rw [List.head?_append_of_ne_nil _ (by simp [str])]
        rfl] at hc
      rw [← Option.some_inj.mp hc]
      exact ⟨rfl, by decide⟩
  · refine exprFacts_of_colon_free (by simp [str]) ?_ ?_
    · intro hc
      simp only [List.mem_append] at hc
      rcases hc with (h | h) | h
      · exact absurd h (by decide)
      · exact intToStr_no_colon _ h
      · exact absurd h (by decide)
    · intro c hc
      rw [show ((str "0 */" ++ intToStr (ms / 3600000) ++ str " * * *").head? :
        Option Char) = some '0' from by
        rw [List.head?_append_of_ne_nil _ (by simp [str])]
        rw [List.head?_append_of_ne_nil _ (by simp [str])]
        rfl] at hc
      rw [← Option.some_inj.mp hc]
      exact ⟨rfl, by decide⟩
  · refine exprFacts_of_colon_free (by simp [str]) ?_ ?_
    · intro hc
      simp only [List.mem_append] at hc
      rcases hc with (h | h) | h
      · exact absurd h (by decide)
      · exact intToStr_no_colon _ h
      · exact absurd h (by decide)
    · intro c hc
      rw [show ((str "0 0 */" ++ intToStr (ms / 86400000) ++ str " * *").head? :
        Option Char) = some '0' from by
        rw [List.head?_append_of_ne_nil _ (by simp [str])]
        rw [List.head?_append_of_ne_nil _ (by simp [str])]
        rfl] at hc
      rw [← Option.some_inj.mp hc]
      exact ⟨rfl, by decide⟩

theorem jsTrimStart_head_ws {l : Str} {c : Char}
    (h : (jsTrimStart l).head? = some c) : isWsChar c = false := by
  induction l with
  | nil => exact Option.noConfusion h
  | cons d t ih =>
    by_cases hd : isWsChar d = true
    · rw [show jsTrimStart (d :: t) = jsTrimStart t from by
        unfold jsTrimStart
        rw [List.dropWhile_cons_of_pos hd]] at h
      exact ih h
    · rw [show jsTrimStart (d :: t) = d :: t from by
        unfold jsTrimStart
        rw [List.dropWhile_cons_of_neg hd]] at h
      rw [← Option.some_inj.mp h]
      exact Bool.not_eq_true _ ▸ (by simpa using hd)

theorem jsTrim_head_ws {l : Str} {c : Char}
    (h : (jsTrim l).head? = some c) : isWsChar c = false := by
  obtain ⟨t, ht⟩ := trimEnd_prefix (jsTrimStart l)
  have hne : jsTrim l ≠ [] := by
    intro h2
    rw [h2] at h
    exact Option.noConfusion h
  apply jsTrimStart_head_ws (l := l)
  rw [← ht, List.head?_append_of_ne_nil _ (show jsTrimEnd (jsTrimStart l) ≠ [] from hne)]
  exact h

theorem enabled_decode {J : CronJob} {mdel : List (Str × Str)}
    (hidne : J.id ≠ []) (hname : J.name ≠ []) (hst : J.sessionTarget ≠ [])
    (hwm : J.wakeMode ≠ []) (hd : delKeysOk mdel) :
    ((metaGet (entryMetaOf J mdel) (str "enabled") ≠ some (str "false") : Bool)) =
      J.enabled := by
  rw [M_enabled hidne hname hst hwm hd]
  cases J.enabled
  · decide
  · decide

theorem c1_entry_step (cn : CronJob → Int → Option Int) (now : Int)
    {J : CronJob} {mdel : List (Str × Str)} {E : ParsedTaggedEntry} {lines : List Str}
    (hfind : findTaggedEntries lines = ([E], []))
    (hmeta : E.meta = entryMetaOf J mdel) (hd : delKeysOk mdel)
    (hidt : jsTrim J.id = J.id) (hidne : ¬ J.id = [])
    (hname : J.name ≠ []) (hst : J.sessionTarget ≠ []) (hwm : J.wakeMode ≠ [])
    (hdesc : J.description ≠ some []) (hagent : J.agentId ≠ some [])
    (hskey : J.sessionKey ≠ some []) (hdar : J.deleteAfterRun ≠ some false)
    (hca : ¬ J.createdAtMs = 0) (hua : ¬ J.updatedAtMs = 0)
    (hsched : resolveSchedule (entryMetaOf J mdel) E = some J.schedule)
    (hpay : (if (metaGet (entryMetaOf J mdel) (str "payload_kind")).getD (str "systemEvent") =
        str "agentTurn"
      then CronPayload.agentTurn {
          message := (metaGet (entryMetaOf J mdel) (str "payload_message")).getD []
          model := jsOptStrOrUndef (metaGet (entryMetaOf J mdel) (str "payload_model"))
          thinking := jsOptStrOrUndef (metaGet (entryMetaOf J mdel) (str "payload_thinking"))
          timeoutSeconds :=
            jsOptNum (metaGet (entryMetaOf J mdel) (str "payload_timeout_seconds"))
          allowUnsafeExternalContent := trueFlag
            (metaGet (entryMetaOf J mdel) (str "payload_allow_unsafe_external_content"))
          deliver := trueFlag (metaGet (entryMetaOf J mdel) (str "payload_deliver"))
          channel := jsOptStrOrUndef (metaGet (entryMetaOf J mdel) (str "payload_channel"))
          toAddr := jsOptStrOrUndef (metaGet (entryMetaOf J mdel) (str "payload_to"))
          bestEffortDeliver :=
            trueFlag (metaGet (entryMetaOf J mdel) (str "payload_best_effort_deliver")) }
      else CronPayload.systemEvent ((metaGet (entryMetaOf J mdel) (str "payload_text")).getD
        ((metaGet (entryMetaOf J mdel) (str "payload_message")).getD []))) = J.payload)
    (hdel : (if (metaGet (entryMetaOf J mdel) (str "delivery_mode")).getD (str "none") =
        str "none" then none
      else some ({ mode := (metaGet (entryMetaOf J mdel) (str "delivery_mode")).getD
                     (str "none")
                   channel := jsOptStrOrUndef
                     (metaGet (entryMetaOf J mdel) (str "delivery_channel"))
                   toAddr := jsOptStrOrUndef (metaGet (entryMetaOf J mdel) (str "delivery_to"))
                   bestEffort := trueFlag
                     (metaGet (entryMetaOf J mdel) (str "delivery_best_effort")) }
                 : CronDelivery)) = J.delivery)
    (hen : (if E.scheduleDisabled = some true then false
        else (metaGet (entryMetaOf J mdel) (str "enabled") ≠ some (str "false") : Bool)) =
      J.enabled) :
    decodeJobs cn now lines =
      ([if J.enabled then
          { J with state := { nextRunAtMs := cn { J with state := {} } now } }
        else { J with state := {} }], []) :=
  decode_of_entry hfind
    (buildJob_canonical cn now hmeta hd hidt hidne hname hst hwm hdesc hagent hskey hdar
      hca hua hsched hpay hdel hen)

theorem c1_lines4 (cn : CronJob → Int → Option Int) (now : Int) {J : CronJob} {e : Str}
    (hidt : jsTrim J.id = J.id) (hidne : ¬ J.id = []) (hidinc : jsIncludes J.id TAGP = false)
    (hname : J.name ≠ []) (hst : J.sessionTarget ≠ []) (hwm : J.wakeMode ≠ [])
    (hdesc : J.description ≠ some []) (hagent : J.agentId ≠ some [])
    (hskey : J.sessionKey ≠ some []) (hdar : J.deleteAfterRun ≠ some false)
    (hca : ¬ J.createdAtMs = 0) (hua : ¬ J.updatedAtMs = 0)
    (hpay : (if (metaGet (entryMetaOf J []) (str "payload_kind")).getD (str "systemEvent") =
        str "agentTurn"
      then CronPayload.agentTurn {
          message := (metaGet (entryMetaOf J []) (str "payload_message")).getD []
          model := jsOptStrOrUndef (metaGet (entryMetaOf J []) (str "payload_model"))
          thinking := jsOptStrOrUndef (metaGet (entryMetaOf J []) (str "payload_thinking"))
          timeoutSeconds :=
            jsOptNum (metaGet (entryMetaOf J []) (str "payload_timeout_seconds"))
          allowUnsafeExternalContent := trueFlag
            (metaGet (entryMetaOf J []) (str "payload_allow_unsafe_external_content"))
          deliver := trueFlag (metaGet (entryMetaOf J []) (str "payload_deliver"))
          channel := jsOptStrOrUndef (metaGet (entryMetaOf J []) (str "payload_channel"))
          toAddr := jsOptStrOrUndef (metaGet (entryMetaOf J []) (str "payload_to"))
          bestEffortDeliver :=
            trueFlag (metaGet (entryMetaOf J []) (str "payload_best_effort_deliver")) }
      else CronPayload.systemEvent ((metaGet (entryMetaOf J []) (str "payload_text")).getD
        ((metaGet (entryMetaOf J []) (str "payload_message")).getD []))) = J.payload)
    (hdelnone : J.delivery = none)
    (hef : ExprFacts e)
    (hres : ∀ ent : ParsedTaggedEntry, ent.scheduleTz = none →
      resolveSchedule (entryMetaOf J []) ent = some J.schedule) :
    decodeJobs cn now
      [buildTaggedLine (baseKVs J), buildTaggedLine (payloadKVs J),
       buildTaggedLine (scheduleKVs J),
       if J.enabled then execLineOf J e else str "# " ++ execLineOf J e] =
      ([if J.enabled then
          { J with state := { nextRunAtMs := cn { J with state := {} } now } }
        else { J with state := {} }], []) := by
  obtain ⟨hene, heinc, hepre, hehead⟩ := hef
  have hk1 := goodKeys_base J
  have hn1 := tokenParts_base_ne J hidne
  have hk2 := goodKeys_payload J
  have hn2 := tokenParts_payload_ne J hidne
  have hk3 := goodKeys_schedule J
  have hn3 := tokenParts_schedule_ne J hidne
  have hdelv := delivery_decode_none hdelnone
  have hen0 := enabled_decode hidne hname hst hwm delKeysOk_nil
  cases hJe : J.enabled
  · -- disabled job: execution line carries the "# " prefix
    have hcore := findCore_four (buildTaggedLine_trim hk1 hn1) (jsIncludes_build hk1 hn1)
      (parseTaggedLine_build hk1 hn1) (metaGet_m1f_id J hidne hname hst hwm)
      (parseScheduleLine_build hk1 hn1)
      (buildTaggedLine_trim hk2 hn2) (jsIncludes_build hk2 hn2)
      (parseTaggedLine_build hk2 hn2) (metaGet_m2f_id J hidne)
      (parseScheduleLine_build hk2 hn2)
      (buildTaggedLine_trim hk3 hn3) (jsIncludes_build hk3 hn3)
      (parseTaggedLine_build hk3 hn3) (metaGet_m3f_id J hidne)
      (parseScheduleLine_build hk3 hn3)
      (jsTrim_exec_dis hidne) (jsIncludes_exec_dis J e)
      (parseTaggedLine_exec_dis heinc hidinc hidne hepre)
      (metaGet_self_single (str "id") J.id) hidne
    cases hps : parseScheduleLine (str "# " ++ execLineOf J e) with
    | none =>
      rw [hps] at hcore
      have hcore2 : findTaggedEntriesCore
          [buildTaggedLine (baseKVs J), buildTaggedLine (payloadKVs J),
           buildTaggedLine (scheduleKVs J), str "# " ++ execLineOf J e] =
          ([(⟨J.id,
              [] ++ (baseKVs J).filter (fun kv => kv.2 ≠ []) ++
          (payloadKVs J).filter (fun kv => kv.2 ≠ []) ++
          (scheduleKVs J).filter (fun kv => kv.2 ≠ []) ++ [(str "id", J.id)],
              none, none, none, none, none⟩ : ParsedTaggedEntry)], []) := hcore
      have hfind := findTaggedEntries_none_idx hcore2 rfl
      have hmeta : (⟨J.id,
          [] ++ (baseKVs J).filter (fun kv => kv.2 ≠ []) ++
          (payloadKVs J).filter (fun kv => kv.2 ≠ []) ++
          (scheduleKVs J).filter (fun kv => kv.2 ≠ []) ++ [(str "id", J.id)],
          none, none, none, none, none⟩ : ParsedTaggedEntry).meta = entryMetaOf J [] := by
        show [] ++ (baseKVs J).filter (fun kv => kv.2 ≠ []) ++
          (payloadKVs J).filter (fun kv => kv.2 ≠ []) ++
          (scheduleKVs J).filter (fun kv => kv.2 ≠ []) ++ [(str "id", J.id)] = entryMetaOf J []
        simp [entryMetaOf]
      have hen : (if (⟨J.id,
          [] ++ (baseKVs J).filter (fun kv => kv.2 ≠ []) ++
          (payloadKVs J).filter (fun kv => kv.2 ≠ []) ++
          (scheduleKVs J).filter (fun kv => kv.2 ≠ []) ++ [(str "id", J.id)],
          none, none, none, none, none⟩ :
            ParsedTaggedEntry).scheduleDisabled = some true then false
          else (metaGet (entryMetaOf J []) (str "enabled") ≠ some (str "false") : Bool)) =
          J.enabled := by
        rw [if_neg (show ¬ ((none : Option Bool) = some true) from fun hco =>
          Option.noConfusion hco)]
        exact hen0
      have hstep := c1_entry_step cn now hfind hmeta delKeysOk_nil
        hidt hidne hname hst hwm hdesc hagent hskey hdar hca hua
        (hres _ rfl) hpay hdelv hen
      rw [hJe] at hstep
      exact hstep
    | some si =>
      have hdis : si.disabled = true := by
        have h2 := parseScheduleLine_disabled hps
        rw [jsTrimStart_exec_dis J e, startsHash_exec_dis J e] at h2
        exact h2
      rw [hps] at hcore
      have hcore2 : findTaggedEntriesCore
          [buildTaggedLine (baseKVs J), buildTaggedLine (payloadKVs J),
           buildTaggedLine (scheduleKVs J), str "# " ++ execLineOf J e] =
          ([(⟨J.id,
              [] ++ (baseKVs J).filter (fun kv => kv.2 ≠ []) ++
          (payloadKVs J).filter (fun kv => kv.2 ≠ []) ++
          (scheduleKVs J).filter (fun kv => kv.2 ≠ []) ++ [(str "id", J.id)],
              some (str "# " ++ execLineOf J e), some si.disabled, some si.expr, none,
              some 3⟩ : ParsedTaggedEntry)], []) := hcore
      have hfind := findTaggedEntries_some_idx hcore2 rfl (by decide) rfl
        (show jsStartsWith (jsTrim (buildTaggedLine (scheduleKVs J)))
            (str "CRON_TZ=") = false from by
          rw [buildTaggedLine_trim hk3 hn3]
          exact startsCronTz_build hk3 hn3)
      have hmeta : (⟨J.id,
          [] ++ (baseKVs J).filter (fun kv => kv.2 ≠ []) ++
          (payloadKVs J).filter (fun kv => kv.2 ≠ []) ++
          (scheduleKVs J).filter (fun kv => kv.2 ≠ []) ++ [(str "id", J.id)],
          some (str "# " ++ execLineOf J e), some si.disabled, some si.expr, none,
          some 3⟩ : ParsedTaggedEntry).meta = entryMetaOf J [] := by
        show [] ++ (baseKVs J).filter (fun kv => kv.2 ≠ []) ++
          (payloadKVs J).filter (fun kv => kv.2 ≠ []) ++
          (scheduleKVs J).filter (fun kv => kv.2 ≠ []) ++ [(str "id", J.id)] = entryMetaOf J []
        simp [entryMetaOf]
      have hen : (if (⟨J.id,
          [] ++ (baseKVs J).filter (fun kv => kv.2 ≠ []) ++
          (payloadKVs J).filter (fun kv => kv.2 ≠ []) ++
          (scheduleKVs J).filter (fun kv => kv.2 ≠ []) ++ [(str "id", J.id)],
          some (str "# " ++ execLineOf J e), some si.disabled, some si.expr, none,
          some 3⟩ : ParsedTaggedEntry).scheduleDisabled = some true then false
          else (metaGet (entryMetaOf J []) (str "enabled") ≠ some (str "false") : Bool)) =
          J.enabled := by
        rw [if_pos (show some si.disabled = some true from by rw [hdis])]
        exact hJe.symm
      have hstep := c1_entry_step cn now hfind hmeta delKeysOk_nil
        hidt hidne hname hst hwm hdesc hagent hskey hdar hca hua
        (hres _ rfl) hpay hdelv hen
      rw [hJe] at hstep
      exact hstep
  · -- enabled job: plain execution line
    have hcore := findCore_four (buildTaggedLine_trim hk1 hn1) (jsIncludes_build hk1 hn1)
      (parseTaggedLine_build hk1 hn1) (metaGet_m1f_id J hidne hname hst hwm)
      (parseScheduleLine_build hk1 hn1)
      (buildTaggedLine_trim hk2 hn2) (jsIncludes_build hk2 hn2)
      (parseTaggedLine_build hk2 hn2) (metaGet_m2f_id J hidne)
      (parseScheduleLine_build hk2 hn2)
      (buildTaggedLine_trim hk3 hn3) (jsIncludes_build hk3 hn3)
      (parseTaggedLine_build hk3 hn3) (metaGet_m3f_id J hidne)
      (parseScheduleLine_build hk3 hn3)
      (jsTrim_exec_en hene (fun c hc => (hehead c hc).1) hidne) (jsIncludes_exec_en J e)
      (parseTaggedLine_exec heinc hidinc hidne)
      (metaGet_self_single (str "id") J.id) hidne
    cases hps : parseScheduleLine (execLineOf J e) with
    | none =>
      rw [hps] at hcore
      have hcore2 : findTaggedEntriesCore
          [buildTaggedLine (baseKVs J), buildTaggedLine (payloadKVs J),
           buildTaggedLine (scheduleKVs J), execLineOf J e] =
          ([(⟨J.id,
              [] ++ (baseKVs J).filter (fun kv => kv.2 ≠ []) ++
          (payloadKVs J).filter (fun kv => kv.2 ≠ []) ++
          (scheduleKVs J).filter (fun kv => kv.2 ≠ []) ++ [(str "id", J.id)],
              none, none, none, none, none⟩ : ParsedTaggedEntry)], []) := hcore
      have hfind := findTaggedEntries_none_idx hcore2 rfl
      have hmeta : (⟨J.id,
          [] ++ (baseKVs J).filter (fun kv => kv.2 ≠ []) ++
          (payloadKVs J).filter (fun kv => kv.2 ≠ []) ++
          (scheduleKVs J).filter (fun kv => kv.2 ≠ []) ++ [(str "id", J.id)],
          none, none, none, none, none⟩ : ParsedTaggedEntry).meta = entryMetaOf J [] := by
        show [] ++ (baseKVs J).filter (fun kv => kv.2 ≠ []) ++
          (payloadKVs J).filter (fun kv => kv.2 ≠ []) ++
          (scheduleKVs J).filter (fun kv => kv.2 ≠ []) ++ [(str "id", J.id)] = entryMetaOf J []
        simp [entryMetaOf]
      have hen : (if (⟨J.id,
          [] ++ (baseKVs J).filter (fun kv => kv.2 ≠ []) ++
          (payloadKVs J).filter (fun kv => kv.2 ≠ []) ++
          (scheduleKVs J).filter (fun kv => kv.2 ≠ []) ++ [(str "id", J.id)],
          none, none, none, none, none⟩ :
            ParsedTaggedEntry).scheduleDisabled = some true then false
          else (metaGet (entryMetaOf J []) (str "enabled") ≠ some (str "false") : Bool)) =
          J.enabled := by
        rw [if_neg (show ¬ ((none : Option Bool) = some true) from fun hco =>
          Option.noConfusion hco)]
        exact hen0
      have hstep := c1_entry_step cn now hfind hmeta delKeysOk_nil
        hidt hidne hname hst hwm hdesc hagent hskey hdar hca hua
        (hres _ rfl) hpay hdelv hen
      rw [hJe] at hstep
      exact hstep
    | some si =>
      have hdis : si.disabled = false := by
        have h2 := parseScheduleLine_disabled hps
        rw [jsTrimStart_exec_en hene (fun c hc => (hehead c hc).1)] at h2
        cases hhd : e.head? with
        | none =>
          exact absurd hhd (by simp [List.head?_eq_none_iff, hene])
        | some c =>
          rw [startsHash_exec_en hene hhd (hehead c hhd).2] at h2
          exact h2
      rw [hps] at hcore
      have hcore2 : findTaggedEntriesCore
          [buildTaggedLine (baseKVs J), buildTaggedLine (payloadKVs J),
           buildTaggedLine (scheduleKVs J), execLineOf J e] =
          ([(⟨J.id,
              [] ++ (baseKVs J).filter (fun kv => kv.2 ≠ []) ++
          (payloadKVs J).filter (fun kv => kv.2 ≠ []) ++
          (scheduleKVs J).filter (fun kv => kv.2 ≠ []) ++ [(str "id", J.id)],
              some (execLineOf J e), some si.disabled, some si.expr, none,
              some 3⟩ : ParsedTaggedEntry)], []) := hcore
      have hfind := findTaggedEntries_some_idx hcore2 rfl (by decide) rfl
        (show jsStartsWith (jsTrim (buildTaggedLine (scheduleKVs J)))
            (str "CRON_TZ=") = false from by
          rw [buildTaggedLine_trim hk3 hn3]
          exact startsCronTz_build hk3 hn3)
      have hmeta : (⟨J.id,
          [] ++ (baseKVs J).filter (fun kv => kv.2 ≠ []) ++
          (payloadKVs J).filter (fun kv => kv.2 ≠ []) ++
          (scheduleKVs J).filter (fun kv => kv.2 ≠ []) ++ [(str "id", J.id)],
          some (execLineOf J e), some si.disabled, some si.expr, none,
          some 3⟩ : ParsedTaggedEntry).meta = entryMetaOf J [] := by
        show [] ++ (baseKVs J).filter (fun kv => kv.2 ≠ []) ++
          (payloadKVs J).filter (fun kv => kv.2 ≠ []) ++
          (scheduleKVs J).filter (fun kv => kv.2 ≠ []) ++ [(str "id", J.id)] = entryMetaOf J []
        simp [entryMetaOf]
      have hen : (if (⟨J.id,
          [] ++ (baseKVs J).filter (fun kv => kv.2 ≠ []) ++
          (payloadKVs J).filter (fun kv => kv.2 ≠ []) ++
          (scheduleKVs J).filter (fun kv => kv.2 ≠ []) ++ [(str "id", J.id)],
          some (execLineOf J e), some si.disabled, some si.expr, none,
          some 3⟩ : ParsedTaggedEntry).scheduleDisabled = some true then false
          else (metaGet (entryMetaOf J []) (str "enabled") ≠ some (str "false") : Bool)) =
          J.enabled := by
        rw [if_neg (show ¬ (some si.disabled = some true) from fun hco => by
          have h3 := Option.some_inj.mp hco
          rw [hdis] at h3
          exact Bool.noConfusion h3)]
        exact hen0
      have hstep := c1_entry_step cn now hfind hmeta delKeysOk_nil
        hidt hidne hname hst hwm hdesc hagent hskey hdar hca hua
        (hres _ rfl) hpay hdelv hen
      rw [hJe] at hstep
      exact hstep

theorem c1_lines5 (cn : CronJob → Int → Option Int) (now : Int) {J : CronJob}
    {dv : CronDelivery} {e : Str}
    (hidt : jsTrim J.id = J.id) (hidne : ¬ J.id = []) (hidinc : jsIncludes J.id TAGP = false)
    (hname : J.name ≠ []) (hst : J.sessionTarget ≠ []) (hwm : J.wakeMode ≠ [])
    (hdesc : J.description ≠ some []) (hagent : J.agentId ≠ some [])
    (hskey : J.sessionKey ≠ some []) (hdar : J.deleteAfterRun ≠ some false)
    (hca : ¬ J.createdAtMs = 0) (hua : ¬ J.updatedAtMs = 0)
    (hpay : (if (metaGet (entryMetaOf J ((deliveryKVs J dv).filter (fun kv => kv.2 ≠ []))) (str "payload_kind")).getD (str "systemEvent") =
        str "agentTurn"
      then CronPayload.agentTurn {
          message := (metaGet (entryMetaOf J ((deliveryKVs J dv).filter (fun kv => kv.2 ≠ []))) (str "payload_message")).getD []
          model := jsOptStrOrUndef (metaGet (entryMetaOf J ((deliveryKVs J dv).filter (fun kv => kv.2 ≠ []))) (str "payload_model"))
          thinking := jsOptStrOrUndef (metaGet (entryMetaOf J ((deliveryKVs J dv).filter (fun kv => kv.2 ≠ []))) (str "payload_thinking"))
          timeoutSeconds :=
            jsOptNum (metaGet (entryMetaOf J ((deliveryKVs J dv).filter (fun kv => kv.2 ≠ []))) (str "payload_timeout_seconds"))
          allowUnsafeExternalContent := trueFlag
            (metaGet (entryMetaOf J ((deliveryKVs J dv).filter (fun kv => kv.2 ≠ []))) (str "payload_allow_unsafe_external_content"))
          deliver := trueFlag (metaGet (entryMetaOf J ((deliveryKVs J dv).filter (fun kv => kv.2 ≠ []))) (str "payload_deliver"))
          channel := jsOptStrOrUndef (metaGet (entryMetaOf J ((deliveryKVs J dv).filter (fun kv => kv.2 ≠ []))) (str "payload_channel"))
          toAddr := jsOptStrOrUndef (metaGet (entryMetaOf J ((deliveryKVs J dv).filter (fun kv => kv.2 ≠ []))) (str "payload_to"))
          bestEffortDeliver :=
            trueFlag (metaGet (entryMetaOf J ((deliveryKVs J dv).filter (fun kv => kv.2 ≠ []))) (str "payload_best_effort_deliver")) }
      else CronPayload.systemEvent ((metaGet (entryMetaOf J ((deliveryKVs J dv).filter (fun kv => kv.2 ≠ []))) (str "payload_text")).getD
        ((metaGet (entryMetaOf J ((deliveryKVs J dv).filter (fun kv => kv.2 ≠ []))) (str "payload_message")).getD []))) = J.payload)
    (hdelivery : J.delivery = some dv) (hmode : dv.mode ≠ [])
    (hmn : ¬ dv.mode = str "none") (hchan : dv.channel ≠ some [])
    (hto : dv.toAddr ≠ some []) (hbe : dv.bestEffort ≠ some false)
    (hef : ExprFacts e)
    (hres : ∀ ent : ParsedTaggedEntry, ent.scheduleTz = none →
      resolveSchedule (entryMetaOf J ((deliveryKVs J dv).filter (fun kv => kv.2 ≠ []))) ent = some J.schedule) :
    decodeJobs cn now
      [buildTaggedLine (baseKVs J), buildTaggedLine (payloadKVs J),
       buildTaggedLine (deliveryKVs J dv),
       buildTaggedLine (scheduleKVs J),
       if J.enabled then execLineOf J e else str "# " ++ execLineOf J e] =
      ([if J.enabled then
          { J with state := { nextRunAtMs := cn { J with state := {} } now } }
        else { J with state := {} }], []) := by
  obtain ⟨hene, heinc, hepre, hehead⟩ := hef
  have hk1 := goodKeys_base J
  have hn1 := tokenParts_base_ne J hidne
  have hk2 := goodKeys_payload J
  have hn2 := tokenParts_payload_ne J hidne
  have hkD := goodKeys_delivery J dv
  have hnD := tokenParts_delivery_ne J dv hidne
  have hk3 := goodKeys_schedule J
  have hn3 := tokenParts_schedule_ne J hidne
  have hdelv := delivery_decode_some hdelivery hidne hmode hmn hchan hto hbe
  have hen0 := enabled_decode hidne hname hst hwm (delKeysOk_filter J dv)
  cases hJe : J.enabled
  · -- disabled job
    have hcore := findCore_five (buildTaggedLine_trim hk1 hn1) (jsIncludes_build hk1 hn1)
      (parseTaggedLine_build hk1 hn1) (metaGet_m1f_id J hidne hname hst hwm)
      (parseScheduleLine_build hk1 hn1)
      (buildTaggedLine_trim hk2 hn2) (jsIncludes_build hk2 hn2)
      (parseTaggedLine_build hk2 hn2) (metaGet_m2f_id J hidne)
      (parseScheduleLine_build hk2 hn2)
      (buildTaggedLine_trim hkD hnD) (jsIncludes_build hkD hnD)
      (parseTaggedLine_build hkD hnD) (metaGet_mDf_id J dv hidne hmode)
      (parseScheduleLine_build hkD hnD)
      (buildTaggedLine_trim hk3 hn3) (jsIncludes_build hk3 hn3)
      (parseTaggedLine_build hk3 hn3) (metaGet_m3f_id J hidne)
      (parseScheduleLine_build hk3 hn3)
      (jsTrim_exec_dis hidne) (jsIncludes_exec_dis J e)
      (parseTaggedLine_exec_dis heinc hidinc hidne hepre)
      (metaGet_self_single (str "id") J.id) hidne
    cases hps : parseScheduleLine (str "# " ++ execLineOf J e) with
    | none =>
      rw [hps] at hcore
      have hcore2 : findTaggedEntriesCore
          [buildTaggedLine (baseKVs J), buildTaggedLine (payloadKVs J),
           buildTaggedLine (deliveryKVs J dv),
           buildTaggedLine (scheduleKVs J), str "# " ++ execLineOf J e] =
          ([(⟨J.id,
              [] ++ (baseKVs J).filter (fun kv => kv.2 ≠ []) ++
          (payloadKVs J).filter (fun kv => kv.2 ≠ []) ++
          (deliveryKVs J dv).filter (fun kv => kv.2 ≠ []) ++
          (scheduleKVs J).filter (fun kv => kv.2 ≠ []) ++ [(str "id", J.id)],
              none, none, none, none, none⟩ : ParsedTaggedEntry)], []) := hcore
      have hfind := findTaggedEntries_none_idx hcore2 rfl
      have hmeta : (⟨J.id,
          [] ++ (baseKVs J).filter (fun kv => kv.2 ≠ []) ++
          (payloadKVs J).filter (fun kv => kv.2 ≠ []) ++
          (deliveryKVs J dv).filter (fun kv => kv.2 ≠ []) ++
          (scheduleKVs J).filter (fun kv => kv.2 ≠ []) ++ [(str "id", J.id)],
          none, none, none, none, none⟩ : ParsedTaggedEntry).meta =
          entryMetaOf J ((deliveryKVs J dv).filter (fun kv => kv.2 ≠ [])) := by
        show [] ++ (baseKVs J).filter (fun kv => kv.2 ≠ []) ++
          (payloadKVs J).filter (fun kv => kv.2 ≠ []) ++
          (deliveryKVs J dv).filter (fun kv => kv.2 ≠ []) ++
          (scheduleKVs J).filter (fun kv => kv.2 ≠ []) ++ [(str "id", J.id)] = entryMetaOf J ((deliveryKVs J dv).filter (fun kv => kv.2 ≠ []))
        simp [entryMetaOf]
      have hen : (if (⟨J.id,
          [] ++ (baseKVs J).filter (fun kv => kv.2 ≠ []) ++
          (payloadKVs J).filter (fun kv => kv.2 ≠ []) ++
          (deliveryKVs J dv).filter (fun kv => kv.2 ≠ []) ++
          (scheduleKVs J).filter (fun kv => kv.2 ≠ []) ++ [(str "id", J.id)],
          none, none, none, none, none⟩ :
            ParsedTaggedEntry).scheduleDisabled = some true then false
          else (metaGet (entryMetaOf J ((deliveryKVs J dv).filter (fun kv => kv.2 ≠ []))) (str "enabled") ≠
            some (str "false") : Bool)) = J.enabled := by
        rw [if_neg (show ¬ ((none : Option Bool) = some true) from fun hco =>
          Option.noConfusion hco)]
        exact hen0
      have hstep := c1_entry_step cn now hfind hmeta (delKeysOk_filter J dv)
        hidt hidne hname hst hwm hdesc hagent hskey hdar hca hua
        (hres _ rfl) hpay hdelv hen
      rw [hJe] at hstep
      exact hstep
    | some si =>
      have hdis : si.disabled = true := by
        have h2 := parseScheduleLine_disabled hps
        rw [jsTrimStart_exec_dis J e, startsHash_exec_dis J e] at h2
        exact h2
      rw [hps] at hcore
      have hcore2 : findTaggedEntriesCore
          [buildTaggedLine (baseKVs J), buildTaggedLine (payloadKVs J),
           buildTaggedLine (deliveryKVs J dv),
           buildTaggedLine (scheduleKVs J), str "# " ++ execLineOf J e] =
          ([(⟨J.id,
              [] ++ (baseKVs J).filter (fun kv => kv.2 ≠ []) ++
          (payloadKVs J).filter (fun kv => kv.2 ≠ []) ++
          (deliveryKVs J dv).filter (fun kv => kv.2 ≠ []) ++
          (scheduleKVs J).filter (fun kv => kv.2 ≠ []) ++ [(str "id", J.id)],
              some (str "# " ++ execLineOf J e), some si.disabled, some si.expr, none,
              some 4⟩ : ParsedTaggedEntry)], []) := hcore
      have hfind := findTaggedEntries_some_idx hcore2 rfl (by decide) rfl
        (show jsStartsWith (jsTrim (buildTaggedLine (scheduleKVs J)))
            (str "CRON_TZ=") = false from by
          rw [buildTaggedLine_trim hk3 hn3]
          exact startsCronTz_build hk3 hn3)
      have hmeta : (⟨J.id,
          [] ++ (baseKVs J).filter (fun kv => kv.2 ≠ []) ++
          (payloadKVs J).filter (fun kv => kv.2 ≠ []) ++
          (deliveryKVs J dv).filter (fun kv => kv.2 ≠ []) ++
          (scheduleKVs J).filter (fun kv => kv.2 ≠ []) ++ [(str "id", J.id)],
          some (str "# " ++ execLineOf J e), some si.disabled, some si.expr, none,
          some 4⟩ : ParsedTaggedEntry).meta = entryMetaOf J ((deliveryKVs J dv).filter (fun kv => kv.2 ≠ [])) := by
        show [] ++ (baseKVs J).filter (fun kv => kv.2 ≠ []) ++
          (payloadKVs J).filter (fun kv => kv.2 ≠ []) ++
          (deliveryKVs J dv).filter (fun kv => kv.2 ≠ []) ++
          (scheduleKVs J).filter (fun kv => kv.2 ≠ []) ++ [(str "id", J.id)] = entryMetaOf J ((deliveryKVs J dv).filter (fun kv => kv.2 ≠ []))
        simp [entryMetaOf]
      have hen : (if (⟨J.id,
          [] ++ (baseKVs J).filter (fun kv => kv.2 ≠ []) ++
          (payloadKVs J).filter (fun kv => kv.2 ≠ []) ++
          (deliveryKVs J dv).filter (fun kv => kv.2 ≠ []) ++
          (scheduleKVs J).filter (fun kv => kv.2 ≠ []) ++ [(str "id", J.id)],
          some (str "# " ++ execLineOf J e), some si.disabled, some si.expr, none,
          some 4⟩ : ParsedTaggedEntry).scheduleDisabled = some true then false
          else (metaGet (entryMetaOf J ((deliveryKVs J dv).filter (fun kv => kv.2 ≠ []))) (str "enabled") ≠
            some (str "false") : Bool)) = J.enabled := by
        rw [if_pos (show some si.disabled = some true from by rw [hdis])]
        exact hJe.symm
      have hstep := c1_entry_step cn now hfind hmeta (delKeysOk_filter J dv)
        hidt hidne hname hst hwm hdesc hagent hskey hdar hca hua
        (hres _ rfl) hpay hdelv hen
      rw [hJe] at hstep
      exact hstep
  · -- enabled job
    have hcore := findCore_five (buildTaggedLine_trim hk1 hn1) (jsIncludes_build hk1 hn1)
      (parseTaggedLine_build hk1 hn1) (metaGet_m1f_id J hidne hname hst hwm)
      (parseScheduleLine_build hk1 hn1)
      (buildTaggedLine_trim hk2 hn2) (jsIncludes_build hk2 hn2)
      (parseTaggedLine_build hk2 hn2) (metaGet_m2f_id J hidne)
      (parseScheduleLine_build hk2 hn2)
      (buildTaggedLine_trim hkD hnD) (jsIncludes_build hkD hnD)
      (parseTaggedLine_build hkD hnD) (metaGet_mDf_id J dv hidne hmode)
      (parseScheduleLine_build hkD hnD)
      (buildTaggedLine_trim hk3 hn3) (jsIncludes_build hk3 hn3)
      (parseTaggedLine_build hk3 hn3) (metaGet_m3f_id J hidne)
      (parseScheduleLine_build hk3 hn3)
      (jsTrim_exec_en hene (fun c hc => (hehead c hc).1) hidne) (jsIncludes_exec_en J e)
      (parseTaggedLine_exec heinc hidinc hidne)
      (metaGet_self_single (str "id") J.id) hidne
    cases hps : parseScheduleLine (execLineOf J e) with
    | none =>
      rw [hps] at hcore
      have hcore2 : findTaggedEntriesCore
          [buildTaggedLine (baseKVs J), buildTaggedLine (payloadKVs J),
           buildTaggedLine (deliveryKVs J dv),
           buildTaggedLine (scheduleKVs J), execLineOf J e] =
          ([(⟨J.id,
              [] ++ (baseKVs J).filter (fun kv => kv.2 ≠ []) ++
          (payloadKVs J).filter (fun kv => kv.2 ≠ []) ++
          (deliveryKVs J dv).filter (fun kv => kv.2 ≠ []) ++
          (scheduleKVs J).filter (fun kv => kv.2 ≠ []) ++ [(str "id", J.id)],
              none, none, none, none, none⟩ : ParsedTaggedEntry)], []) := hcore
      have hfind := findTaggedEntries_none_idx hcore2 rfl
      have hmeta : (⟨J.id,
          [] ++ (baseKVs J).filter (fun kv => kv.2 ≠ []) ++
          (payloadKVs J).filter (fun kv => kv.2 ≠ []) ++
          (deliveryKVs J dv).filter (fun kv => kv.2 ≠ []) ++
          (scheduleKVs J).filter (fun kv => kv.2 ≠ []) ++ [(str "id", J.id)],
          none, none, none, none, none⟩ : ParsedTaggedEntry).meta =
          entryMetaOf J ((deliveryKVs J dv).filter (fun kv => kv.2 ≠ [])) := by
        show [] ++ (baseKVs J).filter (fun kv => kv.2 ≠ []) ++
          (payloadKVs J).filter (fun kv => kv.2 ≠ []) ++
          (deliveryKVs J dv).filter (fun kv => kv.2 ≠ []) ++
          (scheduleKVs J).filter (fun kv => kv.2 ≠ []) ++ [(str "id", J.id)] = entryMetaOf J ((deliveryKVs J dv).filter (fun kv => kv.2 ≠ []))
        simp [entryMetaOf]
      have hen : (if (⟨J.id,
          [] ++ (baseKVs J).filter (fun kv => kv.2 ≠ []) ++
          (payloadKVs J).filter (fun kv => kv.2 ≠ []) ++
          (deliveryKVs J dv).filter (fun kv => kv.2 ≠ []) ++
          (scheduleKVs J).filter (fun kv => kv.2 ≠ []) ++ [(str "id", J.id)],
          none, none, none, none, none⟩ :
            ParsedTaggedEntry).scheduleDisabled = some true then false
          else (metaGet (entryMetaOf J ((deliveryKVs J dv).filter (fun kv => kv.2 ≠ []))) (str "enabled") ≠
            some (str "false") : Bool)) = J.enabled := by
        rw [if_neg (show ¬ ((none : Option Bool) = some true) from fun hco =>
          Option.noConfusion hco)]
        exact hen0
      have hstep := c1_entry_step cn now hfind hmeta (delKeysOk_filter J dv)
        hidt hidne hname hst hwm hdesc hagent hskey hdar hca hua
        (hres _ rfl) hpay hdelv hen
      rw [hJe] at hstep
      exact hstep
    | some si =>
      have hdis : si.disabled = false := by
        have h2 := parseScheduleLine_disabled hps
        rw [jsTrimStart_exec_en hene (fun c hc => (hehead c hc).1)] at h2
        cases hhd : e.head? with
        | none =>
          exact absurd hhd (by simp [List.head?_eq_none_iff, hene])
        | some c =>
          rw [startsHash_exec_en hene hhd (hehead c hhd).2] at h2
          exact h2
      rw [hps] at hcore
      have hcore2 : findTaggedEntriesCore
          [buildTaggedLine (baseKVs J), buildTaggedLine (payloadKVs J),
           buildTaggedLine (deliveryKVs J dv),
           buildTaggedLine (scheduleKVs J), execLineOf J e] =
          ([(⟨J.id,
              [] ++ (baseKVs J).filter (fun kv => kv.2 ≠ []) ++
          (payloadKVs J).filter (fun kv => kv.2 ≠ []) ++
          (deliveryKVs J dv).filter (fun kv => kv.2 ≠ []) ++
          (scheduleKVs J).filter (fun kv => kv.2 ≠ []) ++ [(str "id", J.id)],
              some (execLineOf J e), some si.disabled, some si.expr, none,
              some 4⟩ : ParsedTaggedEntry)], []) := hcore
      have hfind := findTaggedEntries_some_idx hcore2 rfl (by decide) rfl
        (show jsStartsWith (jsTrim (buildTaggedLine (scheduleKVs J)))
            (str "CRON_TZ=") = false from by
          rw [buildTaggedLine_trim hk3 hn3]
          exact startsCronTz_build hk3 hn3)
      have hmeta : (⟨J.id,
          [] ++ (baseKVs J).filter (fun kv => kv.2 ≠ []) ++
          (payloadKVs J).filter (fun kv => kv.2 ≠ []) ++
          (deliveryKVs J dv).filter (fun kv => kv.2 ≠ []) ++
          (scheduleKVs J).filter (fun kv => kv.2 ≠ []) ++ [(str "id", J.id)],
          some (execLineOf J e), some si.disabled, some si.expr, none,
          some 4⟩ : ParsedTaggedEntry).meta = entryMetaOf J ((deliveryKVs J dv).filter (fun kv => kv.2 ≠ [])) := by
        show [] ++ (baseKVs J).filter (fun kv => kv.2 ≠ []) ++
          (payloadKVs J).filter (fun kv => kv.2 ≠ []) ++
          (deliveryKVs J dv).filter (fun kv => kv.2 ≠ []) ++
          (scheduleKVs J).filter (fun kv => kv.2 ≠ []) ++ [(str "id", J.id)] = entryMetaOf J ((deliveryKVs J dv).filter (fun kv => kv.2 ≠ []))
        simp [entryMetaOf]
      have hen : (if (⟨J.id,
          [] ++ (baseKVs J).filter (fun kv => kv.2 ≠ []) ++
          (payloadKVs J).filter (fun kv => kv.2 ≠ []) ++
          (deliveryKVs J dv).filter (fun kv => kv.2 ≠ []) ++
          (scheduleKVs J).filter (fun kv => kv.2 ≠ []) ++ [(str "id", J.id)],
          some (execLineOf J e), some si.disabled, some si.expr, none,
          some 4⟩ : ParsedTaggedEntry).scheduleDisabled = some true then false
          else (metaGet (entryMetaOf J ((deliveryKVs J dv).filter (fun kv => kv.2 ≠ []))) (str "enabled") ≠
            some (str "false") : Bool)) = J.enabled := by
        rw [if_neg (show ¬ (some si.disabled = some true) from fun hco => by
          have h3 := Option.some_inj.mp hco
          rw [hdis] at h3
          exact Bool.noConfusion h3)]
        exact hen0
      have hstep := c1_entry_step cn now hfind hmeta (delKeysOk_filter J dv)
        hidt hidne hname hst hwm hdesc hagent hskey hdar hca hua
        (hres _ rfl) hpay hdelv hen
      rw [hJe] at hstep
      exact hstep

theorem state_if_push (J : CronJob) (c : Bool) (x y : CronState) :
    { J with state := if c then x else y } =
    if c then { J with state := x } else { J with state := y } := by
  cases c <;> rfl

theorem payload_decode {J : CronJob} {mdel : List (Str × Str)}
    (hidne : J.id ≠ []) (hd : delKeysOk mdel)
    (hpayc : (match J.payload with
      | .systemEvent _ => True
      | .agentTurn p =>
        p.model ≠ some [] ∧ p.thinking ≠ some [] ∧ p.channel ≠ some [] ∧
        p.toAddr ≠ some [] ∧ p.allowUnsafeExternalContent ≠ some false ∧
        p.deliver ≠ some false ∧ p.bestEffortDeliver ≠ some false)) :
    (if (metaGet (entryMetaOf J mdel) (str "payload_kind")).getD (str "systemEvent") =
        str "agentTurn"
      then CronPayload.agentTurn {
          message := (metaGet (entryMetaOf J mdel) (str "payload_message")).getD []
          model := jsOptStrOrUndef (metaGet (entryMetaOf J mdel) (str "payload_model"))
          thinking := jsOptStrOrUndef (metaGet (entryMetaOf J mdel) (str "payload_thinking"))
          timeoutSeconds :=
            jsOptNum (metaGet (entryMetaOf J mdel) (str "payload_timeout_seconds"))
          allowUnsafeExternalContent := trueFlag
            (metaGet (entryMetaOf J mdel) (str "payload_allow_unsafe_external_content"))
          deliver := trueFlag (metaGet (entryMetaOf J mdel) (str "payload_deliver"))
          channel := jsOptStrOrUndef (metaGet (entryMetaOf J mdel) (str "payload_channel"))
          toAddr := jsOptStrOrUndef (metaGet (entryMetaOf J mdel) (str "payload_to"))
          bestEffortDeliver :=
            trueFlag (metaGet (entryMetaOf J mdel) (str "payload_best_effort_deliver")) }
      else CronPayload.systemEvent ((metaGet (entryMetaOf J mdel) (str "payload_text")).getD
        ((metaGet (entryMetaOf J mdel) (str "payload_message")).getD []))) = J.payload := by
  match hp : J.payload with
  | .systemEvent text => exact hp ▸ payload_decode_system hp hidne hd
  | .agentTurn p =>
    rw [hp] at hpayc
    obtain ⟨h1, h2, h3, h4, h5, h6, h7⟩ := hpayc
    exact hp ▸ payload_decode_agent hp hidne hd h1 h2 h3 h4 h5 h6 h7

theorem c1_dispatch (cn : CronJob → Int → Option Int) (now : Int) {J : CronJob} {e : Str}
    (hidt : jsTrim J.id = J.id) (hidne : ¬ J.id = []) (hidinc : jsIncludes J.id TAGP = false)
    (hname : J.name ≠ []) (hst : J.sessionTarget ≠ []) (hwm : J.wakeMode ≠ [])
    (hdesc : J.description ≠ some []) (hagent : J.agentId ≠ some [])
    (hskey : J.sessionKey ≠ some []) (hdar : J.deleteAfterRun ≠ some false)
    (hca : ¬ J.createdAtMs = 0) (hua : ¬ J.updatedAtMs = 0)
    (hpayc : (match J.payload with
      | .systemEvent _ => True
      | .agentTurn p =>
        p.model ≠ some [] ∧ p.thinking ≠ some [] ∧ p.channel ≠ some [] ∧
        p.toAddr ≠ some [] ∧ p.allowUnsafeExternalContent ≠ some false ∧
        p.deliver ≠ some false ∧ p.bestEffortDeliver ≠ some false))
    (hdelc : (match J.delivery with
      | none => True
      | some dv =>
        dv.mode ≠ [] ∧ ¬ dv.mode = str "none" ∧ dv.channel ≠ some [] ∧
        dv.toAddr ≠ some [] ∧ dv.bestEffort ≠ some false))
    (hef : ExprFacts e)
    (hres : ∀ mdel : List (Str × Str), delKeysOk mdel →
      ∀ ent : ParsedTaggedEntry, ent.scheduleTz = none →
        resolveSchedule (entryMetaOf J mdel) ent = some J.schedule) :
    ∃ st, decodeJobs cn now
      ([buildTaggedLine (baseKVs J), buildTaggedLine (payloadKVs J)] ++ deliveryLinesOf J ++
       [buildTaggedLine (scheduleKVs J)] ++
       [if J.enabled then execLineOf J e else str "# " ++ execLineOf J e]) =
      ([{ J with state := st }], []) := by
  refine ⟨if J.enabled then { nextRunAtMs := cn { J with state := {} } now } else {}, ?_⟩
  rw [state_if_push]
  match hdel : J.delivery with
  | none =>
    rw [deliveryLinesOf_none hdel]
    exact hdel ▸ c1_lines4 cn now hidt hidne hidinc hname hst hwm hdesc hagent hskey hdar
      hca hua (payload_decode hidne delKeysOk_nil hpayc) hdel hef (hres [] delKeysOk_nil)
  | some dv =>
    rw [hdel] at hdelc
    obtain ⟨hmode, hmn, hchan, hto, hbe⟩ := hdelc
    rw [deliveryLinesOf_some hdel hmn]
    exact hdel ▸ c1_lines5 cn now hidt hidne hidinc hname hst hwm hdesc hagent hskey hdar
      hca hua (payload_decode hidne (delKeysOk_filter J dv) hpayc) hdel hmode hmn hchan hto
      hbe hef (hres _ (delKeysOk_filter J dv))

/-- C1 (corrected): codec round-trip.  For every canonical `CronJob` — one
whose stored strings are the exact normal forms the codec writes back
(trimmed nonempty id, nonempty name/session target/wake mode, no
empty-string optionals, no `some false` boolean flags, nonzero timestamps,
delivery mode neither empty nor `"none"`), whose id does not contain the
tagged-line marker `# openclaw:cron`, and whose `cron` schedule (if any)
has no timezone and a trimmed expression that does not start with `'#'`
or with the bare tag and does not contain the marker — whose schedule
`resolveCrontabSchedule` accepts, encoding the job with
`buildTaggedEntryLines` and then decoding the produced lines the way
`readCrontabSnapshot` does (`findTaggedEntries` followed by
`buildJobFromEntry`) yields exactly one job and no errors, and that job
equals the original on every field except `state` (whose `nextRunAtMs` is
recomputed).  The unrestricted claim is refuted by `c1_counterexample`: a
feasible job with `deleteAfterRun = some false` decodes with
`deleteAfterRun = none`. -/
theorem c1_theorem (off : Int) (cn : CronJob → Int → Option Int) (now : Int)
    (J : CronJob) (lines : List Str)
    (hfeas : buildTaggedEntryLines off J = .ok lines)
    (hcanon : IsCanonical J) :
    ∃ st, decodeJobs cn now lines = ([{ J with state := st }], []) := by
  obtain ⟨hidt, hidne, hidinc, hname, hst, hwm, hdesc, hagent, hskey, hdar, hca, hua,
    hpayc, hdelc, hschc⟩ := hcanon
  unfold buildTaggedEntryLines at hfeas
  split at hfeas
  · exact Except.noConfusion hfeas
  · next e hres0 =>
    obtain rfl := Except.ok.inj hfeas
    match hs : J.schedule with
    | .cron expr tz stag =>
      rw [hs] at hres0 hschc
      obtain ⟨rfl, hhash, hinc, hpre⟩ := hschc
      obtain ⟨heq, hne2⟩ := resolveCrontab_cron_ok hres0
      have hexpr : expr ≠ [] := fun h0 => hne2 (by rw [h0]; rfl)
      subst heq
      have htzp : tzPrefixLines J = [] := by unfold tzPrefixLines; rw [hs]
      have htzr : tzResetLines J = [] := by unfold tzResetLines; rw [hs]
      rw [htzp, htzr]
      simp only [List.append_nil]
      exact hs ▸ c1_dispatch cn now hidt hidne hidinc hname hst hwm hdesc hagent hskey hdar
        hca hua hpayc hdelc
        ⟨hne2, hinc, hpre, fun c hc =>
          ⟨jsTrim_head_ws hc, fun h => hhash (h ▸ hc)⟩⟩
        (fun mdel hd ent htz2 => resolveSchedule_cron hs hidne hd hexpr htz2)
    | .every ms anchor =>
      rw [hs] at hres0
      obtain ⟨hms, rfl, hdisj⟩ := resolveCrontab_every_ok hres0
      have htzp : tzPrefixLines J = [] := by unfold tzPrefixLines; rw [hs]
      have htzr : tzResetLines J = [] := by unfold tzResetLines; rw [hs]
      rw [htzp, htzr]
      simp only [List.append_nil]
      exact hs ▸ c1_dispatch cn now hidt hidne hidinc hname hst hwm hdesc hagent hskey hdar
        hca hua hpayc hdelc (every_expr_facts hdisj)
        (fun mdel hd ent htz2 => resolveSchedule_every hs hidne hd hms)
    | .atTime a =>
      rw [hs] at hres0
      obtain ⟨ha, t, heq⟩ := resolveCrontab_at_ok hres0
      subst heq
      have htzp : tzPrefixLines J = [] := by unfold tzPrefixLines; rw [hs]
      have htzr : tzResetLines J = [] := by unfold tzResetLines; rw [hs]
      rw [htzp, htzr]
      simp only [List.append_nil]
      exact hs ▸ c1_dispatch cn now hidt hidne hidinc hname hst hwm hdesc hagent hskey hdar
        hca hua hpayc hdelc (atExpr_facts off t)
        (fun mdel hd ent htz2 => resolveSchedule_at hs hidne hd ha)

set_option maxRecDepth 100000 in
theorem c1_witness :
    IsCanonical c1WitnessJob ∧
    ∃ st, decodeJobs (fun _ _ => none) 0
        ((buildTaggedEntryLines 0 c1WitnessJob).toOption.getD []) =
      ([{ c1WitnessJob with state := st }], []) := by
  have hcan : IsCanonical c1WitnessJob := by
    unfold IsCanonical
    exact ⟨rfl, by decide, by decide, by decide, by decide, by decide, by decide,
      by decide, by decide, by decide, by decide, by decide, trivial, trivial, trivial⟩
  exact ⟨hcan, c1_theorem 0 (fun _ _ => none) 0 c1WitnessJob _ rfl hcan⟩

set_option maxRecDepth 100000 in
theorem c1_counterexample :
    (buildTaggedEntryLines 0 c1CexJob).toOption.map (fun lines =>
      (decodeJobs (fun _ _ => none) 0 lines).1.map (fun j => j.deleteAfterRun)) =
      some [none] ∧
    c1CexJob.deleteAfterRun = some false := ⟨rfl, rfl⟩

end Openclaw
